import Mathlib

/-!
# contour-gyro: orientation tracker (imu.h) and gyro interface (mpu.h)

A shallow embedding of the attitude estimator of the horizon-stabilised camera
controller.  `FLOAT` values are modelled as elements of a linearly ordered field
(instantiated with the real numbers in the theorems), machine integers as `Int`.
The C math library (`sin`, `cos`, `atan2`, `asin`) is passed in as a record of
functions; `realLibm` is its exact real-number reading.
-/

namespace ContourGyro

/-! ## Build flags and constants (main.c, invensense.h, pololu.h) -/

/-- Compile-time feature selections of main.c (given with -D on the command line). -/
structure Build where
  /-- Sensor family: 0 selects the Invensense MPU6050, anything else a Pololu board. -/
  HAVE_POLOLU : Nat
  /-- System clock in MHz, 8 or 16. -/
  HAVE_CLOCK : Nat

/-- The imu update rate of main.c, in Hz. -/
def IMU_HZ : Nat := 250

/-- The macro DEG_TO_RAD of main.c. -/
def DEG_TO_RAD {α : Type} [LinearOrderedField α] (X : α) : α := X * 0.0174532925199433

/-- The macro MPU_GYRO_SCALE_FACTOR: radians-per-second per digit (invensense.h or pololu.h). -/
def MPU_GYRO_SCALE_FACTOR {α : Type} [LinearOrderedField α] (b : Build) : α :=
  if b.HAVE_POLOLU ≠ 0 then DEG_TO_RAD 0.00875 else DEG_TO_RAD (2 * 250.0) / 65536

/-- Drift correction snapshots are taken whenever turn rate is lower than this, in radians/sec. -/
def IMU_RATE_THRESHOLD {α : Type} [LinearOrderedField α] : α := DEG_TO_RAD 1.0

/-- The time the low turn rate has to persist, in seconds. -/
def IMU_RATE_DURATION {α : Type} [LinearOrderedField α] : α := 0.040

/-- Time constant characterizing the speed with which drift corrections are applied, in seconds. -/
def IMU_TIME_CONSTANT {α : Type} [LinearOrderedField α] : α := 0.5

/-! ## State -/

/-- The interrupt communication area of mpu.h together with the static filter
state of MPU_update. -/
structure MPU where
  ACCO_x_bias : Int
  ACCO_y_bias : Int
  ACCO_z_bias : Int
  GYRO_x_bias : Int
  GYRO_y_bias : Int
  GYRO_z_bias : Int
  GYRO_x_urate : Int
  GYRO_y_urate : Int
  GYRO_z_urate : Int
  GYRO_x_srate : Int
  GYRO_y_srate : Int
  GYRO_z_srate : Int
  MPU_calibrating : Bool
  GYRO_x_sum : Int
  GYRO_y_sum : Int
  GYRO_z_sum : Int
  ACCO_x_sum : Int
  ACCO_y_sum : Int
  ACCO_z_sum : Int
  MPU_cnt : Int
  x_filter : Int
  y_filter : Int
  z_filter : Int

/-- The interrupt communication area of imu.h together with the static
stance timer `duration` of IMU_update. -/
structure IMU (α : Type) where
  Rxx : α
  Rxy : α
  Rxz : α
  Ryx : α
  Ryy : α
  Ryz : α
  Rzx : α
  Rzy : α
  Rzz : α
  IMU_rollReference : α
  IMU_pitchReference : α
  IMU_rollError : α
  IMU_pitchError : α
  IMU_yawError : α
  IMU_aligned : Bool
  IMU_apply_dc : Bool
  duration : α

/-- The functions of the C math library used by imu.h. -/
structure Libm (α : Type) where
  sin : α → α
  cos : α → α
  atan2 : α → α → α
  asin : α → α

/-- The two-argument arctangent on real numbers: the angle in (-π, π] of the
point with abscissa `x` and ordinate `y`. -/
noncomputable def atan2 (y x : ℝ) : ℝ :=
  if 0 < x then Real.arctan (y / x)
  else if x < 0 then (if 0 ≤ y then Real.arctan (y / x) + Real.pi else Real.arctan (y / x) - Real.pi)
  else if 0 < y then Real.pi / 2
  else if y < 0 then -(Real.pi / 2)
  else 0

/-- The math library read over the real numbers. -/
noncomputable def realLibm : Libm ℝ where
  sin := Real.sin
  cos := Real.cos
  atan2 := atan2
  asin := Real.arcsin

/-! ## mpu.h: gyro interface read by the integrator -/

section Code

variable {α : Type} [LinearOrderedField α]

/-- GYRO_getRotations: how far the gyros have turned during the current imu timestep,
in radians (roll, pitch, yaw), from the unsmoothed rates. -/
def GYRO_getRotations (b : Build) (mpu : MPU) : α × α × α :=
  let x := mpu.GYRO_x_urate
  let y := mpu.GYRO_y_urate
  let z := mpu.GYRO_z_urate
  let IMU_TIMESTEP : α := 1.0 / (IMU_HZ : α)
  ((x : α) * MPU_GYRO_SCALE_FACTOR b * IMU_TIMESTEP,
   (y : α) * MPU_GYRO_SCALE_FACTOR b * IMU_TIMESTEP,
   (z : α) * MPU_GYRO_SCALE_FACTOR b * IMU_TIMESTEP)

/-- GYRO_getYawRate: the smoothed yaw rate, in radians/sec. -/
def GYRO_getYawRate (b : Build) (mpu : MPU) : α :=
  let z := mpu.GYRO_z_srate
  (z : α) * MPU_GYRO_SCALE_FACTOR b

/-! ## imu.h -/

/-- IMU_set: initialize the orientation matrix, the reference angles and the
pending errors from roll, pitch, yaw. -/
def IMU_set (m : Libm α) (s : IMU α) (roll pitch yaw : α) : IMU α :=
  let R := roll
  let P := pitch
  let Y := yaw
  let sinR := m.sin R
  let cosR := m.cos R
  let sinP := m.sin P
  let cosP := m.cos P
  let sinY := m.sin Y
  let cosY := m.cos Y
  { s with
    Rxx := cosP * cosY
    Rxy := sinR * sinP * cosY - cosR * sinY
    Rxz := cosR * sinP * cosY + sinR * sinY
    Ryx := cosP * sinY
    Ryy := sinY * sinP * sinY + cosR * cosY
    Ryz := cosR * sinP * sinY - sinR * cosY
    Rzx := -sinP
    Rzy := sinR * cosP
    Rzz := cosR * cosP
    IMU_rollReference := roll
    IMU_pitchReference := pitch
    IMU_rollError := 0
    IMU_pitchError := 0
    IMU_yawError := 0 }

/-- IMU_getRollAngle. -/
def IMU_getRollAngle (m : Libm α) (s : IMU α) : α :=
  let a := s.Rzy
  let b := s.Rzz
  m.atan2 a b

/-- IMU_getPitchAngle. -/
def IMU_getPitchAngle (m : Libm α) (s : IMU α) : α :=
  let a := s.Rzx; -(m.asin a)

/-- IMU_getYawAngle. -/
def IMU_getYawAngle (m : Libm α) (s : IMU α) : α :=
  let a := s.Ryx
  let b := s.Rxx
  m.atan2 a b

/-- IMU_align: clear the flag, set the matrix, set the flag (the printf is not modelled). -/
def IMU_align (m : Libm α) (s : IMU α) (roll pitch yaw : α) : IMU α :=
  let s1 := { s with IMU_aligned := false }
  let s2 := IMU_set m s1 roll pitch yaw
  { s2 with IMU_aligned := true }

/-- IMU_rotate: rotate the orientation matrix by the differential rotations
dx, dy, dz (radians), then re-orthonormalize it. -/
def IMU_rotate (s : IMU α) (dx dy dz : α) : IMU α :=
  let Qxx : α := 1
  let Qxy := -dz
  let Qxz := dy
  let Qyx := dz
  let Qyy : α := 1
  let Qyz := -dx
  let Qzx := -dy
  let Qzy := dx
  let Qzz : α := 1
  -- T = R * Q, then R = T
  let Txx := s.Rxx * Qxx + s.Rxy * Qyx + s.Rxz * Qzx
  let Txy := s.Rxx * Qxy + s.Rxy * Qyy + s.Rxz * Qzy
  let Txz := s.Rxx * Qxz + s.Rxy * Qyz + s.Rxz * Qzz
  let Tyx := s.Ryx * Qxx + s.Ryy * Qyx + s.Ryz * Qzx
  let Tyy := s.Ryx * Qxy + s.Ryy * Qyy + s.Ryz * Qzy
  let Tyz := s.Ryx * Qxz + s.Ryy * Qyz + s.Ryz * Qzz
  let Tzx := s.Rzx * Qxx + s.Rzy * Qyx + s.Rzz * Qzx
  let Tzy := s.Rzx * Qxy + s.Rzy * Qyy + s.Rzz * Qzy
  let Tzz := s.Rzx * Qxz + s.Rzy * Qyz + s.Rzz * Qzz
  let s1 := { s with
    Rxx := Txx, Rxy := Txy, Rxz := Txz,
    Ryx := Tyx, Ryy := Tyy, Ryz := Tyz,
    Rzx := Tzx, Rzy := Tzy, Rzz := Tzz }
  -- how much rows X and Y are rotated towards each other
  let dot := Txx * Tyx + Txy * Tyy + Txz * Tyz
  let half := 0.5 * dot
  -- rotate row X away from Y
  let Xx := Txx - half * Tyx
  let Xy := Txy - half * Tyy
  let Xz := Txz - half * Tyz
  -- rotate row Y away from (the temporary copy of) X
  let Yx := Tyx - half * Txx
  let Yy := Tyy - half * Txy
  let Yz := Tyz - half * Txz
  -- row Z is the cross product of rows X and Y
  let Zx := Xy * Yz - Xz * Yy
  let Zy := Xz * Yx - Xx * Yz
  let Zz := Xx * Yy - Xy * Yx
  -- normalize each row with 1/sqrt(x) ~= 1/2 * (3 - x)
  let nx := 0.5 * (3 - (Xx * Xx + Xy * Xy + Xz * Xz))
  let ny := 0.5 * (3 - (Yx * Yx + Yy * Yy + Yz * Yz))
  let nz := 0.5 * (3 - (Zx * Zx + Zy * Zy + Zz * Zz))
  { s1 with
    Rxx := Xx * nx
    Rxy := Xy * nx
    Rxz := Xz * nx
    Ryx := Yx * ny
    Ryy := Yy * ny
    Ryz := Yz * ny
    Rzx := Zx * nz
    Rzy := Zy * nz
    Rzz := Zz * nz }

/-- The stance classifier of IMU_update (imu.h lines 274-286): from the smoothed
yaw rate and the old value of the static `duration`, the flag `upright` as it
stands after the persistence check, and the new `duration`. -/
def IMU_stance (b : Build) (mpu : MPU) (duration : α) : Bool × α :=
  let upright : Bool := decide (|(GYRO_getYawRate b mpu : α)| ≤ IMU_RATE_THRESHOLD)
  if upright then
    let duration1 := duration + 1.0 / (IMU_HZ : α)
    if duration1 < IMU_RATE_DURATION then (false, duration1) else (upright, duration1)
  else
    (upright, 0)

/-- The drift error snapshot of IMU_update (imu.h lines 288-304). -/
def IMU_snapshot (upright : Bool) (s : IMU α) : IMU α :=
  if upright then
    { s with
      IMU_rollError := s.Rzy - s.IMU_rollReference
      IMU_pitchError := -s.Rzx - s.IMU_pitchReference
      IMU_yawError := 0 }
  else s

/-- The fraction of the pending error applied per correction, `K` of IMU_update. -/
def IMU_K : α :=
  let T : α := IMU_TIME_CONSTANT
  let C : α := (IMU_HZ : α)
  1.0 / T / C

/-- The correction and rotation part of IMU_update (imu.h lines 312-346), given
the gyro rotations of this timestep. -/
def IMU_correct (s : IMU α) (rollDelta pitchDelta yawDelta : α) : IMU α :=
  let K : α := IMU_K
  let rollCorr := -K * s.IMU_rollError
  let pitchCorr := -K * s.IMU_pitchError
  let yawCorr := -K * s.IMU_yawError
  let s1 := { s with
    IMU_rollError := s.IMU_rollError + rollCorr
    IMU_pitchError := s.IMU_pitchError + pitchCorr
    IMU_yawError := s.IMU_yawError + yawCorr }
  let rollCorr := if !s.IMU_apply_dc then 0 else rollCorr
  let pitchCorr := if !s.IMU_apply_dc then 0 else pitchCorr
  let yawCorr := if !s.IMU_apply_dc then 0 else yawCorr
  IMU_rotate s1 (rollDelta + rollCorr) (pitchDelta + pitchCorr) (yawDelta + yawCorr)

/-- IMU_update: update the orientation matrix in step with the gyro motions and
apply drift corrections; called by the timer interrupt at a rate of IMU_HZ. -/
def IMU_update (b : Build) (mpu : MPU) (s : IMU α) : IMU α :=
  if !s.IMU_aligned then s
  else
    let d : α × α × α := GYRO_getRotations b mpu
    let st := IMU_stance b mpu s.duration
    let s1 := { s with duration := st.2 }
    let s2 := IMU_snapshot st.1 s1
    IMU_correct s2 d.1 d.2.1 d.2.2

/-! ## The four stages of IMU_rotate, and sequences of calls -/

/-- First stage of IMU_rotate (imu.h lines 180-192): R = R * Q. -/
def IMU_mulQ (s : IMU α) (dx dy dz : α) : IMU α :=
  { s with
    Rxx := s.Rxx * 1 + s.Rxy * dz + s.Rxz * (-dy)
    Rxy := s.Rxx * (-dz) + s.Rxy * 1 + s.Rxz * dx
    Rxz := s.Rxx * dy + s.Rxy * (-dx) + s.Rxz * 1
    Ryx := s.Ryx * 1 + s.Ryy * dz + s.Ryz * (-dy)
    Ryy := s.Ryx * (-dz) + s.Ryy * 1 + s.Ryz * dx
    Ryz := s.Ryx * dy + s.Ryy * (-dx) + s.Ryz * 1
    Rzx := s.Rzx * 1 + s.Rzy * dz + s.Rzz * (-dy)
    Rzy := s.Rzx * (-dz) + s.Rzy * 1 + s.Rzz * dx
    Rzz := s.Rzx * dy + s.Rzy * (-dx) + s.Rzz * 1 }

/-- Second stage of IMU_rotate (imu.h lines 209-230): rotate rows X and Y away
from each other by half their dot product. -/
def IMU_halfdot (s : IMU α) : IMU α :=
  let dot := s.Rxx * s.Ryx + s.Rxy * s.Ryy + s.Rxz * s.Ryz
  let half := 0.5 * dot
  { s with
    Rxx := s.Rxx - half * s.Ryx
    Rxy := s.Rxy - half * s.Ryy
    Rxz := s.Rxz - half * s.Ryz
    Ryx := s.Ryx - half * s.Rxx
    Ryy := s.Ryy - half * s.Rxy
    Ryz := s.Ryz - half * s.Rxz }

/-- Third stage of IMU_rotate (imu.h lines 232-236): row Z becomes the cross
product of rows X and Y. -/
def IMU_crossZ (s : IMU α) : IMU α :=
  { s with
    Rzx := s.Rxy * s.Ryz - s.Rxz * s.Ryy
    Rzy := s.Rxz * s.Ryx - s.Rxx * s.Ryz
    Rzz := s.Rxx * s.Ryy - s.Rxy * s.Ryx }

/-- Fourth stage of IMU_rotate (imu.h lines 238-248): scale each row by
half of three minus its squared length. -/
def IMU_normalize (s : IMU α) : IMU α :=
  let nx := 0.5 * (3 - (s.Rxx * s.Rxx + s.Rxy * s.Rxy + s.Rxz * s.Rxz))
  let ny := 0.5 * (3 - (s.Ryx * s.Ryx + s.Ryy * s.Ryy + s.Ryz * s.Ryz))
  let nz := 0.5 * (3 - (s.Rzx * s.Rzx + s.Rzy * s.Rzy + s.Rzz * s.Rzz))
  { s with
    Rxx := s.Rxx * nx
    Rxy := s.Rxy * nx
    Rxz := s.Rxz * nx
    Ryx := s.Ryx * ny
    Ryy := s.Ryy * ny
    Ryz := s.Ryz * ny
    Rzx := s.Rzx * nz
    Rzy := s.Rzy * nz
    Rzz := s.Rzz * nz }

/-- Dot product of rows X and Y of the matrix. -/
def dotXY (s : IMU α) : α := s.Rxx * s.Ryx + s.Rxy * s.Ryy + s.Rxz * s.Ryz

/-- Dot product of rows X and Z of the matrix. -/
def dotXZ (s : IMU α) : α := s.Rxx * s.Rzx + s.Rxy * s.Rzy + s.Rxz * s.Rzz

/-- Dot product of rows Y and Z of the matrix. -/
def dotYZ (s : IMU α) : α := s.Ryx * s.Rzx + s.Ryy * s.Rzy + s.Ryz * s.Rzz

/-- Squared length of row X. -/
def sqX (s : IMU α) : α := s.Rxx * s.Rxx + s.Rxy * s.Rxy + s.Rxz * s.Rxz

/-- Squared length of row Y. -/
def sqY (s : IMU α) : α := s.Ryx * s.Ryx + s.Ryy * s.Ryy + s.Ryz * s.Ryz

/-- Squared length of row Z. -/
def sqZ (s : IMU α) : α := s.Rzx * s.Rzx + s.Rzy * s.Rzy + s.Rzz * s.Rzz

/-- An exactly orthonormal right-handed matrix: rows X and Y are unit vectors,
perpendicular to each other, and row Z is their cross product. -/
def Orthonormal (s : IMU α) : Prop :=
  sqX s = 1 ∧ sqY s = 1 ∧ dotXY s = 0 ∧
  s.Rzx = s.Rxy * s.Ryz - s.Rxz * s.Ryy ∧
  s.Rzy = s.Rxz * s.Ryx - s.Rxx * s.Ryz ∧
  s.Rzz = s.Rxx * s.Ryy - s.Rxy * s.Ryx

/-- A sequence of IMU_rotate calls, one per triple of increments. -/
def IMU_rotates (s : IMU α) (ds : List (α × α × α)) : IMU α :=
  ds.foldl (fun t d => IMU_rotate t d.1 d.2.1 d.2.2) s

/-- A sequence of dispatch cycles of IMU_update, one per sensor state. -/
def IMU_run (b : Build) (s : IMU α) (ms : List MPU) : IMU α :=
  ms.foldl (fun t m => IMU_update b m t) s

/-- No cycle of the run takes a drift error snapshot: on every cycle the
stance classifier leaves `upright` false. -/
def NoSnapshot (b : Build) : IMU α → List MPU → Prop
  | _, [] => True
  | s, m :: ms => (IMU_stance b m s.duration).1 = false ∧ NoSnapshot b (IMU_update b m s) ms

/-- The state at program start: C statics are zero, IMU_apply_dc is initialised to 1. -/
def IMU_init : IMU α where
  Rxx := 0
  Rxy := 0
  Rxz := 0
  Ryx := 0
  Ryy := 0
  Ryz := 0
  Rzx := 0
  Rzy := 0
  Rzz := 0
  IMU_rollReference := 0
  IMU_pitchReference := 0
  IMU_rollError := 0
  IMU_pitchError := 0
  IMU_yawError := 0
  IMU_aligned := false
  IMU_apply_dc := true
  duration := 0

/-- A sensor state with the given unsmoothed rates and smoothed yaw rate, all else zero. -/
def MPU_sample (x y z zs : Int) : MPU where
  ACCO_x_bias := 0
  ACCO_y_bias := 0
  ACCO_z_bias := 0
  GYRO_x_bias := 0
  GYRO_y_bias := 0
  GYRO_z_bias := 0
  GYRO_x_urate := x
  GYRO_y_urate := y
  GYRO_z_urate := z
  GYRO_x_srate := 0
  GYRO_y_srate := 0
  GYRO_z_srate := zs
  MPU_calibrating := false
  GYRO_x_sum := 0
  GYRO_y_sum := 0
  GYRO_z_sum := 0
  ACCO_x_sum := 0
  ACCO_y_sum := 0
  ACCO_z_sum := 0
  MPU_cnt := 0
  x_filter := 0
  y_filter := 0
  z_filter := 0

/-- A right-handed orthonormal test matrix with rational entries, rows
(3/5, 4/5, 0), (-4/5, 3/5, 0), (0, 0, 1), in an otherwise fresh aligned state. -/
def IMU_rot345 : IMU α :=
  { (IMU_init : IMU α) with
    Rxx := 3 / 5, Rxy := 4 / 5, Rxz := 0, Ryx := -4 / 5, Ryy := 3 / 5, Ryz := 0,
    Rzx := 0, Rzy := 0, Rzz := 1, IMU_aligned := true }

/-- The state of IMU_update after the stance check and the snapshot of this cycle
(if any), before the correction is computed (imu.h lines 274-304). -/
def IMU_afterSnapshot (b : Build) (mpu : MPU) (s : IMU α) : IMU α :=
  IMU_snapshot (IMU_stance b mpu s.duration).1
    { s with duration := (IMU_stance b mpu s.duration).2 }

/-- An aligned state with a long-standing low yaw rate (stance timer at one second),
a pending error left from earlier cycles and non-zero reference angles. -/
def IMU_dwelt : IMU α :=
  { (IMU_rot345 : IMU α) with
    IMU_rollReference := 1 / 100, IMU_pitchReference := -1 / 50,
    IMU_rollError := 1 / 10, IMU_pitchError := 1 / 20, IMU_yawError := 1 / 30,
    duration := 1 }

/-- The inductive invariant of repeated IMU_rotate calls: rows X and Y have squared
length between 1 - 1/10000 and 1 and a dot product of magnitude at most 1/10000. -/
def NearOrtho (s : IMU α) : Prop :=
  1 - 1 / 10000 ≤ sqX s ∧ sqX s ≤ 1 ∧ 1 - 1 / 10000 ≤ sqY s ∧ sqY s ≤ 1 ∧
  |dotXY s| ≤ 1 / 10000

/-! ## mpu.h: sampling and calibration -/

/-- A value stored in a signed 16 bit variable (SWORD; also `int` arithmetic on the AVR). -/
def wrap16 (x : Int) : Int := (x + 32768) % 65536 - 32768

/-- A value stored in a signed 32 bit variable (SDWORD). -/
def wrap32 (x : Int) : Int := (x + 2147483648) % 4294967296 - 2147483648

/-- The macro MPU_ONE_GEE: accelerometer reading corresponding to 1 gee
(invensense.h or pololu.h). -/
def MPU_ONE_GEE (b : Build) : Int := if b.HAVE_POLOLU ≠ 0 then 1000 else 16384

/-- MPU_update, called by the timer interrupt.  `gyro` and `acco` are the body-axis
readings (x, y, z) that GYRO_read_xyz and ACCO_read_xyz deliver in this call. -/
def MPU_update (mpu : MPU) (gyro acco : Int × Int × Int) : MPU :=
  if mpu.MPU_calibrating then
    -- accumulate data for zero rate bias calibration
    { mpu with
      GYRO_x_sum := wrap32 (mpu.GYRO_x_sum + gyro.1)
      GYRO_y_sum := wrap32 (mpu.GYRO_y_sum + gyro.2.1)
      GYRO_z_sum := wrap32 (mpu.GYRO_z_sum + gyro.2.2)
      ACCO_x_sum := wrap32 (mpu.ACCO_x_sum + acco.1)
      ACCO_y_sum := wrap32 (mpu.ACCO_y_sum + acco.2.1)
      ACCO_z_sum := wrap32 (mpu.ACCO_z_sum + acco.2.2)
      MPU_cnt := wrap16 (mpu.MPU_cnt + 1) }
  else
    -- remove zero rate biases
    let x := wrap16 (gyro.1 - mpu.GYRO_x_bias)
    let y := wrap16 (gyro.2.1 - mpu.GYRO_y_bias)
    let z := wrap16 (gyro.2.2 - mpu.GYRO_z_bias)
    -- smoothed rates, K = low pass filter strength
    let K : Nat := 3
    let x_filter := wrap32 (mpu.x_filter - (mpu.x_filter >>> K) + x)
    let y_filter := wrap32 (mpu.y_filter - (mpu.y_filter >>> K) + y)
    let z_filter := wrap32 (mpu.z_filter - (mpu.z_filter >>> K) + z)
    { mpu with
      GYRO_x_urate := x
      GYRO_y_urate := y
      GYRO_z_urate := z
      x_filter := x_filter
      y_filter := y_filter
      z_filter := z_filter
      GYRO_x_srate := wrap16 (x_filter >>> K)
      GYRO_y_srate := wrap16 (y_filter >>> K)
      GYRO_z_srate := wrap16 (z_filter >>> K) }

/-- The sensor state after the timer dispatches that happen during the calibration
window (the five seconds of MPU_blink): one MPU_update per pair of readings. -/
def MPU_window (mpu : MPU) (window : List ((Int × Int × Int) × (Int × Int × Int))) : MPU :=
  window.foldl (fun m w => MPU_update m w.1 w.2) mpu

/-- ACCO_calibrate: clear the accelerometer sums and the count, accumulate during the
window, then divide.  The result is `none` when the division is by zero. -/
def ACCO_calibrate (b : Build) (mpu : MPU)
    (window : List ((Int × Int × Int) × (Int × Int × Int))) : Option MPU :=
  let m0 := { mpu with ACCO_x_sum := 0, ACCO_y_sum := 0, ACCO_z_sum := 0, MPU_cnt := 0 }
  let m1 := { m0 with MPU_calibrating := true }
  let m2 := MPU_window m1 window
  let m3 := { m2 with MPU_calibrating := false }
  if m3.MPU_cnt = 0 then none
  else
    let x_bias := wrap16 (Int.tdiv m3.ACCO_x_sum m3.MPU_cnt)
    let y_bias := wrap16 (Int.tdiv m3.ACCO_y_sum m3.MPU_cnt)
    let z_bias := wrap16 (Int.tdiv m3.ACCO_z_sum m3.MPU_cnt)
    some { m3 with
      ACCO_x_bias := x_bias
      ACCO_y_bias := y_bias
      ACCO_z_bias := wrap16 (z_bias - MPU_ONE_GEE b) }

/-- GYRO_calibrate: clear the gyro sums and the count, accumulate during the window,
then divide.  The result is `none` when the division is by zero. -/
def GYRO_calibrate (mpu : MPU)
    (window : List ((Int × Int × Int) × (Int × Int × Int))) : Option MPU :=
  let m0 := { mpu with GYRO_x_sum := 0, GYRO_y_sum := 0, GYRO_z_sum := 0, MPU_cnt := 0 }
  let m1 := { m0 with MPU_calibrating := true }
  let m2 := MPU_window m1 window
  let m3 := { m2 with MPU_calibrating := false }
  if m3.MPU_cnt = 0 then none
  else
    some { m3 with
      GYRO_x_bias := wrap16 (Int.tdiv m3.GYRO_x_sum m3.MPU_cnt)
      GYRO_y_bias := wrap16 (Int.tdiv m3.GYRO_y_sum m3.MPU_cnt)
      GYRO_z_bias := wrap16 (Int.tdiv m3.GYRO_z_sum m3.MPU_cnt) }

/-! ## ticker.h: the timer interrupt -/

/-- The macro TICKER_HZ of main.c (left undefined, hence 0 in a conditional, when the
clock is neither 8 nor 16 MHz). -/
def TICKER_HZ (b : Build) : Nat :=
  if b.HAVE_CLOCK = 8 then 500 else if b.HAVE_CLOCK = 16 then 1000 else 0

/-- Everything the timer interrupt reads and writes: the interrupt communication area
of ticker.h, the static divider counter `n`, and the sensor and integrator states. -/
structure TICKER (α : Type) where
  ISR_Ticks : Nat
  ISR_Duration : Int
  n : Nat
  mpu : MPU
  imu : IMU α

/-- What the hardware delivers during one timer interrupt: the sensor readings and the
two readings of the cycle counter. -/
structure Tick where
  gyro : Int × Int × Int
  acco : Int × Int × Int
  start : Int
  stop : Int

/-- The dispatch part of the interrupt service routine (ticker.h lines 42-45). -/
def ISR_dispatch (b : Build) (t : Tick) (sys : TICKER α) : TICKER α :=
  let start := t.start
  let mpu := MPU_update sys.mpu t.gyro t.acco
  let imu := IMU_update b mpu sys.imu
  { sys with mpu := mpu, imu := imu, ISR_Duration := (t.stop - start) % 256 }

/-- The interrupt service routine TIMER0_COMPA_vect.  A build in which IMU_HZ is neither
a quarter nor a half of TICKER_HZ stops at the error directive; it is given no dispatch. -/
def ISR (b : Build) (t : Tick) (sys : TICKER α) : TICKER α :=
  -- update timebase
  let sys1 := { sys with ISR_Ticks := (sys.ISR_Ticks + 1) % 4294967296 }
  -- dispatch background tasks at IMU_HZ rate
  let n := (sys1.n + 1) % 256
  let sys2 := { sys1 with n := n }
  if IMU_HZ = TICKER_HZ b / 4 then
    if n &&& 3 ≠ 0 then sys2 else ISR_dispatch b t sys2
  else if IMU_HZ = TICKER_HZ b / 2 then
    if n &&& 1 ≠ 0 then sys2 else ISR_dispatch b t sys2
  else sys2

/-- A sequence of timer interrupts. -/
def ISR_run (b : Build) (sys : TICKER α) (ts : List Tick) : TICKER α :=
  ts.foldl (fun s t => ISR b t s) sys

/-- A sequence of dispatches. -/
def ISR_dispatches (b : Build) (sys : TICKER α) (ts : List Tick) : TICKER α :=
  ts.foldl (fun s t => ISR_dispatch b t s) sys

/-- The elements of a list at the positions N, 2N, 3N, ... when the first element of
the list has position `c + 1`. -/
def everyNth {β : Type} (N : Nat) : Nat → List β → List β
  | _, [] => []
  | c, x :: xs => if (c + 1) % N = 0 then x :: everyNth N (c + 1) xs else everyNth N (c + 1) xs

/-- The nine entries of the orientation matrix, row by row. -/
def IMU_R (s : IMU α) : List α :=
  [s.Rxx, s.Rxy, s.Rxz, s.Ryx, s.Ryy, s.Ryz, s.Rzx, s.Rzy, s.Rzz]

/-- The three pending drift errors (roll, pitch, yaw). -/
def IMU_errors (s : IMU α) : List α := [s.IMU_rollError, s.IMU_pitchError, s.IMU_yawError]

/-- For each cycle of a run, whether the cycle takes a drift error snapshot. -/
def IMU_snapshots (b : Build) : IMU α → List MPU → List Bool
  | _, [] => []
  | s, m :: ms =>
    (s.IMU_aligned && (IMU_stance b m s.duration).1) :: IMU_snapshots b (IMU_update b m s) ms

/-! ## twi.h, usart.h, stdout.h: the bus traffic of a dispatch -/

/-- The behaviour of the hardware registers polled by the drivers: what the k-th read of
each register returns. -/
structure Hardware where
  /-- Bit TWINT of TWCR at the k-th read of TWCR. -/
  TWINT : Nat → Bool
  /-- The register TWSR at its k-th read. -/
  TWSR : Nat → Nat
  /-- The register TWDR at its k-th read. -/
  TWDR : Nat → Nat
  /-- Bit UDRE0 of UCSR0A at the k-th read of UCSR0A. -/
  UDRE0 : Nat → Bool

/-- How many times each register has been read so far. -/
structure Reads where
  twcr : Nat
  twsr : Nat
  twdr : Nat
  ucsr0a : Nat

/-- USART_put: wait for the usart data register to become empty, then fill it.  The loop
has no exit other than the hardware flag; `fuel` bounds the number of polls the model
follows, and the result is `none` when the flag is still clear after that many. -/
def USART_put (hw : Hardware) : Nat → Reads → Option Reads
  | 0, _ => none
  | fuel + 1, r =>
    if hw.UDRE0 r.ucsr0a then some { r with ucsr0a := r.ucsr0a + 1 }
    else USART_put hw fuel { r with ucsr0a := r.ucsr0a + 1 }

/-- The printf of the C library on the stdout of stdout.h: one USART_put per character
of the formatted text. -/
def STDOUT_print (hw : Hardware) (fuel : Nat) : List Char → Reads → Option Reads
  | [], r => some r
  | _ :: cs, r => (USART_put hw fuel r).bind (STDOUT_print hw fuel cs)

/-- TWI_error: report a bus error through the notifier, or with printf when the notifier
is null, then reset the bus (a register write). -/
def TWI_error (notify : Option (Reads → Option Reads)) (hw : Hardware) (fuel : Nat)
    (op : List Char) (r : Reads) : Option Reads :=
  match notify with
  | none => STDOUT_print hw fuel ("TWI error: ".toList ++ op ++ ['\n']) r
  | some f => f r

/-- The completion wait of TWI_exec: `k` is 300 minus the local counter `n`. -/
def TWI_wait (notify : Option (Reads → Option Reads)) (hw : Hardware) (fuel : Nat) :
    Nat → Reads → Option Reads
  | 0, r => some r
  | k + 1, r =>
    if hw.TWINT r.twcr then some { r with twcr := r.twcr + 1 }
    else if k = 0 then TWI_error notify hw fuel "exec".toList { r with twcr := r.twcr + 1 }
    else TWI_wait notify hw fuel k { r with twcr := r.twcr + 1 }

/-- TWI_exec: initiate an operation, wait for completion (at most 300 polls), and return
the status bits of TWSR without the two prescaler bits. -/
def TWI_exec (notify : Option (Reads → Option Reads)) (hw : Hardware) (fuel : Nat)
    (r : Reads) : Option (Nat × Reads) :=
  (TWI_wait notify hw fuel 300 r).bind fun r1 =>
    some ((hw.TWSR r1.twsr % 256) &&& 252, { r1 with twsr := r1.twsr + 1 })

/-- TWI_start, with TW_START = 0x08 and TW_REP_START = 0x10 of util/twi.h. -/
def TWI_start (notify : Option (Reads → Option Reads)) (hw : Hardware) (fuel : Nat)
    (r : Reads) : Option Reads :=
  (TWI_exec notify hw fuel r).bind fun p =>
    if p.1 ≠ 0x08 ∧ p.1 ≠ 0x10 then TWI_error notify hw fuel "start".toList p.2 else some p.2

/-- TWI_send: send a byte and compare the status with the expected one. -/
def TWI_send (notify : Option (Reads → Option Reads)) (hw : Hardware) (fuel : Nat)
    (expected : Nat) (r : Reads) : Option Reads :=
  (TWI_exec notify hw fuel r).bind fun p =>
    if p.1 ≠ expected then TWI_error notify hw fuel "send".toList p.2 else some p.2

/-- TWI_recv, with TW_MR_DATA_ACK = 0x50 and TW_MR_DATA_NACK = 0x58 of util/twi.h. -/
def TWI_recv (notify : Option (Reads → Option Reads)) (hw : Hardware) (fuel : Nat)
    (ack : Bool) (r : Reads) : Option (Nat × Reads) :=
  (TWI_exec notify hw fuel r).bind fun p =>
    ((if p.1 ≠ (if ack then 0x50 else 0x58) then TWI_error notify hw fuel "recv".toList p.2
      else some p.2).bind fun r2 =>
        some (hw.TWDR r2.twdr % 256, { r2 with twdr := r2.twdr + 1 }))

/-- The byte loop of TWI_read_multi: receive `n` bytes, acknowledging all but the last. -/
def TWI_recv_loop (notify : Option (Reads → Option Reads)) (hw : Hardware) (fuel : Nat) :
    Nat → Reads → Option (List Nat × Reads)
  | 0, r => some ([], r)
  | n + 1, r =>
    (TWI_recv notify hw fuel (decide (n ≠ 0)) r).bind fun p =>
      (TWI_recv_loop notify hw fuel n p.2).bind fun q => some (p.1 :: q.1, q.2)

/-- TWI_read_multi: read `n` bytes from a device, with TW_MT_SLA_ACK = 0x18,
TW_MT_DATA_ACK = 0x28 and TW_MR_SLA_ACK = 0x40 of util/twi.h. -/
def TWI_read_multi (notify : Option (Reads → Option Reads)) (hw : Hardware) (fuel : Nat)
    (n : Nat) (r : Reads) : Option (List Nat × Reads) :=
  (TWI_start notify hw fuel r).bind fun r1 =>
  (TWI_send notify hw fuel 0x18 r1).bind fun r2 =>
  (TWI_send notify hw fuel 0x28 r2).bind fun r3 =>
  (TWI_start notify hw fuel r3).bind fun r4 =>
  (TWI_send notify hw fuel 0x40 r4).bind fun r5 =>
  TWI_recv_loop notify hw fuel n r5

/-- The bus traffic of one fusion dispatch: MPU_update reads six bytes from the gyro and,
while calibrating, six more from the accelerometer (`acco` tells whether ACCO_read_xyz
reads the bus in this build); everything else in the dispatch, IMU_update included, is
loop-free arithmetic.  The result is `none` when the dispatch has not returned within
`fuel` polls of some wait. -/
def ISR_dispatch_bus (notify : Option (Reads → Option Reads)) (hw : Hardware) (fuel : Nat)
    (calibrating acco : Bool) (r : Reads) : Option Reads :=
  (TWI_read_multi notify hw fuel 6 r).bind fun p =>
    if calibrating && acco then (TWI_read_multi notify hw fuel 6 p.2).bind fun q => some q.2
    else some p.2

/-- Hardware on which neither the bus nor the usart ever reports completion. -/
def Hardware_hung : Hardware where
  TWINT := fun _ => false
  TWSR := fun _ => 0
  TWDR := fun _ => 0
  UDRE0 := fun _ => false

/-! ## servo.h -/

/-- The macro RAD_TO_DEG of main.c. -/
def RAD_TO_DEG (X : α) : α := X * 57.2957795130823229

/-- Conversion of a FLOAT to a signed 16 bit integer: truncation toward zero, then the
value as 16 bits hold it. -/
def toSWORD [FloorRing α] (x : α) : Int := wrap16 (if 0 ≤ x then ⌊x⌋ else ⌈x⌉)

/-- The interface variables of servo.h and the PWM compare register OCR1A. -/
structure SERVO (α : Type) where
  SERVO_center : α
  SERVO_lgain : α
  SERVO_rgain : α
  SERVO_reverse : Bool
  OCR1A : Int

/-- The macro SERVO_CENTER_COUNTS: pwm counts for 0 degrees of servo rotation (a clock
other than 16 or 8 MHz stops at the error directive; it is given 0). -/
def SERVO_CENTER_COUNTS (b : Build) : Int :=
  if b.HAVE_CLOCK = 16 then 1500 else if b.HAVE_CLOCK = 8 then 750 else 0

/-- The macro SERVO_COUNTS_PER_DEGREE: pwm counts per degree of servo rotation. -/
def SERVO_COUNTS_PER_DEGREE (b : Build) : Int :=
  if b.HAVE_CLOCK = 16 then 10 else if b.HAVE_CLOCK = 8 then 5 else 0

/-- The macro SERVO_LIMIT_TENTHS: travel limit in tenths of a degree, the same for both
clocks. -/
def SERVO_LIMIT_TENTHS : Int := 900

/-- SERVO_setShaftAngle: turn the servo to the shaft angle given in radians. -/
def SERVO_setShaftAngle [FloorRing α] (b : Build) (sv : SERVO α) (angle : α) : SERVO α :=
  let angle := angle + sv.SERVO_center
  -- convert radians to tenths of a degree
  let target : Int := toSWORD (RAD_TO_DEG angle * 10)
  -- account for servo gearing reversal
  let target := if sv.SERVO_reverse then wrap16 (-target) else target
  -- account for servo throw asymmetry
  let target := toSWORD ((target : α) * (if target > 0 then sv.SERVO_lgain else sv.SERVO_rgain))
  -- do not exceed servo hard stops
  let target :=
    if target < -SERVO_LIMIT_TENTHS then -SERVO_LIMIT_TENTHS
    else if target > SERVO_LIMIT_TENTHS then SERVO_LIMIT_TENTHS
    else target
  -- convert to PWM counter value
  { sv with
    OCR1A := (SERVO_CENTER_COUNTS b
      + Int.tdiv (wrap16 (target * SERVO_COUNTS_PER_DEGREE b)) 10) % 65536 }

/-! ## camera.h -/

/-- Alignment of camera with respect to bike, radians. -/
structure CAMERA (α : Type) where
  CAMERA_roll : α
  CAMERA_pitch : α
  CAMERA_yaw : α

/-- CAMERA_init: align using the previously saved orientation. -/
def CAMERA_init (m : Libm α) (cam : CAMERA α) (s : IMU α) : CAMERA α × IMU α :=
  (cam, IMU_align m s cam.CAMERA_roll cam.CAMERA_pitch cam.CAMERA_yaw)

/-- CAMERA_align: align using the accelerometers; `roll` and `pitch` are what the last of
the ten ACCO_getRotations calls delivers. -/
def CAMERA_align (m : Libm α) (_cam : CAMERA α) (s : IMU α) (roll pitch : α) :
    CAMERA α × IMU α :=
  ({ CAMERA_roll := roll, CAMERA_pitch := pitch, CAMERA_yaw := 0 }, IMU_align m s roll pitch 0)

/-- CAMERA_zero: align camera to 0,0,0. -/
def CAMERA_zero (m : Libm α) (_cam : CAMERA α) (s : IMU α) : CAMERA α × IMU α :=
  ({ CAMERA_roll := 0, CAMERA_pitch := 0, CAMERA_yaw := 0 }, IMU_align m s 0 0 0)

/-! ## twi.h: bus clock -/

/-- The macro TWI_KHZ of main.c. -/
def TWI_KHZ : Nat := 200

/-- TWI_init: the values written to TWSR and TWBR for a clock in MHz and a bus rate in
kHz; `none` where the build stops at an error directive. -/
def TWI_init (CLOCK_MHZ TWI_KHZ : Nat) : Option (Nat × Nat) :=
  if CLOCK_MHZ = 8 then
    if TWI_KHZ = 50 then some (0, 72)
    else if TWI_KHZ = 100 then some (0, 32)
    else if TWI_KHZ = 200 then some (0, 32)
    else none
  else if CLOCK_MHZ = 16 then
    if TWI_KHZ = 100 then some (0, 72)
    else if TWI_KHZ = 200 then some (0, 32)
    else none
  else none

/-- The prescaler selected by the bits TWPS1 and TWPS0 of TWSR (1 for both bits clear, as
the comments of TWI_init say; each step multiplies by 4). -/
def TWI_prescaler (TWSR : Nat) : Nat := 4 ^ (TWSR % 4)

/-- The SCL frequency documented in TWI_init:
CLOCK_HZ / (16 + 2 * TWBR * prescaler). -/
def TWI_SCL_frequency (CLOCK_HZ TWBR prescaler : Nat) : Nat :=
  CLOCK_HZ / (16 + 2 * TWBR * prescaler)

/-! ## Matrix view of the orientation state -/

/-- The orientation matrix R of the state. -/
def IMU_matrix (s : IMU α) : Matrix (Fin 3) (Fin 3) α :=
  !![s.Rxx, s.Rxy, s.Rxz; s.Ryx, s.Ryy, s.Ryz; s.Rzx, s.Rzy, s.Rzz]

/-- The differential rotation matrix Q of IMU_rotate. -/
def IMU_Q (dx dy dz : α) : Matrix (Fin 3) (Fin 3) α :=
  !![1, -dz, dy; dz, 1, -dx; -dy, dx, 1]

/-- The skew-symmetric matrix of the increments. -/
def IMU_skew (dx dy dz : α) : Matrix (Fin 3) (Fin 3) α :=
  !![0, -dz, dy; dz, 0, -dx; -dy, dx, 0]

/-- Rows X and Y of the matrix are linearly independent. -/
def RowsXYIndependent (s : IMU α) : Prop :=
  ∀ a b : α, a * s.Rxx + b * s.Ryx = 0 → a * s.Rxy + b * s.Ryy = 0 →
    a * s.Rxz + b * s.Ryz = 0 → a = 0 ∧ b = 0

/-- The standard yaw-then-pitch-then-roll (z-y-x aerospace) rotation matrix in the words of
the specification, row by row. -/
def standard_yaw_pitch_roll (m : Libm α) (R P Y : α) : List α :=
  [m.cos P * m.cos Y, m.sin R * m.sin P * m.cos Y - m.cos R * m.sin Y,
   m.cos R * m.sin P * m.cos Y + m.sin R * m.sin Y,
   m.cos P * m.sin Y, m.sin R * m.sin P * m.sin Y + m.cos R * m.cos Y,
   m.cos R * m.sin P * m.sin Y - m.sin R * m.cos Y,
   -m.sin P, m.sin R * m.cos P, m.cos R * m.cos P]

/-! ## The low-pass filter of MPU_update -/

/-- One update of a filter state of MPU_update with K = 3, before it is stored in 32
bits. -/
def MPU_filter (f x : Int) : Int :=
  let K : Nat := 3
  f - (f >>> K) + x

/-! ## time.h and mpu.h: calibration behind the timer interrupt -/

end Code

/-- The integrator holding the exact roll rotation by `t` about the upright attitude, with
both reference angles zero and the stance timer at one second. -/
noncomputable def IMU_rolled (t : ℝ) : IMU ℝ :=
  { IMU_align realLibm IMU_init t 0 0 with IMU_rollReference := 0, duration := 1 }

/-! ## Theorems -/

open Real

theorem IMU_rotate_stages {α : Type} [LinearOrderedField α] (s : IMU α) (dx dy dz : α) :
    IMU_rotate s dx dy dz = IMU_normalize (IMU_crossZ (IMU_halfdot (IMU_mulQ s dx dy dz))) := rfl

/-- C1 (defect in the code): at roll 0, pitch π/6, yaw π/6 the entry Ryy written by
IMU_align is 1/8 + cos (π/6), whereas the standard yaw-pitch-roll matrix has
sinR*sinP*sinY + cosR*cosY = cos (π/6) there; for all angles the entry written is
sinY*sinP*sinY + cosR*cosY, and the other eight entries are the standard ones. -/
theorem IMU_align_Ryy_not_standard (s : IMU ℝ) :
    ((IMU_align realLibm s 0 (π / 6) (π / 6)).Ryy = 1 / 8 + cos (π / 6) ∧
     sin 0 * sin (π / 6) * sin (π / 6) + cos 0 * cos (π / 6) = cos (π / 6) ∧
     (IMU_align realLibm s 0 (π / 6) (π / 6)).Ryy ≠
       sin 0 * sin (π / 6) * sin (π / 6) + cos 0 * cos (π / 6)) ∧
    ∀ R P Y : ℝ,
      (IMU_align realLibm s R P Y).Ryy = sin Y * sin P * sin Y + cos R * cos Y ∧
      (IMU_align realLibm s R P Y).Rxx = cos P * cos Y ∧
      (IMU_align realLibm s R P Y).Rxy = sin R * sin P * cos Y - cos R * sin Y ∧
      (IMU_align realLibm s R P Y).Rxz = cos R * sin P * cos Y + sin R * sin Y ∧
      (IMU_align realLibm s R P Y).Ryx = cos P * sin Y ∧
      (IMU_align realLibm s R P Y).Ryz = cos R * sin P * sin Y - sin R * cos Y ∧
      (IMU_align realLibm s R P Y).Rzx = -sin P ∧
      (IMU_align realLibm s R P Y).Rzy = sin R * cos P ∧
      (IMU_align realLibm s R P Y).Rzz = cos R * cos P := by
  have h1 : (IMU_align realLibm s 0 (π / 6) (π / 6)).Ryy = 1 / 8 + cos (π / 6) := by
    simp only [IMU_align, IMU_set, realLibm, Real.sin_pi_div_six, Real.cos_zero]
    norm_num
  have h2 : sin 0 * sin (π / 6) * sin (π / 6) + cos 0 * cos (π / 6) = cos (π / 6) := by
    simp
  refine ⟨⟨h1, h2, ?_⟩, ?_⟩
  · rw [h1, h2]
    norm_num
  · intro R P Y
    simp [IMU_align, IMU_set, realLibm]

/-! ### The two-argument arctangent -/

theorem atan2_of_pos (y x : ℝ) (hx : 0 < x) : atan2 y x = arctan (y / x) := by
  simp [atan2, hx]

theorem atan2_scaled_sin_cos (c t : ℝ) (hc : 0 < c) (h1 : -(π / 2) < t) (h2 : t < π / 2) :
    atan2 (sin t * c) (cos t * c) = t := by
  have hcos : 0 < cos t := Real.cos_pos_of_mem_Ioo ⟨h1, h2⟩
  rw [atan2_of_pos _ _ (mul_pos hcos hc)]
  have : sin t * c / (cos t * c) = tan t := by
    rw [Real.tan_eq_sin_div_cos]
    field_simp
    ring
  rw [this, Real.arctan_tan h1 h2]

/-- C2: alignment round trip.  For r, p, y each strictly between -π/2 and π/2, the
three angle getters applied right after IMU_align r p y return r, p and y. -/
theorem IMU_align_roundtrip (s : IMU ℝ) (r p y : ℝ)
    (hr1 : -(π / 2) < r) (hr2 : r < π / 2)
    (hp1 : -(π / 2) < p) (hp2 : p < π / 2)
    (hy1 : -(π / 2) < y) (hy2 : y < π / 2) :
    IMU_getRollAngle realLibm (IMU_align realLibm s r p y) = r ∧
    IMU_getPitchAngle realLibm (IMU_align realLibm s r p y) = p ∧
    IMU_getYawAngle realLibm (IMU_align realLibm s r p y) = y := by
  have hcp : 0 < cos p := Real.cos_pos_of_mem_Ioo ⟨hp1, hp2⟩
  refine ⟨?_, ?_, ?_⟩
  · simp only [IMU_getRollAngle, IMU_align, IMU_set, realLibm]
    rw [mul_comm (cos r) (cos p), mul_comm (cos p) (cos r)]
    exact atan2_scaled_sin_cos (cos p) r hcp hr1 hr2
  · simp only [IMU_getPitchAngle, IMU_align, IMU_set, realLibm]
    rw [Real.arcsin_neg, neg_neg]
    exact Real.arcsin_sin hp1.le hp2.le
  · simp only [IMU_getYawAngle, IMU_align, IMU_set, realLibm]
    rw [mul_comm (cos p) (sin y), mul_comm (cos p) (cos y)]
    exact atan2_scaled_sin_cos (cos p) y hcp hy1 hy2

/-- Witness for C2 at roll π/6, pitch -π/4, yaw π/3 from the start-up state. -/
theorem IMU_align_roundtrip_witness :
    IMU_getRollAngle realLibm (IMU_align realLibm IMU_init (π / 6) (-(π / 4)) (π / 3)) = π / 6 ∧
    IMU_getPitchAngle realLibm (IMU_align realLibm IMU_init (π / 6) (-(π / 4)) (π / 3))
      = -(π / 4) ∧
    IMU_getYawAngle realLibm (IMU_align realLibm IMU_init (π / 6) (-(π / 4)) (π / 3)) = π / 3 :=
  IMU_align_roundtrip IMU_init (π / 6) (-(π / 4)) (π / 3)
    (by linarith [Real.pi_pos]) (by linarith [Real.pi_pos])
    (by linarith [Real.pi_pos]) (by linarith [Real.pi_pos])
    (by linarith [Real.pi_pos]) (by linarith [Real.pi_pos])

theorem IMU_update_not_aligned_eq {α : Type} [LinearOrderedField α] (b : Build) (mpu : MPU)
    (s : IMU α) (h : s.IMU_aligned = false) : IMU_update b mpu s = s := by
  simp [IMU_update, h]

/-- C6: while the alignment flag is false IMU_update changes nothing: the whole
state (matrix, pending errors, reference angles, stance timer, flags) is returned as it was. -/
theorem IMU_update_not_aligned {α : Type} [LinearOrderedField α] (b : Build) (mpu : MPU)
    (s : IMU α) (h : s.IMU_aligned = false) : IMU_update b mpu s = s := by
  simp [IMU_update, h]

/-- Witness for C6: the start-up state (never aligned) with a non-zero gyro sample. -/
theorem IMU_update_not_aligned_witness :
    IMU_update ⟨0, 16⟩ (MPU_sample 100 (-50) 25 7) (IMU_init : IMU ℚ) = IMU_init :=
  IMU_update_not_aligned ⟨0, 16⟩ (MPU_sample 100 (-50) 25 7) IMU_init rfl

/-- C7: after IMU_align roll pitch yaw, from any prior state, the three pending drift
errors are 0, the reference attitude is (roll, pitch) and the alignment flag is true. -/
theorem IMU_align_resets {α : Type} [LinearOrderedField α] (m : Libm α) (s : IMU α)
    (roll pitch yaw : α) :
    (IMU_align m s roll pitch yaw).IMU_rollError = 0 ∧
    (IMU_align m s roll pitch yaw).IMU_pitchError = 0 ∧
    (IMU_align m s roll pitch yaw).IMU_yawError = 0 ∧
    (IMU_align m s roll pitch yaw).IMU_rollReference = roll ∧
    (IMU_align m s roll pitch yaw).IMU_pitchReference = pitch ∧
    (IMU_align m s roll pitch yaw).IMU_aligned = true := by
  simp [IMU_align, IMU_set]

/-! ### IMU_rotate with zero input, and a single small roll -/

theorem cross_sq_of_orthonormal {α : Type} [LinearOrderedField α]
    (xx xy xz yx yy yz : α) (hx : xx * xx + xy * xy + xz * xz = 1)
    (hy : yx * yx + yy * yy + yz * yz = 1) (hd : xx * yx + xy * yy + xz * yz = 0) :
    (xy * yz - xz * yy) * (xy * yz - xz * yy) + (xz * yx - xx * yz) * (xz * yx - xx * yz)
      + (xx * yy - xy * yx) * (xx * yy - xy * yx) = 1 := by
  linear_combination (yx * yx + yy * yy + yz * yz) * hx + hy - (xx * yx + xy * yy + xz * yz) * hd

theorem IMU_rotate_zero_eq {α : Type} [LinearOrderedField α] (s : IMU α) (h : Orthonormal s) :
    IMU_rotate s 0 0 0 = s := by
  obtain ⟨xx, xy, xz, yx, yy, yz, zx, zy, zz, rr, pr, re, pe, ye, al, dc, du⟩ := s
  simp only [Orthonormal, sqX, sqY, dotXY] at h
  obtain ⟨hx, hy, hd, hzx, hzy, hzz⟩ := h
  have hz : zx * zx + zy * zy + zz * zz = 1 := by
    rw [hzx, hzy, hzz]
    exact cross_sq_of_orthonormal xx xy xz yx yy yz hx hy hd
  simp only [IMU_rotate, mul_one, mul_zero, neg_zero, add_zero, zero_add, hd, zero_mul,
    sub_zero, hx, hy, ← hzx, ← hzy, ← hzz, hz]
  norm_num

/-- C4: zero-input stability.  On an exactly orthonormal right-handed matrix,
IMU_rotate 0 0 0 returns the state unchanged (all nine entries), and so does any
number of repeated calls. -/
theorem IMU_rotate_zero_stable {α : Type} [LinearOrderedField α] (s : IMU α)
    (h : Orthonormal s) :
    IMU_rotate s 0 0 0 = s ∧ ∀ n : Nat, IMU_rotates s (List.replicate n (0, 0, 0)) = s := by
  refine ⟨IMU_rotate_zero_eq s h, fun n => ?_⟩
  induction n with
  | zero => rfl
  | succ n ih =>
    simp only [IMU_rotates, List.replicate_succ, List.foldl_cons] at ih ⊢
    rw [IMU_rotate_zero_eq s h]
    exact ih

theorem IMU_rot345_orthonormal {α : Type} [LinearOrderedField α] :
    Orthonormal (IMU_rot345 : IMU α) := by
  simp only [Orthonormal, sqX, sqY, dotXY, IMU_rot345, IMU_init]
  norm_num

/-- Witness for C4 on the matrix with rows (3/5, 4/5, 0), (-4/5, 3/5, 0), (0, 0, 1). -/
theorem IMU_rotate_zero_stable_witness :
    IMU_rotate (IMU_rot345 : IMU ℚ) 0 0 0 = IMU_rot345 ∧
    ∀ n : Nat, IMU_rotates (IMU_rot345 : IMU ℚ) (List.replicate n (0, 0, 0)) = IMU_rot345 :=
  IMU_rotate_zero_stable IMU_rot345 IMU_rot345_orthonormal

theorem IMU_rotate_identity_roll (s : IMU ℝ) (dx : ℝ) :
    (IMU_rotate (IMU_align realLibm s 0 0 0) dx 0 0).Rzy = dx * (1 - dx ^ 2 / 2) ∧
    (IMU_rotate (IMU_align realLibm s 0 0 0) dx 0 0).Rzz = 1 * (1 - dx ^ 2 / 2) ∧
    (IMU_rotate (IMU_align realLibm s 0 0 0) dx 0 0).Rzx = 0 ∧
    (IMU_rotate (IMU_align realLibm s 0 0 0) dx 0 0).Ryx = 0 ∧
    (IMU_rotate (IMU_align realLibm s 0 0 0) dx 0 0).Rxx = 1 := by
  have h5 : (0.5 : ℝ) = 1 / 2 := by norm_num
  simp only [IMU_rotate, IMU_align, IMU_set, realLibm, Real.sin_zero, Real.cos_zero, h5]
  refine ⟨?_, ?_, ?_, ?_, ?_⟩ <;> ring

theorem arctan_hundredth : |arctan (0.01 : ℝ) - 0.01| ≤ 0.001 := by
  have hpi : (3 : ℝ) < π := Real.pi_gt_three
  have hup : arctan (0.01 : ℝ) ≤ 0.01 := by
    have h1 : (0.01 : ℝ) ≤ tan 0.01 := Real.le_tan (by norm_num) (by linarith)
    have h2 := Real.arctan_strictMono.monotone h1
    rwa [Real.arctan_tan (by linarith) (by linarith)] at h2
  have hlo : (0.009 : ℝ) ≤ arctan 0.01 := by
    have hc : 1 - (0.009 : ℝ) ^ 2 / 2 ≤ cos 0.009 := Real.one_sub_sq_div_two_le_cos
    have hcpos : (0 : ℝ) < cos 0.009 := by
      have : (0 : ℝ) < 1 - (0.009 : ℝ) ^ 2 / 2 := by norm_num
      linarith
    have hs : sin (0.009 : ℝ) < 0.009 := Real.sin_lt (by norm_num)
    have ht : tan (0.009 : ℝ) ≤ 0.01 := by
      rw [Real.tan_eq_sin_div_cos, div_le_iff₀ hcpos]
      have : (0.009 : ℝ) ≤ 0.01 * (1 - (0.009 : ℝ) ^ 2 / 2) := by norm_num
      nlinarith
    have h2 := Real.arctan_strictMono.monotone ht
    rwa [Real.arctan_tan (by linarith) (by linarith)] at h2
  rw [abs_le]
  constructor <;> linarith

/-- C5: small-angle round trip with roll-only coupling.  From the identity matrix
(written by IMU_align 0 0 0), one IMU_rotate dx 0 0 with |dx| < √2 gives roll angle
arctan dx, pitch angle 0 and yaw angle 0; and for dx = 0.01 the roll angle is within
0.001 of 0.01. -/
theorem IMU_rotate_roll_only (s : IMU ℝ) (dx : ℝ) (h : |dx| < √2) :
    (IMU_getRollAngle realLibm (IMU_rotate (IMU_align realLibm s 0 0 0) dx 0 0) = arctan dx ∧
     IMU_getPitchAngle realLibm (IMU_rotate (IMU_align realLibm s 0 0 0) dx 0 0) = 0 ∧
     IMU_getYawAngle realLibm (IMU_rotate (IMU_align realLibm s 0 0 0) dx 0 0) = 0) ∧
    |IMU_getRollAngle realLibm (IMU_rotate (IMU_align realLibm s 0 0 0) 0.01 0 0) - 0.01|
      ≤ 0.001 := by
  have key : ∀ e : ℝ, |e| < √2 →
      IMU_getRollAngle realLibm (IMU_rotate (IMU_align realLibm s 0 0 0) e 0 0) = arctan e := by
    intro e he
    obtain ⟨hzy, hzz, -, -, -⟩ := IMU_rotate_identity_roll s e
    have hsq : e ^ 2 < 2 := by
      have h2 : |e| ^ 2 < (√2) ^ 2 := by
        apply pow_lt_pow_left₀ he (abs_nonneg e) (by norm_num)
      rwa [sq_abs, Real.sq_sqrt (by norm_num)] at h2
    have hn : 0 < 1 - e ^ 2 / 2 := by linarith
    simp only [IMU_getRollAngle]
    rw [hzy, hzz]
    show atan2 _ _ = _
    rw [atan2_of_pos _ _ (by linarith), one_mul, mul_div_assoc, div_self (ne_of_gt hn), mul_one]
  obtain ⟨-, -, hzx, hyx, hxx⟩ := IMU_rotate_identity_roll s dx
  refine ⟨⟨key dx h, ?_, ?_⟩, ?_⟩
  · simp only [IMU_getPitchAngle]
    rw [hzx]
    simp [realLibm]
  · simp only [IMU_getYawAngle]
    rw [hyx, hxx]
    show atan2 _ _ = _
    rw [atan2_of_pos _ _ one_pos]
    simp
  · rw [key 0.01 ?_]
    · exact arctan_hundredth
    · rw [abs_of_pos (by norm_num)]
      have : (1 : ℝ) ≤ √2 := by
        rw [show (1 : ℝ) = √1 by simp]
        exact Real.sqrt_le_sqrt (by norm_num)
      linarith

/-- Witness for C5 at dx = 0.01 from the start-up state. -/
theorem IMU_rotate_roll_only_witness :
    (IMU_getRollAngle realLibm (IMU_rotate (IMU_align realLibm IMU_init 0 0 0) 0.01 0 0)
       = arctan 0.01 ∧
     IMU_getPitchAngle realLibm (IMU_rotate (IMU_align realLibm IMU_init 0 0 0) 0.01 0 0) = 0 ∧
     IMU_getYawAngle realLibm (IMU_rotate (IMU_align realLibm IMU_init 0 0 0) 0.01 0 0) = 0) ∧
    |IMU_getRollAngle realLibm (IMU_rotate (IMU_align realLibm IMU_init 0 0 0) 0.01 0 0) - 0.01|
      ≤ 0.001 :=
  IMU_rotate_roll_only IMU_init 0.01 (by
    rw [abs_of_pos (by norm_num)]
    have : (1 : ℝ) ≤ √2 := by
      rw [show (1 : ℝ) = √1 by simp]
      exact Real.sqrt_le_sqrt (by norm_num)
    linarith)

/-! ### IMU_update: snapshot and correction -/

theorem IMU_K_eq {α : Type} [LinearOrderedField α] : (IMU_K : α) = 1 / 125 := by
  simp only [IMU_K, IMU_TIME_CONSTANT, IMU_HZ]
  norm_num

theorem IMU_update_aligned {α : Type} [LinearOrderedField α] (b : Build) (mpu : MPU)
    (s : IMU α) (hal : s.IMU_aligned = true) :
    IMU_update b mpu s = IMU_correct (IMU_afterSnapshot b mpu s)
      (GYRO_getRotations b mpu : α × α × α).1 (GYRO_getRotations b mpu : α × α × α).2.1
      (GYRO_getRotations b mpu : α × α × α).2.2 := by
  simp [IMU_update, IMU_afterSnapshot, hal]

theorem IMU_rotate_frame {α : Type} [LinearOrderedField α] (s : IMU α) (dx dy dz : α) :
    (IMU_rotate s dx dy dz).IMU_rollError = s.IMU_rollError ∧
    (IMU_rotate s dx dy dz).IMU_pitchError = s.IMU_pitchError ∧
    (IMU_rotate s dx dy dz).IMU_yawError = s.IMU_yawError ∧
    (IMU_rotate s dx dy dz).IMU_rollReference = s.IMU_rollReference ∧
    (IMU_rotate s dx dy dz).IMU_pitchReference = s.IMU_pitchReference ∧
    (IMU_rotate s dx dy dz).IMU_aligned = s.IMU_aligned ∧
    (IMU_rotate s dx dy dz).IMU_apply_dc = s.IMU_apply_dc ∧
    (IMU_rotate s dx dy dz).duration = s.duration := by
  simp [IMU_rotate]

theorem IMU_stance_dwelt (b : Build) :
    (IMU_stance b (MPU_sample 3 (-2) 1 0) (IMU_dwelt : IMU ℚ).duration).1 = true := by
  simp [IMU_stance, GYRO_getYawRate, MPU_sample, IMU_dwelt, IMU_RATE_THRESHOLD,
    IMU_RATE_DURATION, DEG_TO_RAD, IMU_HZ]
  norm_num

/-- C8: on a cycle where the stance is upright-confirmed, IMU_update continues from the
state whose pending errors are the snapshot taken from the matrix as it stands before this
cycle's rotation: Rzy - rollReference, -Rzx - pitchReference and 0.  The pending error stored
before the cycle is replaced: the result does not depend on it. -/
theorem IMU_update_snapshot {α : Type} [LinearOrderedField α] (b : Build) (mpu : MPU)
    (s : IMU α) (hal : s.IMU_aligned = true)
    (hup : (IMU_stance b mpu s.duration).1 = true) :
    (IMU_afterSnapshot b mpu s).IMU_rollError = s.Rzy - s.IMU_rollReference ∧
    (IMU_afterSnapshot b mpu s).IMU_pitchError = -s.Rzx - s.IMU_pitchReference ∧
    (IMU_afterSnapshot b mpu s).IMU_yawError = 0 ∧
    IMU_update b mpu s =
      IMU_correct
        { s with
          duration := (IMU_stance b mpu s.duration).2
          IMU_rollError := s.Rzy - s.IMU_rollReference
          IMU_pitchError := -s.Rzx - s.IMU_pitchReference
          IMU_yawError := 0 }
        (GYRO_getRotations b mpu : α × α × α).1 (GYRO_getRotations b mpu : α × α × α).2.1
        (GYRO_getRotations b mpu : α × α × α).2.2 ∧
    ∀ e1 e2 e3 : α,
      IMU_update b mpu { s with IMU_rollError := e1, IMU_pitchError := e2, IMU_yawError := e3 }
        = IMU_update b mpu s := by
  refine ⟨?_, ?_, ?_, ?_, ?_⟩
  · simp [IMU_afterSnapshot, IMU_snapshot, hup]
  · simp [IMU_afterSnapshot, IMU_snapshot, hup]
  · simp [IMU_afterSnapshot, IMU_snapshot, hup]
  · rw [IMU_update_aligned b mpu s hal]
    simp [IMU_afterSnapshot, IMU_snapshot, hup]
  · intro e1 e2 e3
    rw [IMU_update_aligned b mpu s hal,
      IMU_update_aligned b mpu
        { s with IMU_rollError := e1, IMU_pitchError := e2, IMU_yawError := e3 } hal]
    simp [IMU_afterSnapshot, IMU_snapshot, hup]

/-- Witness for C8: the dwelt state with a quiet yaw gyro, on the Invensense build. -/
theorem IMU_update_snapshot_witness :
    (IMU_afterSnapshot ⟨0, 16⟩ (MPU_sample 3 (-2) 1 0) (IMU_dwelt : IMU ℚ)).IMU_rollError
      = (IMU_dwelt : IMU ℚ).Rzy - (IMU_dwelt : IMU ℚ).IMU_rollReference ∧
    (IMU_afterSnapshot ⟨0, 16⟩ (MPU_sample 3 (-2) 1 0) (IMU_dwelt : IMU ℚ)).IMU_pitchError
      = -(IMU_dwelt : IMU ℚ).Rzx - (IMU_dwelt : IMU ℚ).IMU_pitchReference ∧
    (IMU_afterSnapshot ⟨0, 16⟩ (MPU_sample 3 (-2) 1 0) (IMU_dwelt : IMU ℚ)).IMU_yawError = 0 ∧
    IMU_update ⟨0, 16⟩ (MPU_sample 3 (-2) 1 0) (IMU_dwelt : IMU ℚ) =
      IMU_correct
        { (IMU_dwelt : IMU ℚ) with
          duration := (IMU_stance ⟨0, 16⟩ (MPU_sample 3 (-2) 1 0) (IMU_dwelt : IMU ℚ).duration).2
          IMU_rollError := (IMU_dwelt : IMU ℚ).Rzy - (IMU_dwelt : IMU ℚ).IMU_rollReference
          IMU_pitchError := -(IMU_dwelt : IMU ℚ).Rzx - (IMU_dwelt : IMU ℚ).IMU_pitchReference
          IMU_yawError := 0 }
        (GYRO_getRotations ⟨0, 16⟩ (MPU_sample 3 (-2) 1 0) : ℚ × ℚ × ℚ).1
        (GYRO_getRotations ⟨0, 16⟩ (MPU_sample 3 (-2) 1 0) : ℚ × ℚ × ℚ).2.1
        (GYRO_getRotations ⟨0, 16⟩ (MPU_sample 3 (-2) 1 0) : ℚ × ℚ × ℚ).2.2 ∧
    ∀ e1 e2 e3 : ℚ,
      IMU_update ⟨0, 16⟩ (MPU_sample 3 (-2) 1 0)
        { (IMU_dwelt : IMU ℚ) with IMU_rollError := e1, IMU_pitchError := e2, IMU_yawError := e3 }
        = IMU_update ⟨0, 16⟩ (MPU_sample 3 (-2) 1 0) (IMU_dwelt : IMU ℚ) :=
  IMU_update_snapshot ⟨0, 16⟩ (MPU_sample 3 (-2) 1 0) IMU_dwelt rfl (IMU_stance_dwelt ⟨0, 16⟩)

/-- C9: on an aligned cycle with correction enabled, K is 1/125, the increments passed to
IMU_rotate are the gyro increments minus K times the pending error after this cycle's
snapshot (if any), and the stored pending error becomes (1 - K) times it on each axis. -/
theorem IMU_update_correction {α : Type} [LinearOrderedField α] (b : Build) (mpu : MPU)
    (s : IMU α) (hal : s.IMU_aligned = true) (hdc : s.IMU_apply_dc = true) :
    (IMU_K : α) = 1 / (0.5 * 250) ∧ (IMU_K : α) = 1 / 125 ∧
    IMU_update b mpu s =
      IMU_rotate
        { IMU_afterSnapshot b mpu s with
          IMU_rollError := (1 - 1 / 125) * (IMU_afterSnapshot b mpu s).IMU_rollError
          IMU_pitchError := (1 - 1 / 125) * (IMU_afterSnapshot b mpu s).IMU_pitchError
          IMU_yawError := (1 - 1 / 125) * (IMU_afterSnapshot b mpu s).IMU_yawError }
        ((GYRO_getRotations b mpu : α × α × α).1
          - 1 / 125 * (IMU_afterSnapshot b mpu s).IMU_rollError)
        ((GYRO_getRotations b mpu : α × α × α).2.1
          - 1 / 125 * (IMU_afterSnapshot b mpu s).IMU_pitchError)
        ((GYRO_getRotations b mpu : α × α × α).2.2
          - 1 / 125 * (IMU_afterSnapshot b mpu s).IMU_yawError) ∧
    (IMU_update b mpu s).IMU_rollError
      = (1 - 1 / 125) * (IMU_afterSnapshot b mpu s).IMU_rollError ∧
    (IMU_update b mpu s).IMU_pitchError
      = (1 - 1 / 125) * (IMU_afterSnapshot b mpu s).IMU_pitchError ∧
    (IMU_update b mpu s).IMU_yawError
      = (1 - 1 / 125) * (IMU_afterSnapshot b mpu s).IMU_yawError := by
  have hdc2 : (IMU_afterSnapshot b mpu s).IMU_apply_dc = true := by
    simp only [IMU_afterSnapshot, IMU_snapshot]
    split <;> exact hdc
  have hmain : IMU_update b mpu s =
      IMU_rotate
        { IMU_afterSnapshot b mpu s with
          IMU_rollError := (1 - 1 / 125) * (IMU_afterSnapshot b mpu s).IMU_rollError
          IMU_pitchError := (1 - 1 / 125) * (IMU_afterSnapshot b mpu s).IMU_pitchError
          IMU_yawError := (1 - 1 / 125) * (IMU_afterSnapshot b mpu s).IMU_yawError }
        ((GYRO_getRotations b mpu : α × α × α).1
          - 1 / 125 * (IMU_afterSnapshot b mpu s).IMU_rollError)
        ((GYRO_getRotations b mpu : α × α × α).2.1
          - 1 / 125 * (IMU_afterSnapshot b mpu s).IMU_pitchError)
        ((GYRO_getRotations b mpu : α × α × α).2.2
          - 1 / 125 * (IMU_afterSnapshot b mpu s).IMU_yawError) := by
    rw [IMU_update_aligned b mpu s hal]
    simp only [IMU_correct, hdc2, IMU_K_eq, Bool.not_true, Bool.false_eq_true, if_false]
    congr 1
    · congr 1 <;> ring
    · ring
    · ring
    · ring
  refine ⟨?_, IMU_K_eq, hmain, ?_, ?_, ?_⟩
  · rw [IMU_K_eq]
    norm_num
  · rw [hmain, (IMU_rotate_frame _ _ _ _).1]
  · rw [hmain, (IMU_rotate_frame _ _ _ _).2.1]
  · rw [hmain, (IMU_rotate_frame _ _ _ _).2.2.1]

/-- Witness for C9: the dwelt state (aligned, correction enabled) with a quiet yaw gyro. -/
theorem IMU_update_correction_witness :
    (IMU_K : ℚ) = 1 / (0.5 * 250) ∧ (IMU_K : ℚ) = 1 / 125 ∧
    IMU_update ⟨0, 16⟩ (MPU_sample 3 (-2) 1 0) (IMU_dwelt : IMU ℚ) =
      IMU_rotate
        { IMU_afterSnapshot ⟨0, 16⟩ (MPU_sample 3 (-2) 1 0) (IMU_dwelt : IMU ℚ) with
          IMU_rollError := (1 - 1 / 125) *
            (IMU_afterSnapshot ⟨0, 16⟩ (MPU_sample 3 (-2) 1 0) (IMU_dwelt : IMU ℚ)).IMU_rollError
          IMU_pitchError := (1 - 1 / 125) *
            (IMU_afterSnapshot ⟨0, 16⟩ (MPU_sample 3 (-2) 1 0) (IMU_dwelt : IMU ℚ)).IMU_pitchError
          IMU_yawError := (1 - 1 / 125) *
            (IMU_afterSnapshot ⟨0, 16⟩ (MPU_sample 3 (-2) 1 0) (IMU_dwelt : IMU ℚ)).IMU_yawError }
        ((GYRO_getRotations ⟨0, 16⟩ (MPU_sample 3 (-2) 1 0) : ℚ × ℚ × ℚ).1
          - 1 / 125 *
            (IMU_afterSnapshot ⟨0, 16⟩ (MPU_sample 3 (-2) 1 0) (IMU_dwelt : IMU ℚ)).IMU_rollError)
        ((GYRO_getRotations ⟨0, 16⟩ (MPU_sample 3 (-2) 1 0) : ℚ × ℚ × ℚ).2.1
          - 1 / 125 *
            (IMU_afterSnapshot ⟨0, 16⟩ (MPU_sample 3 (-2) 1 0) (IMU_dwelt : IMU ℚ)).IMU_pitchError)
        ((GYRO_getRotations ⟨0, 16⟩ (MPU_sample 3 (-2) 1 0) : ℚ × ℚ × ℚ).2.2
          - 1 / 125 *
            (IMU_afterSnapshot ⟨0, 16⟩ (MPU_sample 3 (-2) 1 0) (IMU_dwelt : IMU ℚ)).IMU_yawError) ∧
    (IMU_update ⟨0, 16⟩ (MPU_sample 3 (-2) 1 0) (IMU_dwelt : IMU ℚ)).IMU_rollError
      = (1 - 1 / 125) *
        (IMU_afterSnapshot ⟨0, 16⟩ (MPU_sample 3 (-2) 1 0) (IMU_dwelt : IMU ℚ)).IMU_rollError ∧
    (IMU_update ⟨0, 16⟩ (MPU_sample 3 (-2) 1 0) (IMU_dwelt : IMU ℚ)).IMU_pitchError
      = (1 - 1 / 125) *
        (IMU_afterSnapshot ⟨0, 16⟩ (MPU_sample 3 (-2) 1 0) (IMU_dwelt : IMU ℚ)).IMU_pitchError ∧
    (IMU_update ⟨0, 16⟩ (MPU_sample 3 (-2) 1 0) (IMU_dwelt : IMU ℚ)).IMU_yawError
      = (1 - 1 / 125) *
        (IMU_afterSnapshot ⟨0, 16⟩ (MPU_sample 3 (-2) 1 0) (IMU_dwelt : IMU ℚ)).IMU_yawError :=
  IMU_update_correction ⟨0, 16⟩ (MPU_sample 3 (-2) 1 0) IMU_dwelt rfl rfl

/-! ### Decay of the pending error -/

theorem IMU_update_rollError {α : Type} [LinearOrderedField α] (b : Build) (mpu : MPU)
    (s : IMU α) (hal : s.IMU_aligned = true)
    (hno : (IMU_stance b mpu s.duration).1 = false) :
    (IMU_update b mpu s).IMU_rollError = (1 - 1 / 125) * s.IMU_rollError := by
  rw [IMU_update_aligned b mpu s hal]
  simp only [IMU_correct]
  rw [(IMU_rotate_frame _ _ _ _).1]
  simp only [IMU_afterSnapshot, IMU_snapshot, hno, IMU_K_eq, Bool.false_eq_true, if_false]
  ring

theorem IMU_update_flags {α : Type} [LinearOrderedField α] (b : Build) (mpu : MPU)
    (s : IMU α) :
    (IMU_update b mpu s).IMU_aligned = s.IMU_aligned ∧
    (IMU_update b mpu s).IMU_apply_dc = s.IMU_apply_dc := by
  cases hal : s.IMU_aligned
  · rw [IMU_update_not_aligned_eq b mpu s hal]
    exact ⟨hal, rfl⟩
  · rw [IMU_update_aligned b mpu s hal]
    simp only [IMU_correct]
    rw [(IMU_rotate_frame _ _ _ _).2.2.2.2.2.1, (IMU_rotate_frame _ _ _ _).2.2.2.2.2.2.1]
    simp only [IMU_afterSnapshot, IMU_snapshot]
    split <;> exact ⟨hal, rfl⟩

theorem IMU_run_rollError {α : Type} [LinearOrderedField α] (b : Build) (ms : List MPU) :
    ∀ s : IMU α, s.IMU_aligned = true → NoSnapshot b s ms →
      (IMU_run b s ms).IMU_rollError = s.IMU_rollError * (1 - 1 / 125) ^ ms.length := by
  induction ms with
  | nil => intro s _ _; simp [IMU_run]
  | cons m ms ih =>
    intro s hal hno
    obtain ⟨h1, h2⟩ := hno
    have hal2 : (IMU_update b m s).IMU_aligned = true := by
      rw [(IMU_update_flags b m s).1, hal]
    have := ih (IMU_update b m s) hal2 h2
    simp only [IMU_run, List.foldl_cons, List.length_cons] at this ⊢
    rw [this, IMU_update_rollError b m s hal h1]
    ring

theorem NoSnapshot_append {α : Type} [LinearOrderedField α] (b : Build) (ms : List MPU)
    (m : MPU) : ∀ s : IMU α, NoSnapshot b s (ms ++ [m]) → NoSnapshot b s ms := by
  induction ms with
  | nil => intro s _; trivial
  | cons a ms ih =>
    intro s h
    exact ⟨h.1, ih _ h.2⟩

theorem decay_625 : ((1 : ℝ) - 1 / 125) ^ 625 < 1 / 100 := by
  norm_num

/-- C10: drift-correction convergence.  With the integrator aligned, correction enabled and
no snapshot on any cycle, a pending roll error of 0.1 rad is after n dispatch cycles exactly
0.1 * (1 - 1/125)^n; it is positive, one more such cycle makes it strictly smaller, and for
n ≥ 625 it is below 1% of the initial 0.1. -/
theorem IMU_rollError_decay (b : Build) (s : IMU ℝ) (ms : List MPU)
    (hal : s.IMU_aligned = true) (hdc : s.IMU_apply_dc = true)
    (herr : s.IMU_rollError = 0.1) (hno : NoSnapshot b s ms) :
    (IMU_run b s ms).IMU_rollError = 0.1 * (1 - 1 / 125) ^ ms.length ∧
    0 < (IMU_run b s ms).IMU_rollError ∧
    (∀ m : MPU, NoSnapshot b s (ms ++ [m]) →
      (IMU_run b s (ms ++ [m])).IMU_rollError < (IMU_run b s ms).IMU_rollError) ∧
    (625 ≤ ms.length → (IMU_run b s ms).IMU_rollError < 0.01 * 0.1) := by
  have _ := hdc
  have hq0 : (0 : ℝ) < 1 - 1 / 125 := by norm_num
  have hq1 : (1 : ℝ) - 1 / 125 < 1 := by norm_num
  have hform := IMU_run_rollError b ms s hal hno
  rw [herr] at hform
  have hpos : (0 : ℝ) < 0.1 * (1 - 1 / 125) ^ ms.length :=
    mul_pos (by norm_num) (pow_pos hq0 _)
  refine ⟨hform, by rw [hform]; exact hpos, ?_, ?_⟩
  · intro m hm
    have h2 := IMU_run_rollError b (ms ++ [m]) s hal hm
    rw [herr] at h2
    rw [h2, hform, List.length_append, List.length_singleton, pow_succ]
    nlinarith
  · intro hn
    rw [hform]
    have h1 : ((1 : ℝ) - 1 / 125) ^ ms.length ≤ (1 - 1 / 125) ^ 625 :=
      pow_le_pow_of_le_one hq0.le hq1.le hn
    have h2 := decay_625
    nlinarith

theorem IMU_stance_of_gt {α : Type} [LinearOrderedField α] (b : Build) (mpu : MPU) (d : α)
    (h : (IMU_RATE_THRESHOLD : α) < |GYRO_getYawRate b mpu|) :
    IMU_stance b mpu d = (false, 0) := by
  simp [IMU_stance, not_le.mpr h]

theorem IMU_stance_turning (d : ℝ) :
    (IMU_stance ⟨0, 16⟩ (MPU_sample 0 0 0 1000) d).1 = false := by
  rw [IMU_stance_of_gt]
  simp only [GYRO_getYawRate, MPU_sample, MPU_GYRO_SCALE_FACTOR, DEG_TO_RAD,
    IMU_RATE_THRESHOLD]
  rw [abs_of_pos (by norm_num)]
  norm_num

/-- Witness for C10: two turning cycles (yaw rate far above the threshold) from the dwelt
state, whose pending roll error is 0.1. -/
theorem IMU_rollError_decay_witness :
    (IMU_run ⟨0, 16⟩ (IMU_dwelt : IMU ℝ)
        [MPU_sample 0 0 0 1000, MPU_sample 0 0 0 1000]).IMU_rollError
      = 0.1 * (1 - 1 / 125) ^ [MPU_sample 0 0 0 1000, MPU_sample 0 0 0 1000].length ∧
    0 < (IMU_run ⟨0, 16⟩ (IMU_dwelt : IMU ℝ)
        [MPU_sample 0 0 0 1000, MPU_sample 0 0 0 1000]).IMU_rollError ∧
    (∀ m : MPU, NoSnapshot ⟨0, 16⟩ (IMU_dwelt : IMU ℝ)
        ([MPU_sample 0 0 0 1000, MPU_sample 0 0 0 1000] ++ [m]) →
      (IMU_run ⟨0, 16⟩ (IMU_dwelt : IMU ℝ)
        ([MPU_sample 0 0 0 1000, MPU_sample 0 0 0 1000] ++ [m])).IMU_rollError
      < (IMU_run ⟨0, 16⟩ (IMU_dwelt : IMU ℝ)
        [MPU_sample 0 0 0 1000, MPU_sample 0 0 0 1000]).IMU_rollError) ∧
    (625 ≤ [MPU_sample 0 0 0 1000, MPU_sample 0 0 0 1000].length →
      (IMU_run ⟨0, 16⟩ (IMU_dwelt : IMU ℝ)
        [MPU_sample 0 0 0 1000, MPU_sample 0 0 0 1000]).IMU_rollError < 0.01 * 0.1) :=
  IMU_rollError_decay ⟨0, 16⟩ IMU_dwelt [MPU_sample 0 0 0 1000, MPU_sample 0 0 0 1000]
    rfl rfl (by simp only [IMU_dwelt]; norm_num)
    ⟨IMU_stance_turning _, IMU_stance_turning _, trivial⟩

/-! ### Orthonormality under repeated rotation -/

/-- Bounds on a squared row length after the multiplication by Q. -/
theorem mulQ_sq_bounds (sx q p : ℝ) (h1 : 1 - 1 / 10000 ≤ sx) (h2 : sx ≤ 1)
    (hq0 : 0 ≤ q) (hp : p ^ 2 ≤ sx * q) :
    1 - 1 / 10000 ≤ sx * (1 + q) - p ^ 2 ∧ sx * (1 + q) - p ^ 2 ≤ 1 + q := by
  have hp0 : 0 ≤ p ^ 2 := sq_nonneg p
  constructor
  · nlinarith
  · nlinarith

/-- Bound on the dot product of rows X and Y after the multiplication by Q. -/
theorem mulQ_dot_bound (sx sy q px py D0 : ℝ) (hsx : sx ≤ 1) (hsy : sy ≤ 1)
    (hq0 : 0 ≤ q) (hq : q ≤ 3 / 400) (hpx : px ^ 2 ≤ sx * q) (hpy : py ^ 2 ≤ sy * q)
    (hD0 : |D0| ≤ 1 / 10000) :
    |D0 * (1 + q) - px * py| ≤ 77 / 10000 := by
  have h1 : |px * py| ≤ q := by
    rw [abs_le]
    constructor
    · nlinarith [sq_nonneg (px + py)]
    · nlinarith [sq_nonneg (px - py)]
  have h2 : |D0 * (1 + q)| ≤ 1 / 10000 * (1 + 3 / 400) := by
    rw [abs_mul, abs_of_pos (by linarith : (0 : ℝ) < 1 + q)]
    exact mul_le_mul hD0 (by linarith) (by linarith) (by norm_num)
  calc |D0 * (1 + q) - px * py| ≤ |D0 * (1 + q)| + |px * py| := abs_sub _ _
    _ ≤ 1 / 10000 * (1 + 3 / 400) + q := add_le_add h2 h1
    _ ≤ 77 / 10000 := by linarith

/-- Bounds after the half-dot correction. -/
theorem halfdot_bounds (a b D : ℝ) (ha1 : 1 - 1 / 10000 ≤ a) (ha2 : a ≤ 1 + 3 / 400)
    (hb1 : 1 - 1 / 10000 ≤ b) (hb2 : b ≤ 1 + 3 / 400) (hD : |D| ≤ 77 / 10000) :
    (9998 / 10000 ≤ a - D ^ 2 * (1 - b / 4) ∧ a - D ^ 2 * (1 - b / 4) ≤ 1 + 3 / 400) ∧
    |D * (1 - (a + b) / 2 + D ^ 2 / 4)| ≤ 6 / 100000 := by
  have hD2 : D ^ 2 ≤ (77 / 10000) ^ 2 := by
    rw [← sq_abs]
    exact pow_le_pow_left₀ (abs_nonneg D) hD 2
  have hD0 : 0 ≤ D ^ 2 := sq_nonneg D
  refine ⟨⟨?_, ?_⟩, ?_⟩
  · nlinarith
  · nlinarith
  · rw [abs_mul]
    have hf : |1 - (a + b) / 2 + D ^ 2 / 4| ≤ 76 / 10000 := by
      rw [abs_le]
      constructor <;> nlinarith
    calc |D| * |1 - (a + b) / 2 + D ^ 2 / 4| ≤ 77 / 10000 * (76 / 10000) :=
          mul_le_mul hD hf (abs_nonneg _) (by norm_num)
      _ ≤ 6 / 100000 := by norm_num

/-- The Taylor renormalisation of a squared length near 1 undershoots by a bounded amount. -/
theorem renorm_bounds (s lo hi e : ℝ) (h1 : lo ≤ s) (h2 : s ≤ hi) (hlo1 : lo ≤ 1)
    (hhi1 : 1 ≤ hi) (hhi : hi ≤ 4)
    (he1 : (1 - lo) ^ 2 * (4 - lo) / 4 ≤ e) (he2 : (hi - 1) ^ 2 * (4 - 1) / 4 ≤ e) :
    1 - e ≤ s * ((3 - s) / 2) ^ 2 ∧ s * ((3 - s) / 2) ^ 2 ≤ 1 := by
  have hid : s * ((3 - s) / 2) ^ 2 = 1 - (s - 1) ^ 2 * (4 - s) / 4 := by ring
  rw [hid]
  have hsq : 0 ≤ (s - 1) ^ 2 := sq_nonneg _
  constructor
  · rcases le_total s 1 with hs | hs
    · have : (s - 1) ^ 2 ≤ (1 - lo) ^ 2 := by nlinarith
      nlinarith
    · have : (s - 1) ^ 2 ≤ (hi - 1) ^ 2 := by nlinarith
      nlinarith
  · nlinarith

/-- Bounds on the squared length of the cross product row. -/
theorem cross_sq_bounds (sx sy D : ℝ) (hx1 : 9998 / 10000 ≤ sx) (hx2 : sx ≤ 1 + 3 / 400)
    (hy1 : 9998 / 10000 ≤ sy) (hy2 : sy ≤ 1 + 3 / 400) (hD : |D| ≤ 6 / 100000) :
    9996 / 10000 ≤ sx * sy - D ^ 2 ∧ sx * sy - D ^ 2 ≤ 10151 / 10000 := by
  have hD2 : D ^ 2 ≤ (6 / 100000) ^ 2 := by
    rw [← sq_abs]
    exact pow_le_pow_left₀ (abs_nonneg D) hD 2
  have hD0 : 0 ≤ D ^ 2 := sq_nonneg D
  constructor
  · nlinarith
  · nlinarith

/-- Bound on the dot product of rows X and Y after normalisation. -/
theorem normalized_dot_bound (sx sy D : ℝ) (hx1 : 9998 / 10000 ≤ sx) (hx2 : sx ≤ 1 + 3 / 400)
    (hy1 : 9998 / 10000 ≤ sy) (hy2 : sy ≤ 1 + 3 / 400) (hD : |D| ≤ 6 / 100000) :
    |(3 - sx) / 2 * ((3 - sy) / 2) * D| ≤ 1 / 10000 := by
  have hnx : |(3 - sx) / 2| ≤ 10001 / 10000 := by
    rw [abs_le]
    constructor <;> linarith
  have hny : |(3 - sy) / 2| ≤ 10001 / 10000 := by
    rw [abs_le]
    constructor <;> linarith
  rw [abs_mul, abs_mul]
  calc |(3 - sx) / 2| * |(3 - sy) / 2| * |D|
      ≤ 10001 / 10000 * (10001 / 10000) * (6 / 100000) :=
        mul_le_mul (mul_le_mul hnx hny (abs_nonneg _) (by norm_num)) hD (abs_nonneg _)
          (by norm_num)
    _ ≤ 1 / 10000 := by norm_num

/-- A squared length within 19999/10^8 below 1 is the square of a length within 1/10000
of 1. -/
theorem sqrt_near_one (v : ℝ) (h1 : 1 - 19999 / 100000000 ≤ v) (h2 : v ≤ 1) :
    |√v - 1| ≤ 0.0001 := by
  have hup : √v ≤ 1 := Real.sqrt_le_one.mpr h2
  have hlo : 1 - 1 / 10000 ≤ √v := by
    rw [Real.le_sqrt' (by norm_num)]
    norm_num at h1 ⊢
    linarith
  rw [abs_le]
  constructor
  · norm_num
    linarith
  · linarith

theorem mulQ_measures (s : IMU ℝ) (dx dy dz : ℝ) :
    sqX (IMU_mulQ s dx dy dz) = sqX s * (1 + (dx ^ 2 + dy ^ 2 + dz ^ 2))
      - (s.Rxx * dx + s.Rxy * dy + s.Rxz * dz) ^ 2 ∧
    sqY (IMU_mulQ s dx dy dz) = sqY s * (1 + (dx ^ 2 + dy ^ 2 + dz ^ 2))
      - (s.Ryx * dx + s.Ryy * dy + s.Ryz * dz) ^ 2 ∧
    dotXY (IMU_mulQ s dx dy dz) = dotXY s * (1 + (dx ^ 2 + dy ^ 2 + dz ^ 2))
      - (s.Rxx * dx + s.Rxy * dy + s.Rxz * dz) * (s.Ryx * dx + s.Ryy * dy + s.Ryz * dz) := by
  simp only [sqX, sqY, dotXY, IMU_mulQ]
  refine ⟨?_, ?_, ?_⟩ <;> ring

theorem cauchy_schwarz3 (x y z dx dy dz : ℝ) :
    (x * dx + y * dy + z * dz) ^ 2 ≤ (x * x + y * y + z * z) * (dx ^ 2 + dy ^ 2 + dz ^ 2) := by
  nlinarith [sq_nonneg (y * dz - z * dy), sq_nonneg (z * dx - x * dz),
    sq_nonneg (x * dy - y * dx)]

theorem halfdot_measures (s : IMU ℝ) :
    sqX (IMU_halfdot s) = sqX s - dotXY s ^ 2 * (1 - sqY s / 4) ∧
    sqY (IMU_halfdot s) = sqY s - dotXY s ^ 2 * (1 - sqX s / 4) ∧
    dotXY (IMU_halfdot s) = dotXY s * (1 - (sqX s + sqY s) / 2 + dotXY s ^ 2 / 4) := by
  have h5 : (0.5 : ℝ) = 1 / 2 := by norm_num
  simp only [sqX, sqY, dotXY, IMU_halfdot, h5]
  refine ⟨?_, ?_, ?_⟩ <;> ring

theorem crossZ_measures (s : IMU ℝ) :
    sqX (IMU_crossZ s) = sqX s ∧ sqY (IMU_crossZ s) = sqY s ∧
    dotXY (IMU_crossZ s) = dotXY s ∧
    sqZ (IMU_crossZ s) = sqX s * sqY s - dotXY s ^ 2 ∧
    dotXZ (IMU_crossZ s) = 0 ∧ dotYZ (IMU_crossZ s) = 0 := by
  simp only [sqX, sqY, sqZ, dotXY, dotXZ, dotYZ, IMU_crossZ]
  refine ⟨trivial, trivial, trivial, ?_, ?_, ?_⟩ <;> ring

theorem normalize_measures (s : IMU ℝ) :
    sqX (IMU_normalize s) = sqX s * ((3 - sqX s) / 2) ^ 2 ∧
    sqY (IMU_normalize s) = sqY s * ((3 - sqY s) / 2) ^ 2 ∧
    sqZ (IMU_normalize s) = sqZ s * ((3 - sqZ s) / 2) ^ 2 ∧
    dotXY (IMU_normalize s) = (3 - sqX s) / 2 * ((3 - sqY s) / 2) * dotXY s ∧
    dotXZ (IMU_normalize s) = (3 - sqX s) / 2 * ((3 - sqZ s) / 2) * dotXZ s ∧
    dotYZ (IMU_normalize s) = (3 - sqY s) / 2 * ((3 - sqZ s) / 2) * dotYZ s := by
  have h5 : (0.5 : ℝ) = 1 / 2 := by norm_num
  simp only [sqX, sqY, sqZ, dotXY, dotXZ, dotYZ, IMU_normalize, h5]
  refine ⟨?_, ?_, ?_, ?_, ?_, ?_⟩ <;> ring

theorem sq_le_of_abs_le (x : ℝ) (h : |x| ≤ 0.05) : x ^ 2 ≤ 1 / 400 := by
  have h2 : |x| ^ 2 ≤ (0.05 : ℝ) ^ 2 := pow_le_pow_left₀ (abs_nonneg x) h 2
  rw [sq_abs] at h2
  norm_num at h2 ⊢
  exact h2

/-- One IMU_rotate call with increments of magnitude at most 0.05 keeps the invariant, and
leaves row Z exactly perpendicular to rows X and Y with squared length in
[1 - 19999/10^8, 1]. -/
theorem IMU_rotate_step (s : IMU ℝ) (dx dy dz : ℝ) (h : NearOrtho s)
    (hx : |dx| ≤ 0.05) (hy : |dy| ≤ 0.05) (hz : |dz| ≤ 0.05) :
    NearOrtho (IMU_rotate s dx dy dz) ∧
    dotXZ (IMU_rotate s dx dy dz) = 0 ∧ dotYZ (IMU_rotate s dx dy dz) = 0 ∧
    1 - 19999 / 100000000 ≤ sqZ (IMU_rotate s dx dy dz) ∧
    sqZ (IMU_rotate s dx dy dz) ≤ 1 := by
  obtain ⟨hsx1, hsx2, hsy1, hsy2, hd0⟩ := h
  have hq0 : 0 ≤ dx ^ 2 + dy ^ 2 + dz ^ 2 := by positivity
  have hq : dx ^ 2 + dy ^ 2 + dz ^ 2 ≤ 3 / 400 := by
    have := sq_le_of_abs_le dx hx
    have := sq_le_of_abs_le dy hy
    have := sq_le_of_abs_le dz hz
    linarith
  -- stage 1: R = R * Q
  obtain ⟨hA, hB, hD⟩ := mulQ_measures s dx dy dz
  have hpx : (s.Rxx * dx + s.Rxy * dy + s.Rxz * dz) ^ 2
      ≤ sqX s * (dx ^ 2 + dy ^ 2 + dz ^ 2) := cauchy_schwarz3 _ _ _ _ _ _
  have hpy : (s.Ryx * dx + s.Ryy * dy + s.Ryz * dz) ^ 2
      ≤ sqY s * (dx ^ 2 + dy ^ 2 + dz ^ 2) := cauchy_schwarz3 _ _ _ _ _ _
  have ha := mulQ_sq_bounds (sqX s) _ _ hsx1 hsx2 hq0 hpx
  have hb := mulQ_sq_bounds (sqY s) _ _ hsy1 hsy2 hq0 hpy
  have hD1 := mulQ_dot_bound (sqX s) (sqY s) _ _ _ (dotXY s) hsx2 hsy2 hq0 hq hpx hpy hd0
  rw [← hA] at ha
  rw [← hB] at hb
  rw [← hD] at hD1
  have ha2 : sqX (IMU_mulQ s dx dy dz) ≤ 1 + 3 / 400 := by linarith [ha.2]
  have hb2 : sqY (IMU_mulQ s dx dy dz) ≤ 1 + 3 / 400 := by linarith [hb.2]
  -- stage 2: half-dot correction
  obtain ⟨hA2, hB2, hD2⟩ := halfdot_measures (IMU_mulQ s dx dy dz)
  have hx2 := (halfdot_bounds _ _ _ ha.1 ha2 hb.1 hb2 hD1).1
  have hdot2 := (halfdot_bounds _ _ _ ha.1 ha2 hb.1 hb2 hD1).2
  have hy2 := (halfdot_bounds _ _ _ hb.1 hb2 ha.1 ha2 hD1).1
  rw [← hA2] at hx2
  rw [← hB2] at hy2
  rw [← hD2] at hdot2
  -- stage 3: cross product
  obtain ⟨hA3, hB3, hD3, hZ3, hXZ3, hYZ3⟩ := crossZ_measures (IMU_halfdot (IMU_mulQ s dx dy dz))
  have hz3 := cross_sq_bounds _ _ _ hx2.1 hx2.2 hy2.1 hy2.2 hdot2
  rw [← hZ3] at hz3
  rw [← hA3] at hx2
  rw [← hB3] at hy2
  rw [← hD3] at hdot2
  -- stage 4: normalisation
  obtain ⟨hA4, hB4, hZ4, hD4, hXZ4, hYZ4⟩ :=
    normalize_measures (IMU_crossZ (IMU_halfdot (IMU_mulQ s dx dy dz)))
  rw [IMU_rotate_stages]
  have hX := renorm_bounds _ (9998 / 10000) (1 + 3 / 400) (1 / 10000) hx2.1 hx2.2
    (by norm_num) (by norm_num) (by norm_num) (by norm_num) (by norm_num)
  have hY := renorm_bounds _ (9998 / 10000) (1 + 3 / 400) (1 / 10000) hy2.1 hy2.2
    (by norm_num) (by norm_num) (by norm_num) (by norm_num) (by norm_num)
  have hZ := renorm_bounds _ (9996 / 10000) (10151 / 10000) (19999 / 100000000) hz3.1 hz3.2
    (by norm_num) (by norm_num) (by norm_num) (by norm_num) (by norm_num)
  have hDn := normalized_dot_bound _ _ _ hx2.1 hx2.2 hy2.1 hy2.2 hdot2
  rw [← hA4] at hX
  rw [← hB4] at hY
  rw [← hZ4] at hZ
  rw [← hD4] at hDn
  refine ⟨⟨hX.1, hX.2, hY.1, hY.2, hDn⟩, ?_, ?_, hZ.1, hZ.2⟩
  · rw [hXZ4, hXZ3, mul_zero]
  · rw [hYZ4, hYZ3, mul_zero]

theorem NearOrtho_of_Orthonormal (s : IMU ℝ) (h : Orthonormal s) : NearOrtho s := by
  obtain ⟨hx, hy, hd, -, -, -⟩ := h
  refine ⟨?_, ?_, ?_, ?_, ?_⟩
  · rw [hx]; norm_num
  · rw [hx]
  · rw [hy]; norm_num
  · rw [hy]
  · rw [hd]; norm_num

theorem IMU_rotates_invariant (ds : List (ℝ × ℝ × ℝ)) :
    ∀ s : IMU ℝ, NearOrtho s →
      (∀ d ∈ ds, |d.1| ≤ 0.05 ∧ |d.2.1| ≤ 0.05 ∧ |d.2.2| ≤ 0.05) → ds ≠ [] →
      NearOrtho (IMU_rotates s ds) ∧
      dotXZ (IMU_rotates s ds) = 0 ∧ dotYZ (IMU_rotates s ds) = 0 ∧
      1 - 19999 / 100000000 ≤ sqZ (IMU_rotates s ds) ∧ sqZ (IMU_rotates s ds) ≤ 1 := by
  induction ds with
  | nil => intro s _ _ hne; exact absurd rfl hne
  | cons d ds ih =>
    intro s hs hds _
    have hd := hds d (List.mem_cons_self d ds)
    have hstep := IMU_rotate_step s d.1 d.2.1 d.2.2 hs hd.1 hd.2.1 hd.2.2
    by_cases hnil : ds = []
    · subst hnil
      simpa [IMU_rotates] using hstep
    · have := ih (IMU_rotate s d.1 d.2.1 d.2.2) hstep.1
        (fun e he => hds e (List.mem_cons_of_mem d he)) hnil
      simpa [IMU_rotates] using this

/-- C3: orthonormality invariant.  Starting from an exactly orthonormal right-handed matrix,
for every sequence of IMU_rotate calls (of any length, in particular up to 10,000) whose three
increments each have magnitude at most 0.05, after every call every pair of distinct rows has
a dot product of magnitude at most 0.0001 and every row has a length within 0.0001 of 1. -/
theorem IMU_rotates_orthonormal (s : IMU ℝ) (h : Orthonormal s) (ds : List (ℝ × ℝ × ℝ))
    (hds : ∀ d ∈ ds, |d.1| ≤ 0.05 ∧ |d.2.1| ≤ 0.05 ∧ |d.2.2| ≤ 0.05)
    (k : Nat) (hk1 : 1 ≤ k) (hk2 : k ≤ ds.length) :
    |dotXY (IMU_rotates s (ds.take k))| ≤ 0.0001 ∧
    |dotXZ (IMU_rotates s (ds.take k))| ≤ 0.0001 ∧
    |dotYZ (IMU_rotates s (ds.take k))| ≤ 0.0001 ∧
    |√(sqX (IMU_rotates s (ds.take k))) - 1| ≤ 0.0001 ∧
    |√(sqY (IMU_rotates s (ds.take k))) - 1| ≤ 0.0001 ∧
    |√(sqZ (IMU_rotates s (ds.take k))) - 1| ≤ 0.0001 := by
  have hne : ds.take k ≠ [] := by
    intro h0
    have hl : (ds.take k).length = 0 := by rw [h0]; rfl
    rw [List.length_take] at hl
    omega
  obtain ⟨⟨hx1, hx2, hy1, hy2, hd⟩, hxz, hyz, hz1, hz2⟩ :=
    IMU_rotates_invariant (ds.take k) s (NearOrtho_of_Orthonormal s h)
      (fun d hd => hds d (List.mem_of_mem_take hd)) hne
  refine ⟨?_, ?_, ?_, ?_, ?_, ?_⟩
  · norm_num at hd ⊢
    exact hd
  · rw [hxz]; norm_num
  · rw [hyz]; norm_num
  · exact sqrt_near_one _ (by linarith) hx2
  · exact sqrt_near_one _ (by linarith) hy2
  · exact sqrt_near_one _ hz1 hz2

/-- Witness for C3: two calls, the first with all three increments at the bound, from the
matrix with rows (3/5, 4/5, 0), (-4/5, 3/5, 0), (0, 0, 1); the state after the second call. -/
theorem IMU_rotates_orthonormal_witness :
    |dotXY (IMU_rotates (IMU_rot345 : IMU ℝ)
      ([(0.05, -0.05, 0.05), (0.01, 0, -0.02)].take 2))| ≤ 0.0001 ∧
    |dotXZ (IMU_rotates (IMU_rot345 : IMU ℝ)
      ([(0.05, -0.05, 0.05), (0.01, 0, -0.02)].take 2))| ≤ 0.0001 ∧
    |dotYZ (IMU_rotates (IMU_rot345 : IMU ℝ)
      ([(0.05, -0.05, 0.05), (0.01, 0, -0.02)].take 2))| ≤ 0.0001 ∧
    |√(sqX (IMU_rotates (IMU_rot345 : IMU ℝ)
      ([(0.05, -0.05, 0.05), (0.01, 0, -0.02)].take 2))) - 1| ≤ 0.0001 ∧
    |√(sqY (IMU_rotates (IMU_rot345 : IMU ℝ)
      ([(0.05, -0.05, 0.05), (0.01, 0, -0.02)].take 2))) - 1| ≤ 0.0001 ∧
    |√(sqZ (IMU_rotates (IMU_rot345 : IMU ℝ)
      ([(0.05, -0.05, 0.05), (0.01, 0, -0.02)].take 2))) - 1| ≤ 0.0001 :=
  IMU_rotates_orthonormal IMU_rot345 IMU_rot345_orthonormal
    [(0.05, -0.05, 0.05), (0.01, 0, -0.02)]
    (by
      intro d hd
      simp only [List.mem_cons, List.mem_singleton, List.not_mem_nil, or_false] at hd
      rcases hd with rfl | rfl
      · refine ⟨?_, ?_, ?_⟩ <;> (rw [abs_le]; constructor <;> norm_num)
      · refine ⟨?_, ?_, ?_⟩ <;> (rw [abs_le]; constructor <;> norm_num))
    2 (by norm_num) (by simp)

/-! ### The stance timer -/

theorem IMU_update_duration {α : Type} [LinearOrderedField α] (b : Build) (m : MPU)
    (s : IMU α) (hal : s.IMU_aligned = true) :
    (IMU_update b m s).duration = (IMU_stance b m s.duration).2 := by
  rw [IMU_update_aligned b m s hal]
  simp only [IMU_correct]
  rw [(IMU_rotate_frame _ _ _ _).2.2.2.2.2.2.2]
  simp only [IMU_afterSnapshot, IMU_snapshot]
  split <;> rfl

theorem IMU_stance_quiet {α : Type} [LinearOrderedField α] (b : Build) (m : MPU) (c : Nat)
    (hq : |(GYRO_getYawRate b m : α)| ≤ IMU_RATE_THRESHOLD) :
    IMU_stance b m ((c : α) / 250) = (decide (10 ≤ c + 1), ((c + 1 : Nat) : α) / 250) := by
  have hd : (c : α) / 250 + 1.0 / (IMU_HZ : α) = ((c + 1 : Nat) : α) / 250 := by
    simp only [IMU_HZ]
    push_cast
    norm_num
    ring
  have hlt : (((c + 1 : Nat) : α) / 250 < IMU_RATE_DURATION) ↔ c + 1 < 10 := by
    simp only [IMU_RATE_DURATION]
    rw [div_lt_iff₀ (by norm_num)]
    norm_num
    constructor
    · intro h
      have h2 : ((c : α) + 1) < ((10 : Nat) : α) := by push_cast; exact h
      have h3 : ((c + 1 : Nat) : α) < ((10 : Nat) : α) := by push_cast; exact h2
      exact_mod_cast h3
    · intro h
      have h3 : ((c + 1 : Nat) : α) < ((10 : Nat) : α) := by exact_mod_cast h
      push_cast at h3
      exact h3
  simp only [IMU_stance, hq, decide_True, if_true, hd]
  by_cases h : c + 1 < 10
  · rw [if_pos (hlt.mpr h)]
    simp [Nat.not_le.mpr h]
  · rw [if_neg (fun h2 => h (hlt.mp h2))]
    simp [Nat.le_of_not_lt h]

theorem IMU_snapshots_quiet {α : Type} [LinearOrderedField α] (b : Build) (ms : List MPU) :
    ∀ (s : IMU α) (c : Nat), s.IMU_aligned = true → s.duration = (c : α) / 250 →
      (∀ m ∈ ms, |(GYRO_getYawRate b m : α)| ≤ IMU_RATE_THRESHOLD) →
      IMU_snapshots b s ms = (List.range ms.length).map (fun j => decide (10 ≤ c + j + 1)) ∧
      (IMU_run b s ms).duration = ((c + ms.length : Nat) : α) / 250 := by
  induction ms with
  | nil => intro s c _ hd _; simp [IMU_snapshots, IMU_run, hd]
  | cons m ms ih =>
    intro s c hal hd hq
    have hst := IMU_stance_quiet b m c (hq m (List.mem_cons_self m ms))
    have hal2 : (IMU_update b m s).IMU_aligned = true := by
      rw [(IMU_update_flags b m s).1, hal]
    have hd2 : (IMU_update b m s).duration = ((c + 1 : Nat) : α) / 250 := by
      rw [IMU_update_duration b m s hal, hd, hst]
    obtain ⟨h1, h2⟩ := ih (IMU_update b m s) (c + 1) hal2 hd2
      (fun e he => hq e (List.mem_cons_of_mem m he))
    constructor
    · simp only [IMU_snapshots, hal, hd, hst, Bool.true_and, h1, List.length_cons,
        List.range_succ_eq_map, List.map_cons, List.map_map]
      congr 1
      apply List.map_congr_left
      intro j _
      simp only [Function.comp, Nat.succ_eq_add_one]
      congr 1
      apply propext
      omega
    · simp only [IMU_run, List.foldl_cons, List.length_cons] at h2 ⊢
      rw [h2]
      congr 2
      omega

theorem dwell_trace_eq (n : Nat) : ∀ c : Nat,
    (List.range n).map (fun j => decide (10 ≤ c + j + 1))
      = List.replicate (min n (9 - c)) false ++ List.replicate (n - (9 - c)) true := by
  induction n with
  | zero => intro c; simp
  | succ n ih =>
    intro c
    rw [List.range_succ_eq_map, List.map_cons, List.map_map]
    have hmap : List.map ((fun j => decide (10 ≤ c + j + 1)) ∘ Nat.succ) (List.range n)
        = List.map (fun j => decide (10 ≤ (c + 1) + j + 1)) (List.range n) := by
      apply List.map_congr_left
      intro j _
      simp only [Function.comp, Nat.succ_eq_add_one]
      congr 1
      apply propext
      omega
    rw [hmap, ih (c + 1)]
    by_cases hc : c + 1 < 10
    · have h1 : min (n + 1) (9 - c) = min n (9 - (c + 1)) + 1 := by omega
      have h2 : n + 1 - (9 - c) = n - (9 - (c + 1)) := by omega
      rw [h1, h2, List.replicate_succ, List.cons_append]
      simp
      omega
    · have h1 : min (n + 1) (9 - c) = 0 := by omega
      have h2 : min n (9 - (c + 1)) = 0 := by omega
      have h3 : n + 1 - (9 - c) = (n - (9 - (c + 1))) + 1 := by omega
      rw [h1, h2, h3, List.replicate_succ]
      simp
      omega

theorem NoSnapshot_of_trace {α : Type} [LinearOrderedField α] (b : Build) (ms : List MPU) :
    ∀ s : IMU α, s.IMU_aligned = true →
      IMU_snapshots b s ms = List.replicate ms.length false → NoSnapshot b s ms := by
  induction ms with
  | nil => intro s _ _; trivial
  | cons m ms ih =>
    intro s hal h
    simp only [IMU_snapshots, hal, Bool.true_and, List.length_cons, List.replicate_succ,
      List.cons.injEq] at h
    have hal2 : (IMU_update b m s).IMU_aligned = true := by
      rw [(IMU_update_flags b m s).1, hal]
    exact ⟨h.1, ih _ hal2 h.2⟩

/-- C11: stance-dwell suppression.  From a zero stance timer, a run of at most 9 consecutive
quiet cycles (yaw rate magnitude at most the threshold) takes no snapshot, the timer
holding 0.004 s per cycle; a cycle with the yaw rate above the threshold takes no snapshot
and sets the timer to zero, so that the next 9 quiet cycles again take no snapshot. -/
theorem IMU_dwell_suppression {α : Type} [LinearOrderedField α] (b : Build) (s : IMU α)
    (ms : List MPU) (hal : s.IMU_aligned = true) (hd : s.duration = 0)
    (hq : ∀ m ∈ ms, |(GYRO_getYawRate b m : α)| ≤ IMU_RATE_THRESHOLD)
    (hlen : ms.length ≤ 9) :
    (IMU_snapshots b s ms = List.replicate ms.length false ∧ NoSnapshot b s ms ∧
      (IMU_run b s ms).duration = (ms.length : α) * 0.004 ∧
      (ms.length : α) * 0.004 < IMU_RATE_DURATION) ∧
    ∀ (t : IMU α) (m : MPU), t.IMU_aligned = true →
      (IMU_RATE_THRESHOLD : α) < |GYRO_getYawRate b m| →
      IMU_stance b m t.duration = (false, 0) ∧ (IMU_update b m t).duration = 0 ∧
      IMU_snapshots b t (m :: ms) = List.replicate (ms.length + 1) false := by
  have key : ∀ u : IMU α, u.IMU_aligned = true → u.duration = 0 →
      IMU_snapshots b u ms = List.replicate ms.length false ∧
      (IMU_run b u ms).duration = (ms.length : α) * 0.004 := by
    intro u hu hud
    have hud2 : u.duration = ((0 : Nat) : α) / 250 := by rw [hud]; simp
    obtain ⟨h1, h2⟩ := IMU_snapshots_quiet b ms u 0 hu hud2 hq
    rw [dwell_trace_eq] at h1
    have e1 : min ms.length (9 - 0) = ms.length := by omega
    have e2 : ms.length - (9 - 0) = 0 := by omega
    rw [e1, e2, List.replicate_zero, List.append_nil] at h1
    refine ⟨h1, ?_⟩
    rw [h2]
    push_cast
    norm_num
    ring
  obtain ⟨k1, k2⟩ := key s hal hd
  refine ⟨⟨k1, NoSnapshot_of_trace b ms s hal k1, k2, ?_⟩, ?_⟩
  · simp only [IMU_RATE_DURATION]
    have h9 : (ms.length : α) ≤ ((9 : Nat) : α) := by exact_mod_cast hlen
    push_cast at h9
    norm_num
    linarith
  · intro t m ht hm
    have hst := IMU_stance_of_gt b m t.duration hm
    have hdu : (IMU_update b m t).duration = 0 := by
      rw [IMU_update_duration b m t ht, hst]
    have hal2 : (IMU_update b m t).IMU_aligned = true := by
      rw [(IMU_update_flags b m t).1, ht]
    refine ⟨hst, hdu, ?_⟩
    simp only [IMU_snapshots, hst, Bool.and_false, List.replicate_succ]
    rw [(key _ hal2 hdu).1]

theorem MPU_sample_quiet {α : Type} [LinearOrderedField α] (b : Build) (x y z : Int) :
    |(GYRO_getYawRate b (MPU_sample x y z 0) : α)| ≤ IMU_RATE_THRESHOLD := by
  simp only [GYRO_getYawRate, MPU_sample, IMU_RATE_THRESHOLD, DEG_TO_RAD]
  norm_num

/-- Witness for C11: nine quiet cycles from the aligned test state, whose timer is zero. -/
theorem IMU_dwell_suppression_witness :
    (IMU_snapshots ⟨0, 16⟩ (IMU_rot345 : IMU ℚ) (List.replicate 9 (MPU_sample 5 0 0 0))
        = List.replicate (List.replicate 9 (MPU_sample 5 0 0 0)).length false ∧
      NoSnapshot ⟨0, 16⟩ (IMU_rot345 : IMU ℚ) (List.replicate 9 (MPU_sample 5 0 0 0)) ∧
      (IMU_run ⟨0, 16⟩ (IMU_rot345 : IMU ℚ) (List.replicate 9 (MPU_sample 5 0 0 0))).duration
        = ((List.replicate 9 (MPU_sample 5 0 0 0)).length : ℚ) * 0.004 ∧
      ((List.replicate 9 (MPU_sample 5 0 0 0)).length : ℚ) * 0.004 < IMU_RATE_DURATION) ∧
    ∀ (t : IMU ℚ) (m : MPU), t.IMU_aligned = true →
      (IMU_RATE_THRESHOLD : ℚ) < |GYRO_getYawRate ⟨0, 16⟩ m| →
      IMU_stance ⟨0, 16⟩ m t.duration = (false, 0) ∧ (IMU_update ⟨0, 16⟩ m t).duration = 0 ∧
      IMU_snapshots ⟨0, 16⟩ t (m :: List.replicate 9 (MPU_sample 5 0 0 0))
        = List.replicate ((List.replicate 9 (MPU_sample 5 0 0 0)).length + 1) false :=
  IMU_dwell_suppression ⟨0, 16⟩ IMU_rot345 (List.replicate 9 (MPU_sample 5 0 0 0)) rfl rfl
    (fun m hm => by
      rw [List.eq_of_mem_replicate hm]
      exact MPU_sample_quiet _ 5 0 0)
    (by simp)

/-- C12 as stated fails: in a run of 11 quiet cycles from a zero stance timer the cycles 10
and 11 both take a snapshot, so the number of snapshots is 2, not 1. -/
theorem IMU_snapshots_eleven :
    IMU_snapshots ⟨0, 16⟩ (IMU_rot345 : IMU ℚ) (List.replicate 11 (MPU_sample 5 0 0 0))
      = [false, false, false, false, false, false, false, false, false, true, true] ∧
    (IMU_snapshots ⟨0, 16⟩ (IMU_rot345 : IMU ℚ)
      (List.replicate 11 (MPU_sample 5 0 0 0))).count true = 2 := by
  have h := (IMU_snapshots_quiet ⟨0, 16⟩ (List.replicate 11 (MPU_sample 5 0 0 0))
    (IMU_rot345 : IMU ℚ) 0 rfl (by simp [IMU_rot345, IMU_init])
    (fun m hm => by
      rw [List.eq_of_mem_replicate hm]
      exact MPU_sample_quiet _ 5 0 0)).1
  rw [h]
  decide

/-- C12 amended: in a run of m ≥ 10 quiet cycles from a zero stance timer, the first nine
cycles take no snapshot, the cycle at the dwell boundary (the tenth) takes the first one, and
every later cycle of the run takes one too: m - 9 snapshots in all. -/
theorem IMU_snapshots_after_dwell {α : Type} [LinearOrderedField α] (b : Build) (s : IMU α)
    (ms : List MPU) (hal : s.IMU_aligned = true) (hd : s.duration = 0)
    (hq : ∀ m ∈ ms, |(GYRO_getYawRate b m : α)| ≤ IMU_RATE_THRESHOLD)
    (hlen : 10 ≤ ms.length) :
    IMU_snapshots b s ms = List.replicate 9 false ++ List.replicate (ms.length - 9) true ∧
    (IMU_snapshots b s ms).count true = ms.length - 9 := by
  have hd2 : s.duration = ((0 : Nat) : α) / 250 := by rw [hd]; simp
  have h1 := (IMU_snapshots_quiet b ms s 0 hal hd2 hq).1
  rw [dwell_trace_eq] at h1
  have e1 : min ms.length (9 - 0) = 9 := by omega
  rw [e1, Nat.sub_zero] at h1
  refine ⟨h1, ?_⟩
  rw [h1, List.count_append, List.count_replicate_self]
  simp

/-- Witness for the amended C12: a run of 11 quiet cycles. -/
theorem IMU_snapshots_after_dwell_witness :
    IMU_snapshots ⟨0, 16⟩ (IMU_rot345 : IMU ℚ) (List.replicate 11 (MPU_sample 5 0 0 0))
      = List.replicate 9 false
        ++ List.replicate ((List.replicate 11 (MPU_sample 5 0 0 0)).length - 9) true ∧
    (IMU_snapshots ⟨0, 16⟩ (IMU_rot345 : IMU ℚ)
      (List.replicate 11 (MPU_sample 5 0 0 0))).count true
      = (List.replicate 11 (MPU_sample 5 0 0 0)).length - 9 :=
  IMU_snapshots_after_dwell ⟨0, 16⟩ IMU_rot345 (List.replicate 11 (MPU_sample 5 0 0 0)) rfl rfl
    (fun m hm => by
      rw [List.eq_of_mem_replicate hm]
      exact MPU_sample_quiet _ 5 0 0)
    (by simp)

/-! ### The drift correction switch -/

theorem IMU_rotate_R {α : Type} [LinearOrderedField α] (s t : IMU α) (dx dy dz : α)
    (h : IMU_R s = IMU_R t) : IMU_R (IMU_rotate s dx dy dz) = IMU_R (IMU_rotate t dx dy dz) := by
  simp only [IMU_R, List.cons.injEq, and_true] at h
  obtain ⟨h1, h2, h3, h4, h5, h6, h7, h8, h9⟩ := h
  simp only [IMU_R, IMU_rotate, h1, h2, h3, h4, h5, h6, h7, h8, h9]

theorem IMU_afterSnapshot_R {α : Type} [LinearOrderedField α] (b : Build) (m : MPU)
    (s : IMU α) : IMU_R (IMU_afterSnapshot b m s) = IMU_R s ∧
      (IMU_afterSnapshot b m s).IMU_apply_dc = s.IMU_apply_dc := by
  simp only [IMU_afterSnapshot, IMU_snapshot]
  split <;> exact ⟨rfl, rfl⟩

theorem IMU_update_R_dc_off {α : Type} [LinearOrderedField α] (b : Build) (m : MPU)
    (s : IMU α) (hal : s.IMU_aligned = true) (hdc : s.IMU_apply_dc = false) :
    IMU_R (IMU_update b m s) =
      IMU_R (IMU_rotate s (GYRO_getRotations b m : α × α × α).1
        (GYRO_getRotations b m : α × α × α).2.1 (GYRO_getRotations b m : α × α × α).2.2) := by
  rw [IMU_update_aligned b m s hal]
  obtain ⟨hR, hD⟩ := IMU_afterSnapshot_R b m s
  simp only [IMU_correct, hD, hdc, Bool.not_false, if_true, add_zero]
  apply IMU_rotate_R
  rw [← hR]
  rfl

/-- C13: with IMU_apply_dc off the three correction terms are zero: the matrix after an
aligned IMU_update is the one IMU_rotate produces from the gyro increments alone, and it
is the same whatever the pending errors and the reference angles of the state are. -/
theorem IMU_update_dc_off {α : Type} [LinearOrderedField α] (b : Build) (m : MPU)
    (s : IMU α) (hal : s.IMU_aligned = true) (hdc : s.IMU_apply_dc = false) :
    IMU_R (IMU_update b m s) =
      IMU_R (IMU_rotate s (GYRO_getRotations b m : α × α × α).1
        (GYRO_getRotations b m : α × α × α).2.1 (GYRO_getRotations b m : α × α × α).2.2) ∧
    ∀ e1 e2 e3 r1 r2 : α,
      IMU_R (IMU_update b m
        { s with IMU_rollError := e1, IMU_pitchError := e2, IMU_yawError := e3,
                 IMU_rollReference := r1, IMU_pitchReference := r2 })
        = IMU_R (IMU_update b m s) := by
  refine ⟨IMU_update_R_dc_off b m s hal hdc, ?_⟩
  intro e1 e2 e3 r1 r2
  rw [IMU_update_R_dc_off b m s hal hdc,
    IMU_update_R_dc_off b m
      { s with IMU_rollError := e1, IMU_pitchError := e2, IMU_yawError := e3,
               IMU_rollReference := r1, IMU_pitchReference := r2 } hal hdc]
  apply IMU_rotate_R
  rfl

/-- Witness for C13: the dwelt state with correction switched off. -/
theorem IMU_update_dc_off_witness :
    IMU_R (IMU_update ⟨0, 16⟩ (MPU_sample 3 (-2) 1 0)
        { (IMU_dwelt : IMU ℚ) with IMU_apply_dc := false }) =
      IMU_R (IMU_rotate { (IMU_dwelt : IMU ℚ) with IMU_apply_dc := false }
        (GYRO_getRotations ⟨0, 16⟩ (MPU_sample 3 (-2) 1 0) : ℚ × ℚ × ℚ).1
        (GYRO_getRotations ⟨0, 16⟩ (MPU_sample 3 (-2) 1 0) : ℚ × ℚ × ℚ).2.1
        (GYRO_getRotations ⟨0, 16⟩ (MPU_sample 3 (-2) 1 0) : ℚ × ℚ × ℚ).2.2) ∧
    ∀ e1 e2 e3 r1 r2 : ℚ,
      IMU_R (IMU_update ⟨0, 16⟩ (MPU_sample 3 (-2) 1 0)
        { ({ (IMU_dwelt : IMU ℚ) with IMU_apply_dc := false } : IMU ℚ) with
          IMU_rollError := e1, IMU_pitchError := e2, IMU_yawError := e3,
          IMU_rollReference := r1, IMU_pitchReference := r2 })
        = IMU_R (IMU_update ⟨0, 16⟩ (MPU_sample 3 (-2) 1 0)
            { (IMU_dwelt : IMU ℚ) with IMU_apply_dc := false }) :=
  IMU_update_dc_off ⟨0, 16⟩ (MPU_sample 3 (-2) 1 0)
    { (IMU_dwelt : IMU ℚ) with IMU_apply_dc := false } rfl rfl

theorem IMU_update_errors_no_snapshot {α : Type} [LinearOrderedField α] (b : Build) (m : MPU)
    (s : IMU α) (hal : s.IMU_aligned = true)
    (hno : (IMU_stance b m s.duration).1 = false) :
    IMU_errors (IMU_update b m s) = (IMU_errors s).map (fun e => (1 - 1 / 125) * e) := by
  rw [IMU_update_aligned b m s hal]
  simp only [IMU_errors, IMU_correct, List.map_cons, List.map_nil]
  rw [(IMU_rotate_frame _ _ _ _).1, (IMU_rotate_frame _ _ _ _).2.1,
    (IMU_rotate_frame _ _ _ _).2.2.1]
  simp only [IMU_afterSnapshot, IMU_snapshot, hno, IMU_K_eq, Bool.false_eq_true, if_false]
  congr 1
  · ring
  · congr 1
    · ring
    · congr 1
      ring

theorem MPU_sample_turning {α : Type} [LinearOrderedField α] (x y z : Int) :
    (IMU_RATE_THRESHOLD : α) < |GYRO_getYawRate ⟨0, 16⟩ (MPU_sample x y z 1000)| := by
  simp only [GYRO_getYawRate, MPU_sample, MPU_GYRO_SCALE_FACTOR, DEG_TO_RAD,
    IMU_RATE_THRESHOLD]
  rw [abs_of_pos (by norm_num)]
  norm_num

/-- C14 as stated fails: with IMU_apply_dc off and no snapshot on the cycle (the yaw rate is
above the threshold), a pending roll error of 1/10 becomes 62/625 after one IMU_update. -/
theorem IMU_update_dc_off_error_changes :
    ({ (IMU_dwelt : IMU ℚ) with IMU_apply_dc := false }).IMU_rollError = 1 / 10 ∧
    (IMU_stance ⟨0, 16⟩ (MPU_sample 0 0 0 1000)
      ({ (IMU_dwelt : IMU ℚ) with IMU_apply_dc := false }).duration).1 = false ∧
    (IMU_update ⟨0, 16⟩ (MPU_sample 0 0 0 1000)
      { (IMU_dwelt : IMU ℚ) with IMU_apply_dc := false }).IMU_rollError = 62 / 625 ∧
    IMU_errors (IMU_update ⟨0, 16⟩ (MPU_sample 0 0 0 1000)
      { (IMU_dwelt : IMU ℚ) with IMU_apply_dc := false })
      ≠ IMU_errors { (IMU_dwelt : IMU ℚ) with IMU_apply_dc := false } := by
  have hst : (IMU_stance ⟨0, 16⟩ (MPU_sample 0 0 0 1000)
      ({ (IMU_dwelt : IMU ℚ) with IMU_apply_dc := false }).duration).1 = false := by
    rw [IMU_stance_of_gt _ _ _ (MPU_sample_turning 0 0 0)]
  have he := IMU_update_errors_no_snapshot ⟨0, 16⟩ (MPU_sample 0 0 0 1000)
    { (IMU_dwelt : IMU ℚ) with IMU_apply_dc := false } rfl hst
  have hr : (IMU_update ⟨0, 16⟩ (MPU_sample 0 0 0 1000)
      { (IMU_dwelt : IMU ℚ) with IMU_apply_dc := false }).IMU_rollError = 62 / 625 := by
    have := congrArg List.head? he
    simp only [IMU_errors, List.map_cons, List.head?_cons, Option.some.injEq] at this
    rw [this]
    simp only [IMU_dwelt]
    norm_num
  refine ⟨by simp [IMU_dwelt], hst, hr, ?_⟩
  intro h
  have := congrArg List.head? h
  simp only [IMU_errors, List.head?_cons, Option.some.injEq] at this
  rw [hr] at this
  simp only [IMU_dwelt] at this
  norm_num at this

/-- C14 amended: with IMU_apply_dc off, on an aligned cycle where no snapshot is taken, the
pending errors are not reset to zero, but each is multiplied by 1 - K = 124/125, exactly as
with correction enabled. -/
theorem IMU_update_dc_off_errors {α : Type} [LinearOrderedField α] (b : Build) (m : MPU)
    (s : IMU α) (hal : s.IMU_aligned = true) (hdc : s.IMU_apply_dc = false)
    (hno : (IMU_stance b m s.duration).1 = false) :
    (IMU_update b m s).IMU_rollError = (1 - 1 / 125) * s.IMU_rollError ∧
    (IMU_update b m s).IMU_pitchError = (1 - 1 / 125) * s.IMU_pitchError ∧
    (IMU_update b m s).IMU_yawError = (1 - 1 / 125) * s.IMU_yawError ∧
    (IMU_update b m s).IMU_apply_dc = false := by
  have he := IMU_update_errors_no_snapshot b m s hal hno
  simp only [IMU_errors, List.map_cons, List.map_nil, List.cons.injEq, and_true] at he
  exact ⟨he.1, he.2.1, he.2.2, by rw [(IMU_update_flags b m s).2, hdc]⟩

/-- Witness for the amended C14: the dwelt state with correction switched off, on a turning
cycle. -/
theorem IMU_update_dc_off_errors_witness :
    (IMU_update ⟨0, 16⟩ (MPU_sample 0 0 0 1000)
      { (IMU_dwelt : IMU ℚ) with IMU_apply_dc := false }).IMU_rollError
      = (1 - 1 / 125) * ({ (IMU_dwelt : IMU ℚ) with IMU_apply_dc := false }).IMU_rollError ∧
    (IMU_update ⟨0, 16⟩ (MPU_sample 0 0 0 1000)
      { (IMU_dwelt : IMU ℚ) with IMU_apply_dc := false }).IMU_pitchError
      = (1 - 1 / 125) * ({ (IMU_dwelt : IMU ℚ) with IMU_apply_dc := false }).IMU_pitchError ∧
    (IMU_update ⟨0, 16⟩ (MPU_sample 0 0 0 1000)
      { (IMU_dwelt : IMU ℚ) with IMU_apply_dc := false }).IMU_yawError
      = (1 - 1 / 125) * ({ (IMU_dwelt : IMU ℚ) with IMU_apply_dc := false }).IMU_yawError ∧
    (IMU_update ⟨0, 16⟩ (MPU_sample 0 0 0 1000)
      { (IMU_dwelt : IMU ℚ) with IMU_apply_dc := false }).IMU_apply_dc = false :=
  IMU_update_dc_off_errors ⟨0, 16⟩ (MPU_sample 0 0 0 1000)
    { (IMU_dwelt : IMU ℚ) with IMU_apply_dc := false } rfl rfl
    (by rw [IMU_stance_of_gt _ _ _ (MPU_sample_turning 0 0 0)])

/-! ### Calibration -/

theorem wrap16_of_range (v : Int) (h1 : -32768 ≤ v) (h2 : v ≤ 32767) : wrap16 v = v := by
  unfold wrap16
  omega

theorem wrap32_of_range (v : Int) (h1 : -2147483648 ≤ v) (h2 : v ≤ 2147483647) :
    wrap32 v = v := by
  unfold wrap32
  omega

theorem sum_step_fits (k x : Int) (hk0 : 0 ≤ k) (hk : k + 1 ≤ 32767)
    (hx1 : -32768 ≤ x) (hx2 : x ≤ 32767) : wrap32 (k * x + x) = (k + 1) * x := by
  have e : k * x + x = (k + 1) * x := by ring
  rw [e]
  apply wrap32_of_range
  · nlinarith
  · nlinarith

theorem MPU_window_cnt (window : List ((Int × Int × Int) × (Int × Int × Int))) :
    ∀ (mpu : MPU) (k : Int), mpu.MPU_calibrating = true → mpu.MPU_cnt = k → 0 ≤ k →
      k + window.length ≤ 32767 →
      (MPU_window mpu window).MPU_cnt = k + window.length ∧
      (MPU_window mpu window).MPU_calibrating = true := by
  induction window with
  | nil => intro mpu k hc hk _ _; simp [MPU_window, hc, hk]
  | cons w ws ih =>
    intro mpu k hc hk hk0 hlen
    simp only [List.length_cons, Nat.cast_add, Nat.cast_one] at hlen
    have h := ih (MPU_update mpu w.1 w.2) (k + 1)
      (by simp [MPU_update, hc])
      (by simp only [MPU_update, hc, if_true, hk]; exact wrap16_of_range _ (by omega) (by omega))
      (by omega) (by omega)
    simp only [MPU_window, List.foldl_cons, List.length_cons, Nat.cast_add, Nat.cast_one]
      at h ⊢
    constructor
    · rw [h.1]; ring
    · exact h.2

theorem MPU_window_acco (window : List ((Int × Int × Int) × (Int × Int × Int)))
    (x y z : Int) (hx1 : -32768 ≤ x) (hx2 : x ≤ 32767) (hy1 : -32768 ≤ y) (hy2 : y ≤ 32767)
    (hz1 : -32768 ≤ z) (hz2 : z ≤ 32767) :
    ∀ (mpu : MPU) (k : Int), mpu.MPU_calibrating = true → 0 ≤ k →
      k + window.length ≤ 32767 → (∀ w ∈ window, w.2 = (x, y, z)) →
      mpu.ACCO_x_sum = k * x → mpu.ACCO_y_sum = k * y → mpu.ACCO_z_sum = k * z →
      (MPU_window mpu window).ACCO_x_sum = (k + window.length) * x ∧
      (MPU_window mpu window).ACCO_y_sum = (k + window.length) * y ∧
      (MPU_window mpu window).ACCO_z_sum = (k + window.length) * z := by
  induction window with
  | nil => intro mpu k _ _ _ _ h1 h2 h3; simp [MPU_window, h1, h2, h3]
  | cons w ws ih =>
    intro mpu k hc hk0 hlen hs h1 h2 h3
    simp only [List.length_cons, Nat.cast_add, Nat.cast_one] at hlen
    have hw := hs w (List.mem_cons_self w ws)
    have h := ih (MPU_update mpu w.1 w.2) (k + 1)
      (by simp [MPU_update, hc]) (by omega) (by omega)
      (fun e he => hs e (List.mem_cons_of_mem w he))
      (by simp only [MPU_update, hc, if_true, h1, hw]
          exact sum_step_fits k x hk0 (by omega) hx1 hx2)
      (by simp only [MPU_update, hc, if_true, h2, hw]
          exact sum_step_fits k y hk0 (by omega) hy1 hy2)
      (by simp only [MPU_update, hc, if_true, h3, hw]
          exact sum_step_fits k z hk0 (by omega) hz1 hz2)
    simp only [MPU_window, List.foldl_cons, List.length_cons, Nat.cast_add, Nat.cast_one]
      at h ⊢
    have e : k + ((ws.length : Int) + 1) = k + 1 + ws.length := by ring
    rw [e]
    exact h

theorem MPU_window_gyro (window : List ((Int × Int × Int) × (Int × Int × Int)))
    (x y z : Int) (hx1 : -32768 ≤ x) (hx2 : x ≤ 32767) (hy1 : -32768 ≤ y) (hy2 : y ≤ 32767)
    (hz1 : -32768 ≤ z) (hz2 : z ≤ 32767) :
    ∀ (mpu : MPU) (k : Int), mpu.MPU_calibrating = true → 0 ≤ k →
      k + window.length ≤ 32767 → (∀ w ∈ window, w.1 = (x, y, z)) →
      mpu.GYRO_x_sum = k * x → mpu.GYRO_y_sum = k * y → mpu.GYRO_z_sum = k * z →
      (MPU_window mpu window).GYRO_x_sum = (k + window.length) * x ∧
      (MPU_window mpu window).GYRO_y_sum = (k + window.length) * y ∧
      (MPU_window mpu window).GYRO_z_sum = (k + window.length) * z := by
  induction window with
  | nil => intro mpu k _ _ _ _ h1 h2 h3; simp [MPU_window, h1, h2, h3]
  | cons w ws ih =>
    intro mpu k hc hk0 hlen hs h1 h2 h3
    simp only [List.length_cons, Nat.cast_add, Nat.cast_one] at hlen
    have hw := hs w (List.mem_cons_self w ws)
    have h := ih (MPU_update mpu w.1 w.2) (k + 1)
      (by simp [MPU_update, hc]) (by omega) (by omega)
      (fun e he => hs e (List.mem_cons_of_mem w he))
      (by simp only [MPU_update, hc, if_true, h1, hw]
          exact sum_step_fits k x hk0 (by omega) hx1 hx2)
      (by simp only [MPU_update, hc, if_true, h2, hw]
          exact sum_step_fits k y hk0 (by omega) hy1 hy2)
      (by simp only [MPU_update, hc, if_true, h3, hw]
          exact sum_step_fits k z hk0 (by omega) hz1 hz2)
    simp only [MPU_window, List.foldl_cons, List.length_cons, Nat.cast_add, Nat.cast_one]
      at h ⊢
    have e : k + ((ws.length : Int) + 1) = k + 1 + ws.length := by ring
    rw [e]
    exact h

theorem ACCO_calibrate_cnt (b : Build) (mpu : MPU)
    (window : List ((Int × Int × Int) × (Int × Int × Int))) (hlen : window.length ≤ 32767) :
    (MPU_window { mpu with ACCO_x_sum := 0, ACCO_y_sum := 0, ACCO_z_sum := 0, MPU_cnt := 0,
                           MPU_calibrating := true } window).MPU_cnt = window.length ∧
    (ACCO_calibrate b mpu window = none ↔ window.length = 0) := by
  have h := (MPU_window_cnt window
    { mpu with ACCO_x_sum := 0, ACCO_y_sum := 0, ACCO_z_sum := 0, MPU_cnt := 0,
               MPU_calibrating := true } 0 rfl rfl (le_refl 0) (by omega)).1
  rw [zero_add] at h
  refine ⟨h, ?_⟩
  simp only [ACCO_calibrate, h]
  constructor
  · intro hn
    by_contra hne
    rw [if_neg (by exact_mod_cast hne)] at hn
    exact Option.noConfusion hn
  · intro h0
    rw [if_pos (by exact_mod_cast h0)]

theorem GYRO_calibrate_cnt (mpu : MPU)
    (window : List ((Int × Int × Int) × (Int × Int × Int))) (hlen : window.length ≤ 32767) :
    (MPU_window { mpu with GYRO_x_sum := 0, GYRO_y_sum := 0, GYRO_z_sum := 0, MPU_cnt := 0,
                           MPU_calibrating := true } window).MPU_cnt = window.length ∧
    (GYRO_calibrate mpu window = none ↔ window.length = 0) := by
  have h := (MPU_window_cnt window
    { mpu with GYRO_x_sum := 0, GYRO_y_sum := 0, GYRO_z_sum := 0, MPU_cnt := 0,
               MPU_calibrating := true } 0 rfl rfl (le_refl 0) (by omega)).1
  rw [zero_add] at h
  refine ⟨h, ?_⟩
  simp only [GYRO_calibrate, h]
  constructor
  · intro hn
    by_contra hne
    rw [if_neg (by exact_mod_cast hne)] at hn
    exact Option.noConfusion hn
  · intro h0
    rw [if_pos (by exact_mod_cast h0)]

/-- C15 as stated fails: one dispatch reading the accelerometer sample (0, 0, -20000) on the
Invensense build (MPU_ONE_GEE = 16384) leaves the z bias 29152, not -20000 - 16384 = -36384,
which a 16 bit bias cannot hold. -/
theorem ACCO_calibrate_z_wraps :
    (ACCO_calibrate ⟨0, 16⟩ (MPU_sample 0 0 0 0) [((0, 0, 0), (0, 0, -20000))]).map
      (fun m => (m.ACCO_x_bias, m.ACCO_y_bias, m.ACCO_z_bias)) = some (0, 0, 29152) ∧
    (29152 : Int) ≠ -20000 - MPU_ONE_GEE ⟨0, 16⟩ := by
  constructor
  · rfl
  · decide

/-- C15 amended: if the N dispatches of the calibration window (1 ≤ N ≤ 32767) all read the
same accelerometer sample (x, y, z), a signed 16 bit triple, and z - MPU_ONE_GEE is at least
-32768, ACCO_calibrate leaves the biases (x, y, z - MPU_ONE_GEE); if they all read the same
gyro sample (gx, gy, gz), GYRO_calibrate leaves the biases (gx, gy, gz). -/
theorem calibrate_identical (b : Build) (mpu : MPU)
    (window : List ((Int × Int × Int) × (Int × Int × Int))) (gx gy gz x y z : Int)
    (hN1 : 1 ≤ window.length) (hN2 : window.length ≤ 32767)
    (hgx : -32768 ≤ gx ∧ gx ≤ 32767) (hgy : -32768 ≤ gy ∧ gy ≤ 32767)
    (hgz : -32768 ≤ gz ∧ gz ≤ 32767)
    (hx : -32768 ≤ x ∧ x ≤ 32767) (hy : -32768 ≤ y ∧ y ≤ 32767) (hz : -32768 ≤ z ∧ z ≤ 32767)
    (hsame : ∀ w ∈ window, w = ((gx, gy, gz), (x, y, z)))
    (hfit : -32768 ≤ z - MPU_ONE_GEE b) :
    (∃ m : MPU, ACCO_calibrate b mpu window = some m ∧
      m.ACCO_x_bias = x ∧ m.ACCO_y_bias = y ∧ m.ACCO_z_bias = z - MPU_ONE_GEE b) ∧
    (∃ m : MPU, GYRO_calibrate mpu window = some m ∧
      m.GYRO_x_bias = gx ∧ m.GYRO_y_bias = gy ∧ m.GYRO_z_bias = gz) := by
  have hN : ((window.length : Nat) : Int) ≠ 0 := by
    have : (1 : Int) ≤ window.length := by exact_mod_cast hN1
    omega
  have hge : 0 ≤ MPU_ONE_GEE b := by
    unfold MPU_ONE_GEE
    split <;> norm_num
  constructor
  · have hc := (ACCO_calibrate_cnt b mpu window hN2).1
    obtain ⟨s1, s2, s3⟩ := MPU_window_acco window x y z hx.1 hx.2 hy.1 hy.2 hz.1 hz.2
      { mpu with ACCO_x_sum := 0, ACCO_y_sum := 0, ACCO_z_sum := 0, MPU_cnt := 0,
                 MPU_calibrating := true } 0 rfl (le_refl 0) (by omega)
      (fun w hw => by rw [hsame w hw]) (by simp) (by simp) (by simp)
    rw [zero_add] at s1 s2 s3
    simp only [ACCO_calibrate, hc, s1, s2, s3, if_neg hN, Int.mul_tdiv_cancel_left _ hN]
    refine ⟨_, rfl, ?_, ?_, ?_⟩
    · exact wrap16_of_range x hx.1 hx.2
    · exact wrap16_of_range y hy.1 hy.2
    · show wrap16 (wrap16 z - MPU_ONE_GEE b) = z - MPU_ONE_GEE b
      rw [wrap16_of_range z hz.1 hz.2]
      exact wrap16_of_range _ hfit (by omega)
  · have hc := (GYRO_calibrate_cnt mpu window hN2).1
    obtain ⟨s1, s2, s3⟩ := MPU_window_gyro window gx gy gz hgx.1 hgx.2 hgy.1 hgy.2 hgz.1 hgz.2
      { mpu with GYRO_x_sum := 0, GYRO_y_sum := 0, GYRO_z_sum := 0, MPU_cnt := 0,
                 MPU_calibrating := true } 0 rfl (le_refl 0) (by omega)
      (fun w hw => by rw [hsame w hw]) (by simp) (by simp) (by simp)
    rw [zero_add] at s1 s2 s3
    simp only [GYRO_calibrate, hc, s1, s2, s3, if_neg hN, Int.mul_tdiv_cancel_left _ hN]
    refine ⟨_, rfl, ?_, ?_, ?_⟩
    · exact wrap16_of_range gx hgx.1 hgx.2
    · exact wrap16_of_range gy hgy.1 hgy.2
    · exact wrap16_of_range gz hgz.1 hgz.2

/-- Witness for the amended C15: three dispatches reading the accelerometer sample
(7, 7, 16384 + 7), the reference offset by 7 on every axis, and the gyro sample (-3, 4, 5),
on the Invensense build; the accelerometer biases are (7, 7, 7). -/
theorem calibrate_identical_witness :
    (∃ m : MPU, ACCO_calibrate ⟨0, 16⟩ (MPU_sample 0 0 0 0)
        (List.replicate 3 ((-3, 4, 5), (7, 7, 16391))) = some m ∧
      m.ACCO_x_bias = 7 ∧ m.ACCO_y_bias = 7 ∧ m.ACCO_z_bias = 16391 - MPU_ONE_GEE ⟨0, 16⟩) ∧
    (∃ m : MPU, GYRO_calibrate (MPU_sample 0 0 0 0)
        (List.replicate 3 ((-3, 4, 5), (7, 7, 16391))) = some m ∧
      m.GYRO_x_bias = -3 ∧ m.GYRO_y_bias = 4 ∧ m.GYRO_z_bias = 5) :=
  calibrate_identical ⟨0, 16⟩ (MPU_sample 0 0 0 0) (List.replicate 3 ((-3, 4, 5), (7, 7, 16391)))
    (-3) 4 5 7 7 16391 (by simp) (by simp) (by decide) (by decide) (by decide) (by decide)
    (by decide) (by decide) (fun w hw => List.eq_of_mem_replicate hw) (by decide)

/-! ### The timer interrupt -/

theorem ISR_step {α : Type} [LinearOrderedField α] (b : Build)
    (hclk : b.HAVE_CLOCK = 8 ∨ b.HAVE_CLOCK = 16) (t : Tick) (sys : TICKER α) :
    (TICKER_HZ b / IMU_HZ = 2 ∨ TICKER_HZ b / IMU_HZ = 4) ∧
    ISR b t sys =
      if ((sys.n + 1) % 256) % (TICKER_HZ b / IMU_HZ) ≠ 0 then
        { sys with ISR_Ticks := (sys.ISR_Ticks + 1) % 4294967296, n := (sys.n + 1) % 256 }
      else
        ISR_dispatch b t
          { sys with ISR_Ticks := (sys.ISR_Ticks + 1) % 4294967296, n := (sys.n + 1) % 256 } := by
  have h3 : ∀ k : Nat, k &&& 3 = k % 4 := fun k => Nat.and_pow_two_sub_one_eq_mod k 2
  have h1 : ∀ k : Nat, k &&& 1 = k % 2 := fun k => Nat.and_pow_two_sub_one_eq_mod k 1
  rcases hclk with h | h
  · refine ⟨Or.inl (by simp [TICKER_HZ, IMU_HZ, h]), ?_⟩
    simp [ISR, TICKER_HZ, IMU_HZ, h, h1]
  · refine ⟨Or.inr (by simp [TICKER_HZ, IMU_HZ, h]), ?_⟩
    simp [ISR, TICKER_HZ, IMU_HZ, h, h3]

theorem ISR_dispatches_frame {α : Type} [LinearOrderedField α] (b : Build) (ts : List Tick) :
    ∀ (sys : TICKER α) (a k : Nat),
      ISR_dispatches b { sys with ISR_Ticks := a, n := k } ts
        = { ISR_dispatches b sys ts with ISR_Ticks := a, n := k } := by
  induction ts with
  | nil => intro sys a k; rfl
  | cons t ts ih =>
    intro sys a k
    simp only [ISR_dispatches, List.foldl_cons] at ih ⊢
    have : ISR_dispatch b t { sys with ISR_Ticks := a, n := k }
        = { ISR_dispatch b t sys with ISR_Ticks := a, n := k } := rfl
    rw [this, ih]

theorem ISR_run_general {α : Type} [LinearOrderedField α] (b : Build)
    (hclk : b.HAVE_CLOCK = 8 ∨ b.HAVE_CLOCK = 16) (ts : List Tick) :
    ∀ (sys : TICKER α) (c : Nat), sys.n = c % 256 → sys.ISR_Ticks = c % 4294967296 →
      ISR_run b sys ts =
        { ISR_dispatches b sys (everyNth (TICKER_HZ b / IMU_HZ) c ts) with
          ISR_Ticks := (c + ts.length) % 4294967296, n := (c + ts.length) % 256 } := by
  induction ts with
  | nil =>
    intro sys c hn ht
    simp only [ISR_run, ISR_dispatches, everyNth, List.foldl_nil, List.length_nil, add_zero,
      ← hn, ← ht]
  | cons t ts ih =>
    intro sys c hn ht
    obtain ⟨hN, hstep⟩ := ISR_step b hclk t sys
    have hmod : ((sys.n + 1) % 256) % (TICKER_HZ b / IMU_HZ)
        = (c + 1) % (TICKER_HZ b / IMU_HZ) := by
      rw [hn]
      rcases hN with h | h <;> rw [h] <;> omega
    have hn2 : (sys.n + 1) % 256 = (c + 1) % 256 := by rw [hn]; omega
    have ht2 : (sys.ISR_Ticks + 1) % 4294967296 = (c + 1) % 4294967296 := by rw [ht]; omega
    rw [hmod, hn2, ht2] at hstep
    have hlen : c + (t :: ts).length = c + 1 + ts.length := by
      simp only [List.length_cons]; omega
    rw [hlen]
    simp only [ISR_run, List.foldl_cons] at ih ⊢
    by_cases hd : (c + 1) % (TICKER_HZ b / IMU_HZ) = 0
    · rw [if_neg (not_not.mpr hd)] at hstep
      rw [hstep, ih _ (c + 1) rfl rfl]
      simp only [everyNth, hd, if_true, ISR_dispatches, List.foldl_cons]
      have := ISR_dispatches_frame b (everyNth (TICKER_HZ b / IMU_HZ) (c + 1) ts)
        (ISR_dispatch b t sys) ((c + 1) % 4294967296) ((c + 1) % 256)
      simp only [ISR_dispatches] at this
      have e : ISR_dispatch b t
          { sys with ISR_Ticks := (c + 1) % 4294967296, n := (c + 1) % 256 }
          = { ISR_dispatch b t sys with ISR_Ticks := (c + 1) % 4294967296,
                                        n := (c + 1) % 256 } := rfl
      rw [e, this]
    · rw [if_pos hd] at hstep
      rw [hstep, ih _ (c + 1) rfl rfl]
      simp only [everyNth, hd, if_false]
      rw [ISR_dispatches_frame]

theorem everyNth_length {β : Type} (N : Nat) (l : List β) :
    ∀ c : Nat, (everyNth N c l).length = (c + l.length) / N - c / N := by
  induction l with
  | nil => intro c; simp [everyNth]
  | cons x xs ih =>
    intro c
    have hsd := Nat.succ_div c N
    by_cases hd : (c + 1) % N = 0
    · have hdvd : N ∣ c + 1 := Nat.dvd_of_mod_eq_zero hd
      simp only [everyNth, hd, if_true, List.length_cons, ih (c + 1)]
      rw [if_pos hdvd] at hsd
      have e : c + (xs.length + 1) = c + 1 + xs.length := by omega
      have hmono : (c + 1) / N ≤ (c + 1 + xs.length) / N :=
        Nat.div_le_div_right (by omega)
      rw [e]
      omega
    · have hdvd : ¬ N ∣ c + 1 := fun h => hd (Nat.mod_eq_zero_of_dvd h)
      simp only [everyNth, hd, if_false, List.length_cons, ih (c + 1)]
      rw [if_neg hdvd] at hsd
      have e : c + (xs.length + 1) = c + 1 + xs.length := by omega
      rw [e]
      omega

/-- C18: rate-divided dispatch.  With the clock at 8 or 16 MHz, N = TICKER_HZ / IMU_HZ is 2
or 4; after k timer interrupts from reset (tick counter and divider counter zero) the tick
counter is k mod 2^32, the 8 bit divider counter is k mod 256, and the rest of the state is
the one produced by running the fusion dispatch on the interrupts N, 2N, 3N, ... alone,
which are k / N in number. -/
theorem ISR_rate_divided {α : Type} [LinearOrderedField α] (b : Build)
    (hclk : b.HAVE_CLOCK = 8 ∨ b.HAVE_CLOCK = 16) (sys : TICKER α) (ts : List Tick)
    (hn : sys.n = 0) (ht : sys.ISR_Ticks = 0) :
    ((b.HAVE_CLOCK = 8 → TICKER_HZ b = 500 ∧ TICKER_HZ b / IMU_HZ = 2) ∧
     (b.HAVE_CLOCK = 16 → TICKER_HZ b = 1000 ∧ TICKER_HZ b / IMU_HZ = 4)) ∧
    ISR_run b sys ts =
      { ISR_dispatches b sys (everyNth (TICKER_HZ b / IMU_HZ) 0 ts) with
        ISR_Ticks := ts.length % 4294967296, n := ts.length % 256 } ∧
    (everyNth (TICKER_HZ b / IMU_HZ) 0 ts).length = ts.length / (TICKER_HZ b / IMU_HZ) := by
  refine ⟨⟨?_, ?_⟩, ?_, ?_⟩
  · intro h; simp [TICKER_HZ, IMU_HZ, h]
  · intro h; simp [TICKER_HZ, IMU_HZ, h]
  · have := ISR_run_general b hclk ts sys 0 (by rw [hn]) (by rw [ht])
    simpa using this
  · rw [everyNth_length _ ts 0]
    simp

/-- Witness for C18: five interrupts from reset on the 16 MHz build (N = 4). -/
theorem ISR_rate_divided_witness :
    (((⟨0, 16⟩ : Build).HAVE_CLOCK = 8 →
        TICKER_HZ ⟨0, 16⟩ = 500 ∧ TICKER_HZ ⟨0, 16⟩ / IMU_HZ = 2) ∧
     ((⟨0, 16⟩ : Build).HAVE_CLOCK = 16 →
        TICKER_HZ ⟨0, 16⟩ = 1000 ∧ TICKER_HZ ⟨0, 16⟩ / IMU_HZ = 4)) ∧
    ISR_run ⟨0, 16⟩ (⟨0, 0, 0, MPU_sample 0 0 0 0, IMU_rot345⟩ : TICKER ℚ)
        (List.replicate 5 ⟨(1, 2, 3), (4, 5, 6), 0, 9⟩) =
      { ISR_dispatches ⟨0, 16⟩ (⟨0, 0, 0, MPU_sample 0 0 0 0, IMU_rot345⟩ : TICKER ℚ)
          (everyNth (TICKER_HZ ⟨0, 16⟩ / IMU_HZ) 0
            (List.replicate 5 ⟨(1, 2, 3), (4, 5, 6), 0, 9⟩)) with
        ISR_Ticks := (List.replicate 5 (⟨(1, 2, 3), (4, 5, 6), 0, 9⟩ : Tick)).length
          % 4294967296,
        n := (List.replicate 5 (⟨(1, 2, 3), (4, 5, 6), 0, 9⟩ : Tick)).length % 256 } ∧
    (everyNth (TICKER_HZ ⟨0, 16⟩ / IMU_HZ) 0
        (List.replicate 5 (⟨(1, 2, 3), (4, 5, 6), 0, 9⟩ : Tick))).length
      = (List.replicate 5 (⟨(1, 2, 3), (4, 5, 6), 0, 9⟩ : Tick)).length
        / (TICKER_HZ ⟨0, 16⟩ / IMU_HZ) :=
  ISR_rate_divided ⟨0, 16⟩ (Or.inr rfl) ⟨0, 0, 0, MPU_sample 0 0 0 0, IMU_rot345⟩
    (List.replicate 5 ⟨(1, 2, 3), (4, 5, 6), 0, 9⟩) rfl rfl

theorem IMU_update_congr {α : Type} [LinearOrderedField α] (b : Build) (m1 m2 : MPU)
    (s : IMU α) (hx : m1.GYRO_x_urate = m2.GYRO_x_urate) (hy : m1.GYRO_y_urate = m2.GYRO_y_urate)
    (hz : m1.GYRO_z_urate = m2.GYRO_z_urate) (hs : m1.GYRO_z_srate = m2.GYRO_z_srate) :
    IMU_update b m1 s = IMU_update b m2 s := by
  simp only [IMU_update, GYRO_getRotations, IMU_stance, GYRO_getYawRate, hx, hy, hz, hs]

/-- C17 as stated fails: with the calibrating flag set and the integrator aligned on the
identity matrix, a dispatch still integrates the roll rate left in GYRO_x_urate (100 digits):
the entry Rzy, 0 before the dispatch, is not 0 after it. -/
theorem ISR_dispatch_calibrating_rotates :
    ({ MPU_sample 100 0 0 0 with MPU_calibrating := true }).MPU_calibrating = true ∧
    (IMU_align realLibm IMU_init 0 0 0).IMU_aligned = true ∧
    (IMU_align realLibm IMU_init 0 0 0).Rzy = 0 ∧
    (ISR_dispatch ⟨0, 16⟩ ⟨(1, 2, 3), (4, 5, 16384), 0, 9⟩
      (⟨0, 0, 0, { MPU_sample 100 0 0 0 with MPU_calibrating := true },
        IMU_align realLibm IMU_init 0 0 0⟩ : TICKER ℝ)).imu.Rzy ≠ 0 := by
  refine ⟨rfl, rfl, by simp [IMU_align, IMU_set, realLibm], ?_⟩
  have hal : (IMU_align realLibm IMU_init 0 0 0).IMU_aligned = true := rfl
  have hupd : (ISR_dispatch ⟨0, 16⟩ ⟨(1, 2, 3), (4, 5, 16384), 0, 9⟩
      (⟨0, 0, 0, { MPU_sample 100 0 0 0 with MPU_calibrating := true },
        IMU_align realLibm IMU_init 0 0 0⟩ : TICKER ℝ)).imu
      = IMU_update ⟨0, 16⟩ (MPU_sample 100 0 0 0) (IMU_align realLibm IMU_init 0 0 0) := by
    simp only [ISR_dispatch]
    exact IMU_update_congr _ _ _ _ rfl rfl rfl rfl
  rw [hupd]
  have hR : IMU_R (IMU_update ⟨0, 16⟩ (MPU_sample 100 0 0 0)
      (IMU_align realLibm IMU_init 0 0 0))
      = IMU_R (IMU_rotate (IMU_align realLibm IMU_init 0 0 0)
          ((100 : ℝ) * (2 * 250 * 0.0174532925199433 / 65536) * (1 / 250)) 0 0) := by
    rw [IMU_update_aligned _ _ _ hal]
    simp only [IMU_correct]
    have e0 : (IMU_afterSnapshot ⟨0, 16⟩ (MPU_sample 100 0 0 0)
        (IMU_align realLibm IMU_init 0 0 0)).IMU_rollError = 0 ∧
        (IMU_afterSnapshot ⟨0, 16⟩ (MPU_sample 100 0 0 0)
        (IMU_align realLibm IMU_init 0 0 0)).IMU_pitchError = 0 ∧
        (IMU_afterSnapshot ⟨0, 16⟩ (MPU_sample 100 0 0 0)
        (IMU_align realLibm IMU_init 0 0 0)).IMU_yawError = 0 := by
      simp only [IMU_afterSnapshot, IMU_snapshot]
      split <;> simp [IMU_align, IMU_set, realLibm]
    rw [e0.1, e0.2.1, e0.2.2]
    simp only [mul_zero, neg_zero, ite_self, add_zero]
    have ed : (GYRO_getRotations ⟨0, 16⟩ (MPU_sample 100 0 0 0) : ℝ × ℝ × ℝ)
        = ((100 : ℝ) * (2 * 250 * 0.0174532925199433 / 65536) * (1 / 250), 0, 0) := by
      simp only [GYRO_getRotations, MPU_sample, MPU_GYRO_SCALE_FACTOR, DEG_TO_RAD, IMU_HZ]
      norm_num
    rw [ed]
    apply IMU_rotate_R
    exact (IMU_afterSnapshot_R _ _ _).1
  have hzy := (IMU_rotate_identity_roll IMU_init
    ((100 : ℝ) * (2 * 250 * 0.0174532925199433 / 65536) * (1 / 250))).1
  have h7 := congrArg (fun l => l.get? 7) hR
  simp only [IMU_R, List.get?] at h7
  rw [Option.some.inj h7, hzy]
  norm_num

/-- C17 amended: while the calibrating flag is set, the MPU_update of a timer dispatch only
accumulates the raw samples into the calibration sums and the count; IMU_update still runs in
the same dispatch, on the gyro rates left from before, so the matrix and the pending errors
are unchanged when the integrator is not aligned. -/
theorem ISR_dispatch_calibrating {α : Type} [LinearOrderedField α] (b : Build) (t : Tick)
    (sys : TICKER α) (hc : sys.mpu.MPU_calibrating = true) :
    (ISR_dispatch b t sys).mpu =
      { sys.mpu with
        GYRO_x_sum := wrap32 (sys.mpu.GYRO_x_sum + t.gyro.1)
        GYRO_y_sum := wrap32 (sys.mpu.GYRO_y_sum + t.gyro.2.1)
        GYRO_z_sum := wrap32 (sys.mpu.GYRO_z_sum + t.gyro.2.2)
        ACCO_x_sum := wrap32 (sys.mpu.ACCO_x_sum + t.acco.1)
        ACCO_y_sum := wrap32 (sys.mpu.ACCO_y_sum + t.acco.2.1)
        ACCO_z_sum := wrap32 (sys.mpu.ACCO_z_sum + t.acco.2.2)
        MPU_cnt := wrap16 (sys.mpu.MPU_cnt + 1) } ∧
    (ISR_dispatch b t sys).imu = IMU_update b sys.mpu sys.imu ∧
    (sys.imu.IMU_aligned = false →
      (ISR_dispatch b t sys).imu = sys.imu) := by
  have h1 : (ISR_dispatch b t sys).imu = IMU_update b sys.mpu sys.imu := by
    simp only [ISR_dispatch]
    apply IMU_update_congr <;> simp [MPU_update, hc]
  refine ⟨by simp [ISR_dispatch, MPU_update, hc], h1, ?_⟩
  intro hna
  rw [h1, IMU_update_not_aligned_eq b _ _ hna]

/-- Witness for the amended C17: a calibrating dispatch on the start-up integrator state. -/
theorem ISR_dispatch_calibrating_witness :
    (ISR_dispatch ⟨0, 16⟩ ⟨(1, 2, 3), (4, 5, 16384), 0, 9⟩
      (⟨0, 0, 0, { MPU_sample 100 0 0 0 with MPU_calibrating := true }, IMU_init⟩
        : TICKER ℚ)).mpu =
      { (⟨0, 0, 0, { MPU_sample 100 0 0 0 with MPU_calibrating := true }, IMU_init⟩
          : TICKER ℚ).mpu with
        GYRO_x_sum := wrap32 ((⟨0, 0, 0, { MPU_sample 100 0 0 0 with MPU_calibrating := true },
          IMU_init⟩ : TICKER ℚ).mpu.GYRO_x_sum + (1 : Int))
        GYRO_y_sum := wrap32 ((⟨0, 0, 0, { MPU_sample 100 0 0 0 with MPU_calibrating := true },
          IMU_init⟩ : TICKER ℚ).mpu.GYRO_y_sum + (2 : Int))
        GYRO_z_sum := wrap32 ((⟨0, 0, 0, { MPU_sample 100 0 0 0 with MPU_calibrating := true },
          IMU_init⟩ : TICKER ℚ).mpu.GYRO_z_sum + (3 : Int))
        ACCO_x_sum := wrap32 ((⟨0, 0, 0, { MPU_sample 100 0 0 0 with MPU_calibrating := true },
          IMU_init⟩ : TICKER ℚ).mpu.ACCO_x_sum + (4 : Int))
        ACCO_y_sum := wrap32 ((⟨0, 0, 0, { MPU_sample 100 0 0 0 with MPU_calibrating := true },
          IMU_init⟩ : TICKER ℚ).mpu.ACCO_y_sum + (5 : Int))
        ACCO_z_sum := wrap32 ((⟨0, 0, 0, { MPU_sample 100 0 0 0 with MPU_calibrating := true },
          IMU_init⟩ : TICKER ℚ).mpu.ACCO_z_sum + (16384 : Int))
        MPU_cnt := wrap16 ((⟨0, 0, 0, { MPU_sample 100 0 0 0 with MPU_calibrating := true },
          IMU_init⟩ : TICKER ℚ).mpu.MPU_cnt + 1) } ∧
    (ISR_dispatch ⟨0, 16⟩ ⟨(1, 2, 3), (4, 5, 16384), 0, 9⟩
      (⟨0, 0, 0, { MPU_sample 100 0 0 0 with MPU_calibrating := true }, IMU_init⟩
        : TICKER ℚ)).imu
      = IMU_update ⟨0, 16⟩ { MPU_sample 100 0 0 0 with MPU_calibrating := true } IMU_init ∧
    ((IMU_init : IMU ℚ).IMU_aligned = false →
      (ISR_dispatch ⟨0, 16⟩ ⟨(1, 2, 3), (4, 5, 16384), 0, 9⟩
        (⟨0, 0, 0, { MPU_sample 100 0 0 0 with MPU_calibrating := true }, IMU_init⟩
          : TICKER ℚ)).imu = IMU_init) :=
  ISR_dispatch_calibrating ⟨0, 16⟩ ⟨(1, 2, 3), (4, 5, 16384), 0, 9⟩
    ⟨0, 0, 0, { MPU_sample 100 0 0 0 with MPU_calibrating := true }, IMU_init⟩ rfl

/-! ### Bus waits in the interrupt path -/

theorem USART_put_hung (fuel : Nat) : ∀ r : Reads, USART_put Hardware_hung fuel r = none := by
  induction fuel with
  | zero => intro r; rfl
  | succ n ih =>
    intro r
    simp only [USART_put, Hardware_hung, Bool.false_eq_true, if_false]
    exact ih _

theorem TWI_error_hung (fuel : Nat) (op : List Char) (r : Reads) :
    TWI_error none Hardware_hung fuel op r = none := by
  have h : "TWI error: ".toList ++ op ++ ['\n'] = 'T' :: ("WI error: ".toList ++ op ++ ['\n']) :=
    rfl
  simp only [TWI_error, h, STDOUT_print, USART_put_hung, Option.bind]

theorem TWI_wait_hung (fuel : Nat) (k : Nat) :
    ∀ r : Reads, TWI_wait none Hardware_hung fuel (k + 1) r = none := by
  induction k with
  | zero =>
    intro r
    have h : Hardware_hung.TWINT r.twcr = false := rfl
    simp only [TWI_wait, h, Bool.false_eq_true, if_false, if_true, TWI_error_hung]
  | succ k ih =>
    intro r
    have h : Hardware_hung.TWINT r.twcr = false := rfl
    rw [TWI_wait]
    simp only [h, Bool.false_eq_true, if_false, Nat.succ_ne_zero]
    exact ih _

theorem ISR_dispatch_bus_hung (fuel : Nat) (calibrating acco : Bool) (r : Reads) :
    ISR_dispatch_bus none Hardware_hung fuel calibrating acco r = none := by
  have h : TWI_wait none Hardware_hung fuel 300 r = none := TWI_wait_hung fuel 299 r
  unfold ISR_dispatch_bus TWI_read_multi TWI_start TWI_exec
  rw [h]
  rfl

theorem USART_put_ready (hw : Hardware) (h : ∀ k, hw.UDRE0 k = true) (fuel : Nat) (r : Reads) :
    ∃ r1, USART_put hw (fuel + 1) r = some r1 := by
  simp only [USART_put, h, if_true]
  exact ⟨_, rfl⟩

theorem STDOUT_print_ready (hw : Hardware) (h : ∀ k, hw.UDRE0 k = true) (fuel : Nat)
    (cs : List Char) : ∀ r : Reads, ∃ r1, STDOUT_print hw (fuel + 1) cs r = some r1 := by
  induction cs with
  | nil => intro r; exact ⟨r, rfl⟩
  | cons c cs ih =>
    intro r
    obtain ⟨r1, h1⟩ := USART_put_ready hw h fuel r
    obtain ⟨r2, h2⟩ := ih r1
    simp only [STDOUT_print, h1, Option.bind, h2]
    exact ⟨_, rfl⟩

theorem TWI_error_ready (hw : Hardware) (h : ∀ k, hw.UDRE0 k = true) (fuel : Nat)
    (op : List Char) (r : Reads) : ∃ r1, TWI_error none hw (fuel + 1) op r = some r1 :=
  STDOUT_print_ready hw h fuel _ r

theorem TWI_wait_ready (hw : Hardware) (h : ∀ k, hw.UDRE0 k = true) (fuel : Nat) (k : Nat) :
    ∀ r : Reads, ∃ r1, TWI_wait none hw (fuel + 1) k r = some r1 := by
  induction k with
  | zero => intro r; exact ⟨r, rfl⟩
  | succ k ih =>
    intro r
    rw [TWI_wait]
    split
    · exact ⟨_, rfl⟩
    · split
      · exact TWI_error_ready hw h fuel _ _
      · exact ih _

theorem TWI_exec_ready (hw : Hardware) (h : ∀ k, hw.UDRE0 k = true) (fuel : Nat) (r : Reads) :
    ∃ p, TWI_exec none hw (fuel + 1) r = some p := by
  obtain ⟨r1, h1⟩ := TWI_wait_ready hw h fuel 300 r
  simp only [TWI_exec, h1, Option.bind]
  exact ⟨_, rfl⟩

theorem TWI_start_ready (hw : Hardware) (h : ∀ k, hw.UDRE0 k = true) (fuel : Nat) (r : Reads) :
    ∃ r1, TWI_start none hw (fuel + 1) r = some r1 := by
  obtain ⟨p, h1⟩ := TWI_exec_ready hw h fuel r
  simp only [TWI_start, h1, Option.bind]
  split
  · exact TWI_error_ready hw h fuel _ _
  · exact ⟨_, rfl⟩

theorem TWI_send_ready (hw : Hardware) (h : ∀ k, hw.UDRE0 k = true) (fuel : Nat)
    (expected : Nat) (r : Reads) : ∃ r1, TWI_send none hw (fuel + 1) expected r = some r1 := by
  obtain ⟨p, h1⟩ := TWI_exec_ready hw h fuel r
  simp only [TWI_send, h1, Option.bind]
  split
  · exact TWI_error_ready hw h fuel _ _
  · exact ⟨_, rfl⟩

theorem TWI_recv_ready (hw : Hardware) (h : ∀ k, hw.UDRE0 k = true) (fuel : Nat)
    (ack : Bool) (r : Reads) : ∃ p, TWI_recv none hw (fuel + 1) ack r = some p := by
  obtain ⟨p, h1⟩ := TWI_exec_ready hw h fuel r
  obtain ⟨r2, h2⟩ := TWI_error_ready hw h fuel "recv".toList p.2
  by_cases hst : p.1 ≠ (if ack then 0x50 else 0x58)
  · simp only [TWI_recv, h1, Option.bind, if_pos hst, h2]
    exact ⟨_, rfl⟩
  · simp only [TWI_recv, h1, Option.bind, if_neg hst]
    exact ⟨_, rfl⟩

theorem TWI_recv_loop_ready (hw : Hardware) (h : ∀ k, hw.UDRE0 k = true) (fuel : Nat)
    (n : Nat) : ∀ r : Reads, ∃ p, TWI_recv_loop none hw (fuel + 1) n r = some p := by
  induction n with
  | zero => intro r; exact ⟨_, rfl⟩
  | succ n ih =>
    intro r
    obtain ⟨p, h1⟩ := TWI_recv_ready hw h fuel (decide (n ≠ 0)) r
    obtain ⟨q, h2⟩ := ih p.2
    simp only [TWI_recv_loop, h1, Option.bind, h2]
    exact ⟨_, rfl⟩

theorem TWI_read_multi_ready (hw : Hardware) (h : ∀ k, hw.UDRE0 k = true) (fuel : Nat)
    (n : Nat) (r : Reads) : ∃ p, TWI_read_multi none hw (fuel + 1) n r = some p := by
  obtain ⟨r1, h1⟩ := TWI_start_ready hw h fuel r
  obtain ⟨r2, h2⟩ := TWI_send_ready hw h fuel 0x18 r1
  obtain ⟨r3, h3⟩ := TWI_send_ready hw h fuel 0x28 r2
  obtain ⟨r4, h4⟩ := TWI_start_ready hw h fuel r3
  obtain ⟨r5, h5⟩ := TWI_send_ready hw h fuel 0x40 r4
  obtain ⟨p, h6⟩ := TWI_recv_loop_ready hw h fuel n r5
  simp only [TWI_read_multi, h1, h2, h3, h4, h5, h6, Option.bind]
  exact ⟨_, rfl⟩

/-- C19 (defect in the code): on hardware where neither the bus nor the usart ever reports
completion, the fusion dispatch does not return within any number of polls: the completion
wait of TWI_exec gives up after 300 polls and calls TWI_error, whose printf ends in the
unbounded wait of USART_put.  The waits of twi.h themselves are bounded: whenever the usart
is always ready, the dispatch returns, for every behaviour of the bus. -/
theorem ISR_dispatch_can_block :
    (∀ (fuel : Nat) (calibrating acco : Bool) (r : Reads),
      ISR_dispatch_bus none Hardware_hung fuel calibrating acco r = none) ∧
    (∀ (hw : Hardware), (∀ k, hw.UDRE0 k = true) →
      ∀ (fuel : Nat) (calibrating acco : Bool) (r : Reads),
        ∃ r1, ISR_dispatch_bus none hw (fuel + 1) calibrating acco r = some r1) := by
  refine ⟨ISR_dispatch_bus_hung, ?_⟩
  intro hw h fuel calibrating acco r
  obtain ⟨p, h1⟩ := TWI_read_multi_ready hw h fuel 6 r
  obtain ⟨q, h2⟩ := TWI_read_multi_ready hw h fuel 6 p.2
  simp only [ISR_dispatch_bus, h1, Option.bind]
  split
  · exact ⟨_, by rw [h2]⟩
  · exact ⟨_, rfl⟩

/-! ### servo.h: the hard stops -/

theorem tdiv_bounds (v : Int) (lo hi : Int) (h1 : -(10 * lo) ≤ v) (h2 : v ≤ 10 * hi) : -lo ≤ Int.tdiv v 10 ∧ Int.tdiv v 10 ≤ hi := by
  rcases le_total 0 v with hv | hv
  · rw [Int.tdiv_eq_ediv hv (by norm_num)]
    omega
  · have e : v = -(-v) := by ring
    rw [e, Int.neg_tdiv, Int.tdiv_eq_ediv (by omega) (by norm_num)]
    omega

theorem SERVO_target_clamped (t : Int) :
    -900 ≤ (if t < -SERVO_LIMIT_TENTHS then -SERVO_LIMIT_TENTHS
      else if t > SERVO_LIMIT_TENTHS then SERVO_LIMIT_TENTHS else t) ∧
    (if t < -SERVO_LIMIT_TENTHS then -SERVO_LIMIT_TENTHS
      else if t > SERVO_LIMIT_TENTHS then SERVO_LIMIT_TENTHS else t) ≤ 900 := by
  unfold SERVO_LIMIT_TENTHS
  split
  · omega
  · split <;> omega

theorem SERVO_counts (b : Build) (hclk : b.HAVE_CLOCK = 8 ∨ b.HAVE_CLOCK = 16) (t : Int)
    (h1 : -900 ≤ t) (h2 : t ≤ 900) :
    (b.HAVE_CLOCK = 16 →
      600 ≤ (SERVO_CENTER_COUNTS b + Int.tdiv (wrap16 (t * SERVO_COUNTS_PER_DEGREE b)) 10)
        % 65536 ∧
      (SERVO_CENTER_COUNTS b + Int.tdiv (wrap16 (t * SERVO_COUNTS_PER_DEGREE b)) 10)
        % 65536 ≤ 2400) ∧
    (b.HAVE_CLOCK = 8 →
      300 ≤ (SERVO_CENTER_COUNTS b + Int.tdiv (wrap16 (t * SERVO_COUNTS_PER_DEGREE b)) 10)
        % 65536 ∧
      (SERVO_CENTER_COUNTS b + Int.tdiv (wrap16 (t * SERVO_COUNTS_PER_DEGREE b)) 10)
        % 65536 ≤ 1200) ∧
    SERVO_CENTER_COUNTS b
        - Int.tdiv (SERVO_LIMIT_TENTHS * SERVO_COUNTS_PER_DEGREE b) 10
      ≤ (SERVO_CENTER_COUNTS b + Int.tdiv (wrap16 (t * SERVO_COUNTS_PER_DEGREE b)) 10)
        % 65536 ∧
    (SERVO_CENTER_COUNTS b + Int.tdiv (wrap16 (t * SERVO_COUNTS_PER_DEGREE b)) 10) % 65536
      ≤ SERVO_CENTER_COUNTS b
        + Int.tdiv (SERVO_LIMIT_TENTHS * SERVO_COUNTS_PER_DEGREE b) 10 := by
  rcases hclk with h | h
  · have hc : SERVO_CENTER_COUNTS b = 750 := by simp [SERVO_CENTER_COUNTS, h]
    have hd : SERVO_COUNTS_PER_DEGREE b = 5 := by simp [SERVO_COUNTS_PER_DEGREE, h]
    have hl : Int.tdiv (SERVO_LIMIT_TENTHS * 5) 10 = 450 := by decide
    rw [hc, hd, hl, wrap16_of_range _ (by omega) (by omega)]
    obtain ⟨b1, b2⟩ := tdiv_bounds (t * 5) 450 450 (by omega) (by omega)
    refine ⟨fun h16 => by omega, fun _ => by omega, by omega, by omega⟩
  · have hc : SERVO_CENTER_COUNTS b = 1500 := by simp [SERVO_CENTER_COUNTS, h]
    have hd : SERVO_COUNTS_PER_DEGREE b = 10 := by simp [SERVO_COUNTS_PER_DEGREE, h]
    have hl : Int.tdiv (SERVO_LIMIT_TENTHS * 10) 10 = 900 := by decide
    rw [hc, hd, hl, wrap16_of_range _ (by omega) (by omega)]
    obtain ⟨b1, b2⟩ := tdiv_bounds (t * 10) 900 900 (by omega) (by omega)
    refine ⟨fun _ => by omega, fun h8 => by omega, by omega, by omega⟩

/-- C21: the servo hard stops are never exceeded.  With the clock at 8 or 16 MHz, for every
shaft angle, centre offset, gains and reversal setting, the value SERVO_setShaftAngle writes
to OCR1A lies within SERVO_CENTER_COUNTS plus or minus
SERVO_LIMIT_TENTHS * SERVO_COUNTS_PER_DEGREE / 10: in [600, 2400] at 16 MHz and in
[300, 1200] at 8 MHz. -/
theorem SERVO_hard_stops {α : Type} [LinearOrderedField α] [FloorRing α] (b : Build)
    (hclk : b.HAVE_CLOCK = 8 ∨ b.HAVE_CLOCK = 16) (sv : SERVO α) (angle : α) :
    (b.HAVE_CLOCK = 16 → 600 ≤ (SERVO_setShaftAngle b sv angle).OCR1A ∧
      (SERVO_setShaftAngle b sv angle).OCR1A ≤ 2400) ∧
    (b.HAVE_CLOCK = 8 → 300 ≤ (SERVO_setShaftAngle b sv angle).OCR1A ∧
      (SERVO_setShaftAngle b sv angle).OCR1A ≤ 1200) ∧
    SERVO_CENTER_COUNTS b - Int.tdiv (SERVO_LIMIT_TENTHS * SERVO_COUNTS_PER_DEGREE b) 10
      ≤ (SERVO_setShaftAngle b sv angle).OCR1A ∧
    (SERVO_setShaftAngle b sv angle).OCR1A
      ≤ SERVO_CENTER_COUNTS b + Int.tdiv (SERVO_LIMIT_TENTHS * SERVO_COUNTS_PER_DEGREE b) 10 := by
  simp only [SERVO_setShaftAngle]
  exact SERVO_counts b hclk _ (SERVO_target_clamped _).1 (SERVO_target_clamped _).2

/-- Witness for C21: a reversed servo with unequal gains asked for half a radian on the
16 MHz build. -/
theorem SERVO_hard_stops_witness :
    ((⟨0, 16⟩ : Build).HAVE_CLOCK = 16 →
      600 ≤ (SERVO_setShaftAngle ⟨0, 16⟩ (⟨1 / 10, 3 / 2, 2, true, 0⟩ : SERVO ℚ) (1 / 2)).OCR1A ∧
      (SERVO_setShaftAngle ⟨0, 16⟩ (⟨1 / 10, 3 / 2, 2, true, 0⟩ : SERVO ℚ) (1 / 2)).OCR1A
        ≤ 2400) ∧
    ((⟨0, 16⟩ : Build).HAVE_CLOCK = 8 →
      300 ≤ (SERVO_setShaftAngle ⟨0, 16⟩ (⟨1 / 10, 3 / 2, 2, true, 0⟩ : SERVO ℚ) (1 / 2)).OCR1A ∧
      (SERVO_setShaftAngle ⟨0, 16⟩ (⟨1 / 10, 3 / 2, 2, true, 0⟩ : SERVO ℚ) (1 / 2)).OCR1A
        ≤ 1200) ∧
    SERVO_CENTER_COUNTS ⟨0, 16⟩
        - Int.tdiv (SERVO_LIMIT_TENTHS * SERVO_COUNTS_PER_DEGREE ⟨0, 16⟩) 10
      ≤ (SERVO_setShaftAngle ⟨0, 16⟩ (⟨1 / 10, 3 / 2, 2, true, 0⟩ : SERVO ℚ) (1 / 2)).OCR1A ∧
    (SERVO_setShaftAngle ⟨0, 16⟩ (⟨1 / 10, 3 / 2, 2, true, 0⟩ : SERVO ℚ) (1 / 2)).OCR1A
      ≤ SERVO_CENTER_COUNTS ⟨0, 16⟩
        + Int.tdiv (SERVO_LIMIT_TENTHS * SERVO_COUNTS_PER_DEGREE ⟨0, 16⟩) 10 :=
  SERVO_hard_stops ⟨0, 16⟩ (Or.inr rfl) ⟨1 / 10, 3 / 2, 2, true, 0⟩ (1 / 2)

/-! ### IMU_rotate as a matrix product -/

/-- C22: before re-orthonormalization IMU_rotate replaces the matrix by the exact product
R * Q, with Q the identity plus the skew-symmetric matrix of the increments: IMU_rotate is
the re-orthonormalization (half-dot correction, cross product, normalization) of the state
whose matrix is R * Q, and each of the nine entries of that matrix is the dot product of the
matching row of the old R with the matching column of Q. -/
theorem IMU_rotate_product {α : Type} [LinearOrderedField α] (s : IMU α) (dx dy dz : α) :
    IMU_rotate s dx dy dz = IMU_normalize (IMU_crossZ (IMU_halfdot (IMU_mulQ s dx dy dz))) ∧
    IMU_matrix (IMU_mulQ s dx dy dz) = IMU_matrix s * IMU_Q dx dy dz ∧
    IMU_Q dx dy dz = 1 + IMU_skew dx dy dz ∧
    (IMU_skew dx dy dz).transpose = -IMU_skew dx dy dz ∧
    (∀ i j : Fin 3, IMU_matrix (IMU_mulQ s dx dy dz) i j
      = IMU_matrix s i 0 * IMU_Q dx dy dz 0 j + IMU_matrix s i 1 * IMU_Q dx dy dz 1 j
        + IMU_matrix s i 2 * IMU_Q dx dy dz 2 j) := by
  have hprod : IMU_matrix (IMU_mulQ s dx dy dz) = IMU_matrix s * IMU_Q dx dy dz := by
    ext i j
    fin_cases i <;> fin_cases j <;>
      simp [IMU_matrix, IMU_mulQ, IMU_Q, Matrix.mul_apply, Fin.sum_univ_three]
  refine ⟨rfl, hprod, ?_, ?_, ?_⟩
  · ext i j
    fin_cases i <;> fin_cases j <;> simp [IMU_Q, IMU_skew, Matrix.one_apply]
  · ext i j
    fin_cases i <;> fin_cases j <;> simp [IMU_skew, Matrix.transpose_apply]
  · intro i j
    rw [hprod, Matrix.mul_apply, Fin.sum_univ_three]

/-! ### The stages of re-orthonormalization -/

/-- C23: the half-dot correction.  If rows X and Y have dot product d and squared lengths a
and b, after the correction their dot product is d * (1 - (a + b) / 2 + d^2 / 4); for unit
rows this is d^3 / 4, strictly smaller in magnitude than |d| when 0 < |d| < 2. -/
theorem IMU_halfdot_dot (s : IMU ℝ) (ha : sqX s = 1) (hb : sqY s = 1)
    (hd1 : 0 < |dotXY s|) (hd2 : |dotXY s| < 2) :
    (∀ u : IMU ℝ, dotXY (IMU_halfdot u)
      = dotXY u * (1 - (sqX u + sqY u) / 2 + dotXY u ^ 2 / 4)) ∧
    dotXY (IMU_halfdot s) = dotXY s ^ 3 / 4 ∧
    |dotXY (IMU_halfdot s)| < |dotXY s| := by
  have h3 : dotXY (IMU_halfdot s) = dotXY s ^ 3 / 4 := by
    rw [(halfdot_measures s).2.2, ha, hb]
    ring
  refine ⟨fun u => (halfdot_measures u).2.2, h3, ?_⟩
  rw [h3]
  have e : |dotXY s ^ 3 / 4| = |dotXY s| * (|dotXY s| ^ 2 / 4) := by
    rw [abs_div, abs_pow, abs_of_pos (by norm_num : (0 : ℝ) < 4)]
    ring
  rw [e]
  have hsq : |dotXY s| ^ 2 / 4 < 1 := by nlinarith
  nlinarith

/-- Witness for C23: unit rows (1, 0, 0) and (3/5, 4/5, 0), whose dot product is 3/5. -/
theorem IMU_halfdot_dot_witness :
    (∀ u : IMU ℝ, dotXY (IMU_halfdot u)
      = dotXY u * (1 - (sqX u + sqY u) / 2 + dotXY u ^ 2 / 4)) ∧
    dotXY (IMU_halfdot ({ (IMU_init : IMU ℝ) with Rxx := 1, Ryx := 3 / 5, Ryy := 4 / 5 }))
      = dotXY ({ (IMU_init : IMU ℝ) with Rxx := 1, Ryx := 3 / 5, Ryy := 4 / 5 }) ^ 3 / 4 ∧
    |dotXY (IMU_halfdot ({ (IMU_init : IMU ℝ) with Rxx := 1, Ryx := 3 / 5, Ryy := 4 / 5 }))|
      < |dotXY ({ (IMU_init : IMU ℝ) with Rxx := 1, Ryx := 3 / 5, Ryy := 4 / 5 })| :=
  IMU_halfdot_dot { (IMU_init : IMU ℝ) with Rxx := 1, Ryx := 3 / 5, Ryy := 4 / 5 }
    (by simp [sqX, IMU_init]) (by simp only [sqY, IMU_init]; norm_num)
    (by simp only [dotXY, IMU_init]; norm_num)
    (by simp only [dotXY, IMU_init]; norm_num [abs_lt])

theorem cross_pos_of_independent (s : IMU ℝ) (h : RowsXYIndependent s) :
    0 < sqX s * sqY s - dotXY s ^ 2 := by
  have hid : sqX s * sqY s - dotXY s ^ 2
      = (s.Rxy * s.Ryz - s.Rxz * s.Ryy) ^ 2 + (s.Rxz * s.Ryx - s.Rxx * s.Ryz) ^ 2
        + (s.Rxx * s.Ryy - s.Rxy * s.Ryx) ^ 2 := by
    simp only [sqX, sqY, dotXY]
    ring
  rw [hid]
  by_contra hneg
  have h1 := sq_nonneg (s.Rxy * s.Ryz - s.Rxz * s.Ryy)
  have h2 := sq_nonneg (s.Rxz * s.Ryx - s.Rxx * s.Ryz)
  have h3 := sq_nonneg (s.Rxx * s.Ryy - s.Rxy * s.Ryx)
  have z1 : s.Rxy * s.Ryz - s.Rxz * s.Ryy = 0 := by
    have : (s.Rxy * s.Ryz - s.Rxz * s.Ryy) ^ 2 = 0 := by linarith
    exact pow_eq_zero_iff (by norm_num) |>.mp this
  have z2 : s.Rxz * s.Ryx - s.Rxx * s.Ryz = 0 := by
    have : (s.Rxz * s.Ryx - s.Rxx * s.Ryz) ^ 2 = 0 := by linarith
    exact pow_eq_zero_iff (by norm_num) |>.mp this
  have z3 : s.Rxx * s.Ryy - s.Rxy * s.Ryx = 0 := by
    have : (s.Rxx * s.Ryy - s.Rxy * s.Ryx) ^ 2 = 0 := by linarith
    exact pow_eq_zero_iff (by norm_num) |>.mp this
  have a1 := h s.Ryx (-s.Rxx) (by ring) (by linarith) (by linarith)
  have := h 1 0 (by linarith [a1.1, a1.2]) ?_ ?_
  · exact one_ne_zero this.1
  · have a2 := h s.Ryy (-s.Rxy) (by linarith) (by ring) (by linarith)
    linarith [a2.2]
  · have a3 := h s.Ryz (-s.Rxz) (by linarith) (by linarith) (by ring)
    linarith [a3.2]

theorem IMU_det_eq (u : IMU ℝ) :
    (IMU_matrix u).det
      = u.Rxx * (u.Ryy * u.Rzz - u.Ryz * u.Rzy) - u.Rxy * (u.Ryx * u.Rzz - u.Ryz * u.Rzx)
        + u.Rxz * (u.Ryx * u.Rzy - u.Ryy * u.Rzx) := by
  rw [Matrix.det_fin_three]
  simp [IMU_matrix]
  ring

theorem det_normalize (u : IMU ℝ) :
    (IMU_matrix (IMU_normalize u)).det
      = (3 - sqX u) / 2 * ((3 - sqY u) / 2) * ((3 - sqZ u) / 2) * (IMU_matrix u).det := by
  have h5 : (0.5 : ℝ) = 1 / 2 := by norm_num
  rw [IMU_det_eq, IMU_det_eq]
  simp only [IMU_normalize, h5]
  rw [show u.Rxx * u.Rxx + u.Rxy * u.Rxy + u.Rxz * u.Rxz = sqX u from rfl,
    show u.Ryx * u.Ryx + u.Ryy * u.Ryy + u.Ryz * u.Ryz = sqY u from rfl,
    show u.Rzx * u.Rzx + u.Rzy * u.Rzy + u.Rzz * u.Rzz = sqZ u from rfl]
  ring

theorem det_crossZ (u : IMU ℝ) : (IMU_matrix (IMU_crossZ u)).det = sqZ (IMU_crossZ u) := by
  rw [IMU_det_eq]
  simp only [IMU_crossZ, sqZ]
  ring

theorem det_normalize_crossZ (s : IMU ℝ) :
    (IMU_matrix (IMU_normalize (IMU_crossZ s))).det
      = (3 - sqX (IMU_crossZ s)) / 2 * ((3 - sqY (IMU_crossZ s)) / 2)
        * ((3 - sqZ (IMU_crossZ s)) / 2) * sqZ (IMU_crossZ s) := by
  rw [det_normalize, det_crossZ]

/-- C24: after IMU_rotate, from any matrix and with any increments, row Z is exactly
perpendicular to rows X and Y; and the determinant of the matrix is positive when the
corrected rows X and Y (before normalization) are linearly independent and the three
squared row lengths before normalization are below 3. -/
theorem IMU_rotate_right_handed (s : IMU ℝ) (dx dy dz : ℝ)
    (hind : RowsXYIndependent (IMU_crossZ (IMU_halfdot (IMU_mulQ s dx dy dz))))
    (hX : sqX (IMU_crossZ (IMU_halfdot (IMU_mulQ s dx dy dz))) < 3)
    (hY : sqY (IMU_crossZ (IMU_halfdot (IMU_mulQ s dx dy dz))) < 3)
    (hZ : sqZ (IMU_crossZ (IMU_halfdot (IMU_mulQ s dx dy dz))) < 3) :
    (∀ (u : IMU ℝ) (ex ey ez : ℝ),
      dotXZ (IMU_rotate u ex ey ez) = 0 ∧ dotYZ (IMU_rotate u ex ey ez) = 0) ∧
    0 < (IMU_matrix (IMU_rotate s dx dy dz)).det := by
  constructor
  · intro u ex ey ez
    rw [IMU_rotate_stages]
    obtain ⟨-, -, -, -, hXZ, hYZ⟩ := crossZ_measures (IMU_halfdot (IMU_mulQ u ex ey ez))
    obtain ⟨-, -, -, -, hXZ4, hYZ4⟩ :=
      normalize_measures (IMU_crossZ (IMU_halfdot (IMU_mulQ u ex ey ez)))
    rw [hXZ4, hYZ4, hXZ, hYZ, mul_zero, mul_zero]
    exact ⟨rfl, rfl⟩
  · rw [IMU_rotate_stages, det_normalize_crossZ]
    obtain ⟨hA3, hB3, hD3, hZ3, -, -⟩ := crossZ_measures (IMU_halfdot (IMU_mulQ s dx dy dz))
    have hpos : 0 < sqZ (IMU_crossZ (IMU_halfdot (IMU_mulQ s dx dy dz))) := by
      have := cross_pos_of_independent _ hind
      rw [hA3, hB3, hD3] at this
      rw [hZ3]
      exact this
    have n1 : 0 < (3 - sqX (IMU_crossZ (IMU_halfdot (IMU_mulQ s dx dy dz)))) / 2 := by linarith
    have n2 : 0 < (3 - sqY (IMU_crossZ (IMU_halfdot (IMU_mulQ s dx dy dz)))) / 2 := by linarith
    have n3 : 0 < (3 - sqZ (IMU_crossZ (IMU_halfdot (IMU_mulQ s dx dy dz)))) / 2 := by linarith
    positivity

/-- Witness for C24: the test matrix with rows (3/5, 4/5, 0), (-4/5, 3/5, 0), (0, 0, 1) and
zero increments. -/
theorem IMU_rotate_right_handed_witness :
    (∀ (u : IMU ℝ) (ex ey ez : ℝ),
      dotXZ (IMU_rotate u ex ey ez) = 0 ∧ dotYZ (IMU_rotate u ex ey ez) = 0) ∧
    0 < (IMU_matrix (IMU_rotate (IMU_rot345 : IMU ℝ) 0 0 0)).det :=
  IMU_rotate_right_handed IMU_rot345 0 0 0
    (by
      intro a b h1 h2 _
      simp only [IMU_crossZ, IMU_halfdot, IMU_mulQ, IMU_rot345, IMU_init] at h1 h2
      norm_num at h1 h2
      constructor
      · linear_combination (3 / 5 : ℝ) * h1 + (4 / 5 : ℝ) * h2
      · linear_combination (-4 / 5 : ℝ) * h1 + (3 / 5 : ℝ) * h2)
    (by simp only [sqX, IMU_crossZ, IMU_halfdot, IMU_mulQ, IMU_rot345, IMU_init]; norm_num)
    (by simp only [sqY, IMU_crossZ, IMU_halfdot, IMU_mulQ, IMU_rot345, IMU_init]; norm_num)
    (by simp only [sqZ, IMU_crossZ, IMU_halfdot, IMU_mulQ, IMU_rot345, IMU_init]; norm_num)

theorem entry_le_one (x y z : ℝ) (h : x * x + y * y + z * z ≤ 1) :
    (-1 ≤ x ∧ x ≤ 1) ∧ (-1 ≤ y ∧ y ≤ 1) ∧ (-1 ≤ z ∧ z ≤ 1) := by
  refine ⟨⟨?_, ?_⟩, ⟨?_, ?_⟩, ⟨?_, ?_⟩⟩ <;> nlinarith [sq_nonneg x, sq_nonneg y, sq_nonneg z]

/-- C28: renormalization never overshoots.  After IMU_rotate the squared length of each row
is s * (3 - s)^2 / 4, where s is the squared length of that row just before normalization,
which is short of 1 by (s - 1)^2 * (4 - s) / 4; when the three values of s are at most 4,
each row has length at most 1 and every entry of the matrix, Rzx included, lies in
[-1, 1]. -/
theorem IMU_rotate_no_overshoot (s : IMU ℝ) (dx dy dz : ℝ)
    (hX : sqX (IMU_crossZ (IMU_halfdot (IMU_mulQ s dx dy dz))) ≤ 4)
    (hY : sqY (IMU_crossZ (IMU_halfdot (IMU_mulQ s dx dy dz))) ≤ 4)
    (hZ : sqZ (IMU_crossZ (IMU_halfdot (IMU_mulQ s dx dy dz))) ≤ 4) :
    (∀ (u : IMU ℝ) (ex ey ez : ℝ),
      (sqX (IMU_rotate u ex ey ez)
          = sqX (IMU_crossZ (IMU_halfdot (IMU_mulQ u ex ey ez)))
            * (3 - sqX (IMU_crossZ (IMU_halfdot (IMU_mulQ u ex ey ez)))) ^ 2 / 4 ∧
        1 - sqX (IMU_rotate u ex ey ez)
          = (sqX (IMU_crossZ (IMU_halfdot (IMU_mulQ u ex ey ez))) - 1) ^ 2
            * (4 - sqX (IMU_crossZ (IMU_halfdot (IMU_mulQ u ex ey ez)))) / 4) ∧
      (sqY (IMU_rotate u ex ey ez)
          = sqY (IMU_crossZ (IMU_halfdot (IMU_mulQ u ex ey ez)))
            * (3 - sqY (IMU_crossZ (IMU_halfdot (IMU_mulQ u ex ey ez)))) ^ 2 / 4 ∧
        1 - sqY (IMU_rotate u ex ey ez)
          = (sqY (IMU_crossZ (IMU_halfdot (IMU_mulQ u ex ey ez))) - 1) ^ 2
            * (4 - sqY (IMU_crossZ (IMU_halfdot (IMU_mulQ u ex ey ez)))) / 4) ∧
      (sqZ (IMU_rotate u ex ey ez)
          = sqZ (IMU_crossZ (IMU_halfdot (IMU_mulQ u ex ey ez)))
            * (3 - sqZ (IMU_crossZ (IMU_halfdot (IMU_mulQ u ex ey ez)))) ^ 2 / 4 ∧
        1 - sqZ (IMU_rotate u ex ey ez)
          = (sqZ (IMU_crossZ (IMU_halfdot (IMU_mulQ u ex ey ez))) - 1) ^ 2
            * (4 - sqZ (IMU_crossZ (IMU_halfdot (IMU_mulQ u ex ey ez)))) / 4)) ∧
    (√(sqX (IMU_rotate s dx dy dz)) ≤ 1 ∧ √(sqY (IMU_rotate s dx dy dz)) ≤ 1 ∧
      √(sqZ (IMU_rotate s dx dy dz)) ≤ 1) ∧
    (∀ e ∈ IMU_R (IMU_rotate s dx dy dz), -1 ≤ e ∧ e ≤ 1) ∧
    (-1 ≤ (IMU_rotate s dx dy dz).Rzx ∧ (IMU_rotate s dx dy dz).Rzx ≤ 1) := by
  have hid : ∀ (u : IMU ℝ) (ex ey ez : ℝ),
      (sqX (IMU_rotate u ex ey ez)
          = sqX (IMU_crossZ (IMU_halfdot (IMU_mulQ u ex ey ez)))
            * (3 - sqX (IMU_crossZ (IMU_halfdot (IMU_mulQ u ex ey ez)))) ^ 2 / 4 ∧
        1 - sqX (IMU_rotate u ex ey ez)
          = (sqX (IMU_crossZ (IMU_halfdot (IMU_mulQ u ex ey ez))) - 1) ^ 2
            * (4 - sqX (IMU_crossZ (IMU_halfdot (IMU_mulQ u ex ey ez)))) / 4) ∧
      (sqY (IMU_rotate u ex ey ez)
          = sqY (IMU_crossZ (IMU_halfdot (IMU_mulQ u ex ey ez)))
            * (3 - sqY (IMU_crossZ (IMU_halfdot (IMU_mulQ u ex ey ez)))) ^ 2 / 4 ∧
        1 - sqY (IMU_rotate u ex ey ez)
          = (sqY (IMU_crossZ (IMU_halfdot (IMU_mulQ u ex ey ez))) - 1) ^ 2
            * (4 - sqY (IMU_crossZ (IMU_halfdot (IMU_mulQ u ex ey ez)))) / 4) ∧
      (sqZ (IMU_rotate u ex ey ez)
          = sqZ (IMU_crossZ (IMU_halfdot (IMU_mulQ u ex ey ez)))
            * (3 - sqZ (IMU_crossZ (IMU_halfdot (IMU_mulQ u ex ey ez)))) ^ 2 / 4 ∧
        1 - sqZ (IMU_rotate u ex ey ez)
          = (sqZ (IMU_crossZ (IMU_halfdot (IMU_mulQ u ex ey ez))) - 1) ^ 2
            * (4 - sqZ (IMU_crossZ (IMU_halfdot (IMU_mulQ u ex ey ez)))) / 4) := by
    intro u ex ey ez
    obtain ⟨h1, h2, h3, -, -, -⟩ :=
      normalize_measures (IMU_crossZ (IMU_halfdot (IMU_mulQ u ex ey ez)))
    rw [IMU_rotate_stages, h1, h2, h3]
    refine ⟨⟨?_, ?_⟩, ⟨?_, ?_⟩, ⟨?_, ?_⟩⟩ <;> ring
  obtain ⟨⟨-, eX⟩, ⟨-, eY⟩, ⟨-, eZ⟩⟩ := hid s dx dy dz
  have lX : sqX (IMU_rotate s dx dy dz) ≤ 1 := by
    have : 0 ≤ (sqX (IMU_crossZ (IMU_halfdot (IMU_mulQ s dx dy dz))) - 1) ^ 2
        * (4 - sqX (IMU_crossZ (IMU_halfdot (IMU_mulQ s dx dy dz)))) / 4 :=
      div_nonneg (mul_nonneg (sq_nonneg _) (by linarith)) (by norm_num)
    linarith
  have lY : sqY (IMU_rotate s dx dy dz) ≤ 1 := by
    have : 0 ≤ (sqY (IMU_crossZ (IMU_halfdot (IMU_mulQ s dx dy dz))) - 1) ^ 2
        * (4 - sqY (IMU_crossZ (IMU_halfdot (IMU_mulQ s dx dy dz)))) / 4 :=
      div_nonneg (mul_nonneg (sq_nonneg _) (by linarith)) (by norm_num)
    linarith
  have lZ : sqZ (IMU_rotate s dx dy dz) ≤ 1 := by
    have : 0 ≤ (sqZ (IMU_crossZ (IMU_halfdot (IMU_mulQ s dx dy dz))) - 1) ^ 2
        * (4 - sqZ (IMU_crossZ (IMU_halfdot (IMU_mulQ s dx dy dz)))) / 4 :=
      div_nonneg (mul_nonneg (sq_nonneg _) (by linarith)) (by norm_num)
    linarith
  obtain ⟨x1, x2, x3⟩ := entry_le_one _ _ _ lX
  obtain ⟨y1, y2, y3⟩ := entry_le_one _ _ _ lY
  obtain ⟨z1, z2, z3⟩ := entry_le_one _ _ _ lZ
  refine ⟨hid, ⟨Real.sqrt_le_one.mpr lX, Real.sqrt_le_one.mpr lY, Real.sqrt_le_one.mpr lZ⟩,
    ?_, z1⟩
  intro e he
  simp only [IMU_R, List.mem_cons, List.mem_singleton, List.not_mem_nil, or_false] at he
  rcases he with h | h | h | h | h | h | h | h | h <;> rw [h] <;> assumption

/-- Witness for C28: the test matrix with rows (3/5, 4/5, 0), (-4/5, 3/5, 0), (0, 0, 1)
rotated by half a radian of roll in one call. -/
theorem IMU_rotate_no_overshoot_witness :
    (√(sqX (IMU_rotate (IMU_rot345 : IMU ℝ) (1 / 2) 0 0)) ≤ 1 ∧
      √(sqY (IMU_rotate (IMU_rot345 : IMU ℝ) (1 / 2) 0 0)) ≤ 1 ∧
      √(sqZ (IMU_rotate (IMU_rot345 : IMU ℝ) (1 / 2) 0 0)) ≤ 1) ∧
    (∀ e ∈ IMU_R (IMU_rotate (IMU_rot345 : IMU ℝ) (1 / 2) 0 0), -1 ≤ e ∧ e ≤ 1) ∧
    (-1 ≤ (IMU_rotate (IMU_rot345 : IMU ℝ) (1 / 2) 0 0).Rzx ∧
      (IMU_rotate (IMU_rot345 : IMU ℝ) (1 / 2) 0 0).Rzx ≤ 1) :=
  (IMU_rotate_no_overshoot IMU_rot345 (1 / 2) 0 0
    (by simp only [sqX, IMU_crossZ, IMU_halfdot, IMU_mulQ, IMU_rot345, IMU_init]; norm_num)
    (by simp only [sqY, IMU_crossZ, IMU_halfdot, IMU_mulQ, IMU_rot345, IMU_init]; norm_num)
    (by simp only [sqZ, IMU_crossZ, IMU_halfdot, IMU_mulQ, IMU_rot345, IMU_init]; norm_num)).2

/-! ### The snapshot at the reference attitude; the bus clock -/

/-- C25 as stated fails: with the matrix exactly as IMU_align wrote it for roll 0, pitch π/6,
yaw 0, a snapshot gives the pitch error 1/2 - π/6, which is not 0. -/
theorem IMU_snapshot_at_home_nonzero :
    (IMU_snapshot true (IMU_align realLibm IMU_init 0 (π / 6) 0)).IMU_pitchError
      = 1 / 2 - π / 6 ∧
    (IMU_snapshot true (IMU_align realLibm IMU_init 0 (π / 6) 0)).IMU_pitchError ≠ 0 := by
  have h : (IMU_snapshot true (IMU_align realLibm IMU_init 0 (π / 6) 0)).IMU_pitchError
      = 1 / 2 - π / 6 := by
    simp [IMU_snapshot, IMU_align, IMU_set, realLibm]
  refine ⟨h, ?_⟩
  rw [h]
  have := Real.pi_gt_three
  intro h0
  linarith

/-- C25 amended: if the matrix is exactly the one IMU_align roll0 pitch0 yaw wrote and a
cycle takes a snapshot, the snapshotted errors are sin roll0 * cos pitch0 - roll0 for roll,
sin pitch0 - pitch0 for pitch and 0 for yaw; all three are 0 for roll0 = pitch0 = 0. -/
theorem IMU_snapshot_at_home (s : IMU ℝ) (roll0 pitch0 yaw : ℝ) :
    (IMU_snapshot true (IMU_align realLibm s roll0 pitch0 yaw)).IMU_rollError
      = sin roll0 * cos pitch0 - roll0 ∧
    (IMU_snapshot true (IMU_align realLibm s roll0 pitch0 yaw)).IMU_pitchError
      = sin pitch0 - pitch0 ∧
    (IMU_snapshot true (IMU_align realLibm s roll0 pitch0 yaw)).IMU_yawError = 0 ∧
    (IMU_snapshot true (IMU_align realLibm s 0 0 yaw)).IMU_rollError = 0 ∧
    (IMU_snapshot true (IMU_align realLibm s 0 0 yaw)).IMU_pitchError = 0 := by
  simp [IMU_snapshot, IMU_align, IMU_set, realLibm]

/-- C27 (defect in the code): for 8 MHz and 200 kHz TWI_init writes the divisor 32, with
which the documented formula gives 100 kHz, not the 200 kHz requested (its own comment
computes the divisor 12, which gives 200 kHz); the four other supported combinations give
the requested frequency exactly, all with prescaler 1. -/
theorem TWI_init_8MHz_200kHz :
    (TWI_init 8 200 = some (0, 32) ∧ TWI_prescaler 0 = 1 ∧
      TWI_SCL_frequency 8000000 32 (TWI_prescaler 0) = 100000 ∧
      TWI_SCL_frequency 8000000 32 (TWI_prescaler 0) ≠ 200 * 1000 ∧
      TWI_SCL_frequency 8000000 12 (TWI_prescaler 0) = 200 * 1000) ∧
    (TWI_init 8 50 = some (0, 72) ∧
      TWI_SCL_frequency 8000000 72 (TWI_prescaler 0) = 50 * 1000) ∧
    (TWI_init 8 100 = some (0, 32) ∧
      TWI_SCL_frequency 8000000 32 (TWI_prescaler 0) = 100 * 1000) ∧
    (TWI_init 16 100 = some (0, 72) ∧
      TWI_SCL_frequency 16000000 72 (TWI_prescaler 0) = 100 * 1000) ∧
    (TWI_init 16 200 = some (0, 32) ∧
      TWI_SCL_frequency 16000000 32 (TWI_prescaler 0) = 200 * 1000) ∧
    TWI_KHZ = 200 := by
  decide

/-! ### Closed-loop roll correction -/

theorem IMU_rotate_roll_Rzy (u : IMU ℝ) (s c dx : ℝ) (hsc : s ^ 2 + c ^ 2 = 1)
    (hR : IMU_R u = [1, 0, 0, 0, c, -s, 0, s, c]) :
    (IMU_rotate u dx 0 0).Rzy = (s + c * dx) * (1 - dx ^ 2 / 2) := by
  simp only [IMU_R, List.cons.injEq, and_true] at hR
  obtain ⟨h1, h2, h3, h4, h5, h6, h7, h8, h9⟩ := hR
  have h05 : (0.5 : ℝ) = 1 / 2 := by norm_num
  simp only [IMU_rotate, h1, h2, h3, h4, h5, h6, h7, h8, h9, h05]
  linear_combination (-(s + c * dx) * (1 + dx ^ 2) / 2) * hsc

/-- C26: closed-loop roll correction is a contraction.  For a matrix that is the exact roll
rotation by t with 0 < |t| < π/2, reference angles 0, zero gyro increments, correction
enabled and the stance upright-confirmed, one IMU_update gives
Rzy' = Rzy * (1 - K * Rzz) * (1 - K^2 * Rzy^2 / 2) with K = 1/125; Rzy' has the sign of Rzy
and a strictly smaller magnitude. -/
theorem IMU_update_roll_contraction (b : Build) (m : MPU) (s : IMU ℝ) (t : ℝ)
    (ht1 : 0 < |t|) (ht2 : |t| < π / 2)
    (hR : IMU_R s = [1, 0, 0, 0, cos t, -sin t, 0, sin t, cos t])
    (href : s.IMU_rollReference = 0 ∧ s.IMU_pitchReference = 0)
    (hgyro : (GYRO_getRotations b m : ℝ × ℝ × ℝ) = (0, 0, 0))
    (hal : s.IMU_aligned = true) (hdc : s.IMU_apply_dc = true)
    (hup : (IMU_stance b m s.duration).1 = true) :
    (IMU_update b m s).Rzy
      = s.Rzy * (1 - 1 / 125 * s.Rzz) * (1 - (1 / 125) ^ 2 * s.Rzy ^ 2 / 2) ∧
    0 < (IMU_update b m s).Rzy * s.Rzy ∧
    |(IMU_update b m s).Rzy| < |s.Rzy| := by
  have hR' := hR
  simp only [IMU_R, List.cons.injEq, and_true] at hR'
  obtain ⟨-, -, -, -, -, -, hzx, hzy, hzz⟩ := hR'
  have hcos : 0 < cos t := Real.cos_pos_of_mem_Ioo ⟨by linarith [(abs_lt.mp ht2).1],
    (abs_lt.mp ht2).2⟩
  have hcos1 : cos t ≤ 1 := Real.cos_le_one t
  have hsin1 : sin t ^ 2 ≤ 1 := by nlinarith [Real.sin_sq_add_cos_sq t]
  have hsin0 : sin t ≠ 0 := by
    intro h0
    have htne : t ≠ 0 := abs_pos.mp ht1
    have hpi := Real.pi_pos
    rcases lt_or_gt_of_ne htne with hneg | hpos
    · have : sin t < 0 := Real.sin_neg_of_neg_of_neg_pi_lt hneg
        (by linarith [(abs_lt.mp ht2).1])
      linarith
    · have : 0 < sin t := Real.sin_pos_of_pos_of_lt_pi hpos (by linarith [(abs_lt.mp ht2).2])
      linarith
  have hform : (IMU_update b m s).Rzy
      = sin t * (1 - 1 / 125 * cos t) * (1 - (1 / 125) ^ 2 * sin t ^ 2 / 2) := by
    rw [IMU_update_aligned b m s hal, hgyro]
    have hdc2 := (IMU_afterSnapshot_R b m s).2
    have he : (IMU_afterSnapshot b m s).IMU_rollError = sin t ∧
        (IMU_afterSnapshot b m s).IMU_pitchError = 0 ∧
        (IMU_afterSnapshot b m s).IMU_yawError = 0 := by
      simp [IMU_afterSnapshot, IMU_snapshot, hup, hzy, hzx, href.1, href.2]
    simp only [IMU_correct, hdc2, hdc, he.1, he.2.1, he.2.2, IMU_K_eq, Bool.not_true,
      Bool.false_eq_true, if_false, mul_zero, zero_add, add_zero]
    rw [IMU_rotate_roll_Rzy _ (sin t) (cos t) _ (Real.sin_sq_add_cos_sq t)
      (by rw [← hR]; exact (IMU_afterSnapshot_R b m s).1)]
    ring
  have hf1 : 0 < 1 - 1 / 125 * cos t := by linarith
  have hf1' : 1 - 1 / 125 * cos t < 1 := by linarith
  have hf2 : 0 < 1 - (1 / 125) ^ 2 * sin t ^ 2 / 2 := by nlinarith
  have hf2' : 1 - (1 / 125) ^ 2 * sin t ^ 2 / 2 ≤ 1 := by nlinarith [sq_nonneg (sin t)]
  have hprod0 : 0 < (1 - 1 / 125 * cos t) * (1 - (1 / 125) ^ 2 * sin t ^ 2 / 2) :=
    mul_pos hf1 hf2
  have hprod1 : (1 - 1 / 125 * cos t) * (1 - (1 / 125) ^ 2 * sin t ^ 2 / 2) < 1 := by
    nlinarith
  refine ⟨by rw [hform, hzy, hzz], ?_, ?_⟩
  · rw [hform, hzy]
    have hs2 : 0 < sin t * sin t := mul_self_pos.mpr hsin0
    have e : sin t * (1 - 1 / 125 * cos t) * (1 - (1 / 125) ^ 2 * sin t ^ 2 / 2) * sin t
        = (sin t * sin t)
          * ((1 - 1 / 125 * cos t) * (1 - (1 / 125) ^ 2 * sin t ^ 2 / 2)) := by ring
    rw [e]
    exact mul_pos hs2 hprod0
  · rw [hform, hzy, mul_assoc, abs_mul, abs_of_pos hprod0]
    have habs : 0 < |sin t| := abs_pos.mpr hsin0
    nlinarith

theorem IMU_update_roll_contraction_witness :
    (0 < |π / 6| ∧ |π / 6| < π / 2) ∧
    (IMU_update ⟨0, 16⟩ (MPU_sample 0 0 0 0) (IMU_rolled (π / 6))).Rzy
      = (IMU_rolled (π / 6)).Rzy * (1 - 1 / 125 * (IMU_rolled (π / 6)).Rzz)
          * (1 - (1 / 125) ^ 2 * (IMU_rolled (π / 6)).Rzy ^ 2 / 2) ∧
    0 < (IMU_update ⟨0, 16⟩ (MPU_sample 0 0 0 0) (IMU_rolled (π / 6))).Rzy
          * (IMU_rolled (π / 6)).Rzy ∧
    |(IMU_update ⟨0, 16⟩ (MPU_sample 0 0 0 0) (IMU_rolled (π / 6))).Rzy|
      < |(IMU_rolled (π / 6)).Rzy| := by
  have hpi := Real.pi_pos
  have h1 : 0 < |π / 6| := by rw [abs_of_pos (by linarith)]; linarith
  have h2 : |π / 6| < π / 2 := by rw [abs_of_pos (by linarith)]; linarith
  refine ⟨⟨h1, h2⟩, IMU_update_roll_contraction ⟨0, 16⟩ (MPU_sample 0 0 0 0)
    (IMU_rolled (π / 6)) (π / 6) h1 h2 ?_ ⟨rfl, rfl⟩ ?_ rfl rfl ?_⟩
  · simp [IMU_R, IMU_rolled, IMU_align, IMU_set, realLibm]
  · simp [GYRO_getRotations, MPU_sample]
  · simp [IMU_stance, GYRO_getYawRate, MPU_sample, IMU_rolled, IMU_RATE_THRESHOLD,
      IMU_RATE_DURATION, DEG_TO_RAD, IMU_HZ]
    norm_num

/-! ### Alignment with yaw zero -/

/-- C29: for yaw = 0 and every roll and pitch IMU_set writes exactly the standard
yaw-pitch-roll matrix; it is orthonormal (unit rows, pairwise perpendicular, row Z the cross
product of rows X and Y) with determinant 1; IMU_align 0 0 0 writes the identity matrix; and
CAMERA_align and CAMERA_zero call IMU_align with yaw = 0. -/
theorem IMU_set_yaw_zero (s : IMU ℝ) (cam : CAMERA ℝ) (roll pitch : ℝ) :
    IMU_R (IMU_set realLibm s roll pitch 0) = standard_yaw_pitch_roll realLibm roll pitch 0 ∧
    Orthonormal (IMU_set realLibm s roll pitch 0) ∧
    (sqZ (IMU_set realLibm s roll pitch 0) = 1 ∧ dotXZ (IMU_set realLibm s roll pitch 0) = 0 ∧
      dotYZ (IMU_set realLibm s roll pitch 0) = 0) ∧
    (IMU_matrix (IMU_set realLibm s roll pitch 0)).det = 1 ∧
    IMU_matrix (IMU_align realLibm s 0 0 0) = 1 ∧
    (CAMERA_zero realLibm cam s).2 = IMU_align realLibm s 0 0 0 ∧
    (CAMERA_zero realLibm cam s).1.CAMERA_yaw = 0 ∧
    (CAMERA_align realLibm cam s roll pitch).2 = IMU_align realLibm s roll pitch 0 ∧
    (CAMERA_align realLibm cam s roll pitch).1.CAMERA_yaw = 0 := by
  have hr := Real.sin_sq_add_cos_sq roll
  have hp := Real.sin_sq_add_cos_sq pitch
  refine ⟨?_, ?_, ⟨?_, ?_, ?_⟩, ?_, ?_, rfl, rfl, rfl, rfl⟩
  · simp [IMU_R, IMU_set, standard_yaw_pitch_roll, realLibm]
  · simp only [Orthonormal, sqX, sqY, dotXY, IMU_set, realLibm, Real.sin_zero, Real.cos_zero]
    refine ⟨?_, ?_, ?_, ?_, ?_, ?_⟩
    · linear_combination (sin pitch ^ 2) * hr + hp
    · linear_combination hr
    · ring
    · linear_combination (sin pitch) * hr
    · ring
    · ring
  · simp only [sqZ, IMU_set, realLibm]
    linear_combination (cos pitch ^ 2) * hr + hp
  · simp only [dotXZ, IMU_set, realLibm, Real.sin_zero, Real.cos_zero]
    linear_combination (cos pitch * sin pitch) * hr
  · simp only [dotYZ, IMU_set, realLibm, Real.sin_zero, Real.cos_zero]
    ring
  · rw [IMU_det_eq]
    simp only [IMU_set, realLibm, Real.sin_zero, Real.cos_zero]
    linear_combination (cos pitch ^ 2 + sin pitch ^ 2) * hr + hp
  · ext i j
    fin_cases i <;> fin_cases j <;>
      simp [IMU_matrix, IMU_align, IMU_set, realLibm, Matrix.one_apply, Matrix.vecHead, Matrix.vecTail]

/-! ### The low-pass filter of MPU_update -/

theorem MPU_filter_eq (f c : Int) : MPU_filter f c = f - f / 8 + c := by
  have h := Int.shiftRight_eq_div_pow f 3
  norm_num at h
  simp only [MPU_filter, h]

theorem shift3_eq (f : Int) : f >>> (3 : Nat) = f / 8 := by
  have h := Int.shiftRight_eq_div_pow f 3
  norm_num at h
  exact h

theorem wrap16_range (v : Int) : -32768 ≤ wrap16 v ∧ wrap16 v ≤ 32767 := by
  unfold wrap16
  omega

/-- The five one-step facts of the recurrence f ← f - (f >> 3) + c. -/
theorem MPU_filter_step (f c : Int) :
    (f >>> (3 : Nat) ≤ c → MPU_filter f c >>> (3 : Nat) ≤ c) ∧
    (c ≤ f >>> (3 : Nat) → c ≤ MPU_filter f c >>> (3 : Nat)) ∧
    (f >>> (3 : Nat) < c → f < MPU_filter f c ∧ MPU_filter f c ≤ 8 * c) ∧
    (c < f >>> (3 : Nat) → 8 * c + 7 ≤ MPU_filter f c ∧ MPU_filter f c < f) ∧
    (f >>> (3 : Nat) = c → MPU_filter f c = f) := by
  simp only [shift3_eq, MPU_filter_eq]
  refine ⟨?_, ?_, ?_, ?_, ?_⟩ <;> intro h <;> omega

/-- A state within n of the fixed range [8c, 8c + 7] is inside it after n updates. -/
theorem MPU_filter_iterate (c : Int) :
    ∀ (n : Nat) (f : Int), 8 * c - n ≤ f → f ≤ 8 * c + 7 + n →
      ((fun v => MPU_filter v c)^[n] f) >>> (3 : Nat) = c := by
  intro n
  induction n with
  | zero =>
    intro f h1 h2
    simp only [Function.iterate_zero, id_eq, shift3_eq]
    omega
  | succ n ih =>
    intro f h1 h2
    rw [Function.iterate_succ_apply]
    apply ih
    · rw [MPU_filter_eq]
      push_cast at h1 h2 ⊢
      omega
    · rw [MPU_filter_eq]
      push_cast at h1 h2 ⊢
      omega

/-- The filter state stays in 32 bits when the input is a 16 bit value. -/
theorem MPU_filter_range (f c : Int) (hf : -2147483648 ≤ f ∧ f ≤ 2147483647)
    (hc : -32768 ≤ c ∧ c ≤ 32767) :
    -2147483648 ≤ MPU_filter f c ∧ MPU_filter f c ≤ 2147483647 := by
  rw [MPU_filter_eq]
  omega

/-- The invariants of repeated MPU_update calls with the same readings outside
calibration: the flag and the biases stay, and each filter state follows the
recurrence without 32 bit wrap. -/
theorem MPU_window_replicate (mpu : MPU) (g a : Int × Int × Int)
    (hcal : mpu.MPU_calibrating = false)
    (hx : -2147483648 ≤ mpu.x_filter ∧ mpu.x_filter ≤ 2147483647)
    (hy : -2147483648 ≤ mpu.y_filter ∧ mpu.y_filter ≤ 2147483647)
    (hz : -2147483648 ≤ mpu.z_filter ∧ mpu.z_filter ≤ 2147483647) :
    ∀ k : Nat,
      (MPU_window mpu (List.replicate k (g, a))).MPU_calibrating = false ∧
      (MPU_window mpu (List.replicate k (g, a))).GYRO_x_bias = mpu.GYRO_x_bias ∧
      (MPU_window mpu (List.replicate k (g, a))).GYRO_y_bias = mpu.GYRO_y_bias ∧
      (MPU_window mpu (List.replicate k (g, a))).GYRO_z_bias = mpu.GYRO_z_bias ∧
      (MPU_window mpu (List.replicate k (g, a))).x_filter
        = (fun v => MPU_filter v (wrap16 (g.1 - mpu.GYRO_x_bias)))^[k] mpu.x_filter ∧
      (MPU_window mpu (List.replicate k (g, a))).y_filter
        = (fun v => MPU_filter v (wrap16 (g.2.1 - mpu.GYRO_y_bias)))^[k] mpu.y_filter ∧
      (MPU_window mpu (List.replicate k (g, a))).z_filter
        = (fun v => MPU_filter v (wrap16 (g.2.2 - mpu.GYRO_z_bias)))^[k] mpu.z_filter ∧
      (-2147483648 ≤ (MPU_window mpu (List.replicate k (g, a))).x_filter ∧
        (MPU_window mpu (List.replicate k (g, a))).x_filter ≤ 2147483647) ∧
      (-2147483648 ≤ (MPU_window mpu (List.replicate k (g, a))).y_filter ∧
        (MPU_window mpu (List.replicate k (g, a))).y_filter ≤ 2147483647) ∧
      (-2147483648 ≤ (MPU_window mpu (List.replicate k (g, a))).z_filter ∧
        (MPU_window mpu (List.replicate k (g, a))).z_filter ≤ 2147483647) ∧
      (1 ≤ k →
        (MPU_window mpu (List.replicate k (g, a))).GYRO_x_srate
          = wrap16 ((MPU_window mpu (List.replicate k (g, a))).x_filter >>> (3 : Nat)) ∧
        (MPU_window mpu (List.replicate k (g, a))).GYRO_y_srate
          = wrap16 ((MPU_window mpu (List.replicate k (g, a))).y_filter >>> (3 : Nat)) ∧
        (MPU_window mpu (List.replicate k (g, a))).GYRO_z_srate
          = wrap16 ((MPU_window mpu (List.replicate k (g, a))).z_filter >>> (3 : Nat))) := by
  intro k
  induction k with
  | zero =>
    exact ⟨hcal, rfl, rfl, rfl, rfl, rfl, rfl, hx, hy, hz, fun h => absurd h (by decide)⟩
  | succ k ih =>
    obtain ⟨ic, ibx, iby, ibz, ifx, ify, ifz, irx, iry, irz, _⟩ := ih
    have hw : MPU_window mpu (List.replicate (k + 1) (g, a))
        = MPU_update (MPU_window mpu (List.replicate k (g, a))) g a := by
      simp only [MPU_window, List.replicate_succ', List.foldl_append, List.foldl_cons,
        List.foldl_nil]
    have rx := MPU_filter_range _ _ irx
      (wrap16_range (g.1 - (MPU_window mpu (List.replicate k (g, a))).GYRO_x_bias))
    have ry := MPU_filter_range _ _ iry
      (wrap16_range (g.2.1 - (MPU_window mpu (List.replicate k (g, a))).GYRO_y_bias))
    have rz := MPU_filter_range _ _ irz
      (wrap16_range (g.2.2 - (MPU_window mpu (List.replicate k (g, a))).GYRO_z_bias))
    have ex : (MPU_update (MPU_window mpu (List.replicate k (g, a))) g a).x_filter
        = MPU_filter (MPU_window mpu (List.replicate k (g, a))).x_filter
            (wrap16 (g.1 - (MPU_window mpu (List.replicate k (g, a))).GYRO_x_bias)) := by
      have h := wrap32_of_range _ rx.1 rx.2
      simp only [MPU_update, ic, Bool.false_eq_true, if_false]
      unfold MPU_filter at h ⊢
      exact h
    have ey : (MPU_update (MPU_window mpu (List.replicate k (g, a))) g a).y_filter
        = MPU_filter (MPU_window mpu (List.replicate k (g, a))).y_filter
            (wrap16 (g.2.1 - (MPU_window mpu (List.replicate k (g, a))).GYRO_y_bias)) := by
      have h := wrap32_of_range _ ry.1 ry.2
      simp only [MPU_update, ic, Bool.false_eq_true, if_false]
      unfold MPU_filter at h ⊢
      exact h
    have ez : (MPU_update (MPU_window mpu (List.replicate k (g, a))) g a).z_filter
        = MPU_filter (MPU_window mpu (List.replicate k (g, a))).z_filter
            (wrap16 (g.2.2 - (MPU_window mpu (List.replicate k (g, a))).GYRO_z_bias)) := by
      have h := wrap32_of_range _ rz.1 rz.2
      simp only [MPU_update, ic, Bool.false_eq_true, if_false]
      unfold MPU_filter at h ⊢
      exact h
    rw [hw]
    refine ⟨?_, ?_, ?_, ?_, ?_, ?_, ?_, ?_, ?_, ?_, ?_⟩
    · simp only [MPU_update, ic, Bool.false_eq_true, if_false]
    · simp only [MPU_update, ic, Bool.false_eq_true, if_false]; exact ibx
    · simp only [MPU_update, ic, Bool.false_eq_true, if_false]; exact iby
    · simp only [MPU_update, ic, Bool.false_eq_true, if_false]; exact ibz
    · rw [ex, Function.iterate_succ_apply', ifx, ibx]
    · rw [ey, Function.iterate_succ_apply', ify, iby]
    · rw [ez, Function.iterate_succ_apply', ifz, ibz]
    · rw [ex]; exact rx
    · rw [ey]; exact ry
    · rw [ez]; exact rz
    · intro _
      simp only [MPU_update, ic, Bool.false_eq_true, if_false, and_self]

/-- C30: outside calibration and with the filter states in 32 bit range, the low-pass
filter of MPU_update follows f ← f - (f >> 3) + c without overflow, where c is the
bias-corrected reading; its output f >> 3 never crosses c, the state moves strictly
toward the fixed range [8c, 8c + 7], where it stays; and under constant readings there
is a number of updates after which the smoothed rate of each axis equals c exactly and
stays c. -/
theorem MPU_filter_unity_gain (mpu : MPU) (g a : Int × Int × Int)
    (hcal : mpu.MPU_calibrating = false)
    (hx : -2147483648 ≤ mpu.x_filter ∧ mpu.x_filter ≤ 2147483647)
    (hy : -2147483648 ≤ mpu.y_filter ∧ mpu.y_filter ≤ 2147483647)
    (hz : -2147483648 ≤ mpu.z_filter ∧ mpu.z_filter ≤ 2147483647) :
    ((MPU_update mpu g a).x_filter
        = MPU_filter mpu.x_filter (wrap16 (g.1 - mpu.GYRO_x_bias)) ∧
      (MPU_update mpu g a).y_filter
        = MPU_filter mpu.y_filter (wrap16 (g.2.1 - mpu.GYRO_y_bias)) ∧
      (MPU_update mpu g a).z_filter
        = MPU_filter mpu.z_filter (wrap16 (g.2.2 - mpu.GYRO_z_bias)) ∧
      (MPU_update mpu g a).GYRO_x_srate = wrap16 ((MPU_update mpu g a).x_filter >>> (3 : Nat)) ∧
      (MPU_update mpu g a).GYRO_y_srate = wrap16 ((MPU_update mpu g a).y_filter >>> (3 : Nat)) ∧
      (MPU_update mpu g a).GYRO_z_srate = wrap16 ((MPU_update mpu g a).z_filter >>> (3 : Nat))) ∧
    (∀ f c : Int,
      (f >>> (3 : Nat) ≤ c → MPU_filter f c >>> (3 : Nat) ≤ c) ∧
      (c ≤ f >>> (3 : Nat) → c ≤ MPU_filter f c >>> (3 : Nat)) ∧
      (f >>> (3 : Nat) < c → f < MPU_filter f c ∧ MPU_filter f c ≤ 8 * c) ∧
      (c < f >>> (3 : Nat) → 8 * c + 7 ≤ MPU_filter f c ∧ MPU_filter f c < f) ∧
      (f >>> (3 : Nat) = c → MPU_filter f c = f)) ∧
    (∀ k : Nat,
      (MPU_window mpu (List.replicate k (g, a))).x_filter
        = (fun v => MPU_filter v (wrap16 (g.1 - mpu.GYRO_x_bias)))^[k] mpu.x_filter ∧
      (MPU_window mpu (List.replicate k (g, a))).y_filter
        = (fun v => MPU_filter v (wrap16 (g.2.1 - mpu.GYRO_y_bias)))^[k] mpu.y_filter ∧
      (MPU_window mpu (List.replicate k (g, a))).z_filter
        = (fun v => MPU_filter v (wrap16 (g.2.2 - mpu.GYRO_z_bias)))^[k] mpu.z_filter) ∧
    (∃ N : Nat, ∀ k : Nat, N ≤ k →
      (MPU_window mpu (List.replicate k (g, a))).x_filter >>> (3 : Nat)
        = wrap16 (g.1 - mpu.GYRO_x_bias) ∧
      (MPU_window mpu (List.replicate k (g, a))).y_filter >>> (3 : Nat)
        = wrap16 (g.2.1 - mpu.GYRO_y_bias) ∧
      (MPU_window mpu (List.replicate k (g, a))).z_filter >>> (3 : Nat)
        = wrap16 (g.2.2 - mpu.GYRO_z_bias) ∧
      (MPU_window mpu (List.replicate k (g, a))).GYRO_x_srate
        = wrap16 (g.1 - mpu.GYRO_x_bias) ∧
      (MPU_window mpu (List.replicate k (g, a))).GYRO_y_srate
        = wrap16 (g.2.1 - mpu.GYRO_y_bias) ∧
      (MPU_window mpu (List.replicate k (g, a))).GYRO_z_srate
        = wrap16 (g.2.2 - mpu.GYRO_z_bias)) := by
  have hwin := MPU_window_replicate mpu g a hcal hx hy hz
  refine ⟨?_, MPU_filter_step, fun k => ⟨(hwin k).2.2.2.2.1, (hwin k).2.2.2.2.2.1,
    (hwin k).2.2.2.2.2.2.1⟩, ?_⟩
  · have h1 := hwin 1
    simp only [List.replicate_one, MPU_window, List.foldl_cons, List.foldl_nil,
      Function.iterate_one] at h1
    obtain ⟨_, _, _, _, fx, fy, fz, _, _, _, hs⟩ := h1
    exact ⟨fx, fy, fz, hs (le_refl 1)⟩
  · refine ⟨1 + (mpu.x_filter - 8 * wrap16 (g.1 - mpu.GYRO_x_bias)).natAbs
        + (mpu.y_filter - 8 * wrap16 (g.2.1 - mpu.GYRO_y_bias)).natAbs
        + (mpu.z_filter - 8 * wrap16 (g.2.2 - mpu.GYRO_z_bias)).natAbs, ?_⟩
    intro k hk
    obtain ⟨_, _, _, _, fx, fy, fz, _, _, _, hs⟩ := hwin k
    have qx : (MPU_window mpu (List.replicate k (g, a))).x_filter >>> (3 : Nat)
        = wrap16 (g.1 - mpu.GYRO_x_bias) := by
      rw [fx]
      apply MPU_filter_iterate <;> omega
    have qy : (MPU_window mpu (List.replicate k (g, a))).y_filter >>> (3 : Nat)
        = wrap16 (g.2.1 - mpu.GYRO_y_bias) := by
      rw [fy]
      apply MPU_filter_iterate <;> omega
    have qz : (MPU_window mpu (List.replicate k (g, a))).z_filter >>> (3 : Nat)
        = wrap16 (g.2.2 - mpu.GYRO_z_bias) := by
      rw [fz]
      apply MPU_filter_iterate <;> omega
    obtain ⟨sx, sy, sz⟩ := hs (by omega)
    refine ⟨qx, qy, qz, ?_, ?_, ?_⟩
    · rw [sx, qx]
      exact wrap16_of_range _ (wrap16_range _).1 (wrap16_range _).2
    · rw [sy, qy]
      exact wrap16_of_range _ (wrap16_range _).1 (wrap16_range _).2
    · rw [sz, qz]
      exact wrap16_of_range _ (wrap16_range _).1 (wrap16_range _).2

theorem MPU_filter_unity_gain_witness :
    (MPU_sample 0 0 0 0).MPU_calibrating = false ∧
    (-2147483648 ≤ (MPU_sample 0 0 0 0).x_filter ∧
      (MPU_sample 0 0 0 0).x_filter ≤ 2147483647) ∧
    ∃ N : Nat, ∀ k : Nat, N ≤ k →
      (MPU_window (MPU_sample 0 0 0 0)
        (List.replicate k ((100, -7, 3), (0, 0, 0)))).GYRO_x_srate = 100 := by
  have e : wrap16 (((100, -7, 3) : Int × Int × Int).1 - (MPU_sample 0 0 0 0).GYRO_x_bias)
      = 100 := by decide
  obtain ⟨N, h⟩ := (MPU_filter_unity_gain (MPU_sample 0 0 0 0) (100, -7, 3) (0, 0, 0) rfl
    (by decide) (by decide) (by decide)).2.2.2
  exact ⟨rfl, by decide, N, fun k hk => ((h k hk).2.2.2.1).trans e⟩

/-! ### Calibration behind the timer interrupt -/

end ContourGyro
